import Mathlib

/-!
# Bidder adapters of prebid-server: sovrn, sovrnXsp, verizonmedia

A shallow embedding of `adapters/sovrn/sovrn.go`, `adapters/sovrnXsp/sovrnXsp.go`
and `adapters/verizonmedia/verizonmedia.go`.

Conventions of the embedding.

* A Go pointer that the adapters write through (`*openrtb.Site`, `*openrtb.Banner`,
  and the address `&bid` of a loop variable) is an index into an explicit store, so
  that aliasing between the caller's request and the requests an adapter builds is
  visible.  Pointers that are only tested against `nil` or only read are `Option`s.
* A run-time panic (nil dereference) is the `Except.error` of `Go`.  Returned Go
  `error` values are ordinary data (`GoError`).
* `encoding/json`, `strings.TrimSpace` and the `%d` rendering of an error value are
  collaborators outside the repository; they are the fields of `Stdlib` and every
  theorem holds for all of them.
* `float64` values are only copied by this code; they are carried as bit patterns.
-/

namespace PrebidServer

/-! ## Go runtime -/

/-- Run-time panics of the Go code; `outOfFuel` is the model's own bound on a loop. -/
inductive Fault where
  | nilDereference
  | indexOutOfRange
  | outOfFuel
deriving DecidableEq, Repr

/-- A Go computation that either panics or returns. -/
abbrev Go (α : Type) := Except Fault α

/-- An address in one of the stores. -/
abbrev Ptr := Nat

/-- Value of `json.RawMessage`; the nil message is the empty one. -/
abbrev RawMessage := String

/-- A `float64`, carried as its bit pattern (the adapters only copy such values). -/
structure Float64 where
  bits : Nat
deriving DecidableEq, Repr

/-- Go `error` values, by dynamic type: `*errortypes.BadInput`,
`*errortypes.BadServerResponse`, and every other error (`fmt.Errorf`, `errors.New`,
the errors of `encoding/json`). -/
inductive GoError where
  | errorString (s : String)
  | BadInput (Message : String)
  | BadServerResponse (Message : String)
deriving DecidableEq, Repr

/-- The `Error()` method. -/
def GoError.Error : GoError → String
  | .errorString s => s
  | .BadInput m => m
  | .BadServerResponse m => m

/-- The error is a `*errortypes.BadServerResponse`. -/
def GoError.isBadServerResponse : GoError → Bool
  | .BadServerResponse _ => true
  | _ => false

/-- The error is a `*errortypes.BadInput`. -/
def GoError.isBadInput : GoError → Bool
  | .BadInput _ => true
  | _ => false

/-- The `%d` verb of `fmt` on an `int`. -/
def fmtD (n : Int) : String := toString n

/-- The function `strconv.Itoa`. -/
def Itoa (n : Int) : String := toString n

/-- The text `sub` occurs in `msg`. -/
def mentions (msg sub : String) : Prop := sub.data <:+: msg.data

/-! ## OpenRTB data model (the fields the adapters touch) -/

namespace openrtb

structure Format where
  W : Nat
  H : Nat
deriving DecidableEq, Repr

/-- The type `openrtb.Banner`; `W` and `H` are `*uint64`. -/
structure Banner where
  W : Option Nat
  H : Option Nat
  Format : List Format
  ID : String
deriving DecidableEq, Repr

structure Video where
  MIMEs : List String
deriving DecidableEq, Repr

structure Audio where
  MIMEs : List String
deriving DecidableEq, Repr

structure Native where
  Request : String
deriving DecidableEq, Repr

/-- The type `openrtb.Imp`, with `β` the representation of the `Banner` field: an address for
the value in memory, a `Banner` for the tree `json.Marshal` walks. -/
structure ImpOf (β : Type) where
  ID : String
  Banner : Option β
  Video : Option Video
  Audio : Option Audio
  Native : Option Native
  TagID : String
  BidFloor : Float64
  Ext : RawMessage
deriving DecidableEq, Repr

structure Site where
  ID : String
  Domain : String
  Page : String
deriving DecidableEq, Repr

structure Publisher where
  ID : String
  Name : String
deriving DecidableEq, Repr

structure App where
  ID : String
  Bundle : String
  Publisher : Option Publisher
deriving DecidableEq, Repr

structure Device where
  UA : String
  IP : String
  Language : String
  DNT : Int
deriving DecidableEq, Repr

structure User where
  ID : String
  BuyerUID : String
deriving DecidableEq, Repr

/-- The type `openrtb.BidRequest`, with `σ` and `β` the representations of `*Site` and
`*Banner`. -/
structure BidRequestOf (σ β : Type) where
  ID : String
  Imp : List (ImpOf β)
  Site : Option σ
  App : Option App
  Device : Option Device
  User : Option User
deriving DecidableEq, Repr

/-- An impression in memory. -/
abbrev Imp := ImpOf Ptr

/-- A bid request in memory. -/
abbrev BidRequest := BidRequestOf Ptr Ptr

/-- The tree of a bid request, as `json.Marshal` reads it. -/
abbrev BidRequestTree := BidRequestOf Site Banner

structure Bid where
  ID : String
  ImpID : String
  Price : Float64
  AdM : String
  CrID : String
  W : Nat
  H : Nat
  DealID : String
  NURL : String
  Ext : RawMessage
deriving DecidableEq, Repr

structure SeatBid where
  Bid : List Bid
  Seat : String
deriving DecidableEq, Repr

structure BidResponse where
  ID : String
  SeatBid : List SeatBid
deriving DecidableEq, Repr

/-- The zero value of `openrtb.Bid`. -/
def Bid.zero : Bid :=
  ⟨"", "", ⟨0⟩, "", "", 0, 0, "", "", ""⟩

end openrtb

open openrtb

/-! ## The store -/

/-- The objects the adapters reach through pointers. -/
structure Heap where
  sites : List Site
  banners : List Banner
deriving DecidableEq, Repr

/-- Read `*p` for a `*Banner`. -/
def Heap.banner (h : Heap) (p : Ptr) : Go Banner :=
  match h.banners[p]? with
  | some b => .ok b
  | none => .error .nilDereference

/-- Read `*p` for a `*Site`. -/
def Heap.site (h : Heap) (p : Ptr) : Go Site :=
  match h.sites[p]? with
  | some s => .ok s
  | none => .error .nilDereference

/-- Allocate a new `Banner`; returns its address. -/
def Heap.newBanner (h : Heap) (b : Banner) : Ptr × Heap :=
  (h.banners.length, { h with banners := h.banners ++ [b] })

/-- Allocate a new `Site`; returns its address. -/
def Heap.newSite (h : Heap) (s : Site) : Ptr × Heap :=
  (h.sites.length, { h with sites := h.sites ++ [s] })

/-- Write `*p = b` for a `*Banner`. -/
def Heap.setBanner (h : Heap) (p : Ptr) (b : Banner) : Go Heap :=
  if p < h.banners.length then .ok { h with banners := h.banners.set p b }
  else .error .nilDereference

/-- Write `*p = s` for a `*Site`. -/
def Heap.setSite (h : Heap) (p : Ptr) (s : Site) : Go Heap :=
  if p < h.sites.length then .ok { h with sites := h.sites.set p s }
  else .error .nilDereference

/-- The impression as `json.Marshal` sees it: the banner pointer followed. -/
def Heap.impTree (h : Heap) (imp : Imp) : Go (ImpOf Banner) :=
  match imp.Banner with
  | none =>
      .ok ⟨imp.ID, none, imp.Video, imp.Audio, imp.Native, imp.TagID, imp.BidFloor, imp.Ext⟩
  | some p =>
      match h.banner p with
      | .error f => .error f
      | .ok b =>
          .ok ⟨imp.ID, some b, imp.Video, imp.Audio, imp.Native, imp.TagID, imp.BidFloor,
            imp.Ext⟩

/-- The impressions as `json.Marshal` sees them. -/
def Heap.impTrees (h : Heap) : List Imp → Go (List (ImpOf Banner))
  | [] => .ok []
  | imp :: rest =>
      match h.impTree imp with
      | .error f => .error f
      | .ok t =>
          match h.impTrees rest with
          | .error f => .error f
          | .ok ts => .ok (t :: ts)

/-- The request as `json.Marshal` sees it: all pointers followed. -/
def Heap.tree (h : Heap) (r : BidRequest) : Go BidRequestTree :=
  match h.impTrees r.Imp with
  | .error f => .error f
  | .ok imps =>
      match r.Site with
      | none => .ok ⟨r.ID, imps, none, r.App, r.Device, r.User⟩
      | some p =>
          match h.site p with
          | .error f => .error f
          | .ok s => .ok ⟨r.ID, imps, some s, r.App, r.Device, r.User⟩

/-! ## Package `openrtb_ext` and `adapters` -/

namespace openrtb_ext

/-- The type `openrtb_ext.BidType` is a string type; its zero value is the empty string. -/
abbrev BidType := String

def BidTypeBanner : BidType := "banner"
def BidTypeVideo : BidType := "video"
def BidTypeAudio : BidType := "audio"
def BidTypeNative : BidType := "native"

/-- The parameters `sovrn.preprocess` reads: `TagId` is passed to `strconv.Itoa`. -/
structure ExtImpSovrn where
  TagId : Int
  BidFloor : Float64
deriving DecidableEq, Repr

structure ExtImpVerizonMedia where
  Dcn : String
  Pos : String
deriving DecidableEq, Repr

structure ExtImpSovrnXsp where
  PubID : String
  MedID : String
  ZoneID : String
deriving DecidableEq, Repr

end openrtb_ext

namespace adapters

structure ExtImpBidder where
  Bidder : RawMessage
deriving DecidableEq, Repr

/-- The type `http.Header`, as the list of its entries in insertion order. -/
abbrev Header := List (String × String)

/-- The method `Header.Add`. -/
def Header.Add (h : Header) (k v : String) : Header := h ++ [(k, v)]

/-- The method `Header.Set`: replaces the entries of the key. -/
def Header.Set (h : Header) (k v : String) : Header :=
  h.filter (fun e => e.1 != k) ++ [(k, v)]

structure RequestData where
  Method : String
  Uri : String
  Body : String
  Headers : Header
deriving DecidableEq, Repr

structure ResponseData where
  StatusCode : Int
  Body : String
deriving DecidableEq, Repr

/-- The type `adapters.TypedBid`; `Bid` is a `*openrtb.Bid`, an address among the bid cells. -/
structure TypedBid where
  Bid : Ptr
  BidType : openrtb_ext.BidType
deriving DecidableEq, Repr

structure BidderResponse where
  Currency : String
  Bids : List TypedBid
deriving DecidableEq, Repr

/-- Modelled from the spec: `adapters.NewBidderResponseWithBidsCapacity` is not among
the sources; the Response Normalizer starts from an empty canonical list of
(bid, media-type) pairs, in the default currency. -/
def NewBidderResponseWithBidsCapacity (_capacity : Nat) : BidderResponse :=
  ⟨"USD", []⟩

end adapters

open adapters openrtb_ext

namespace sovrnXsp

/-- Bid response extension from XSP. -/
structure bidExt where
  CreativeType : Int
deriving DecidableEq, Repr

end sovrnXsp

/-- The library functions the adapters call. -/
structure Stdlib where
  /-- The call `json.Unmarshal` into an `openrtb.BidResponse`. -/
  unmarshalBidResponse : String → Except String BidResponse
  /-- The call `json.Unmarshal` into an `adapters.ExtImpBidder`. -/
  unmarshalExtImpBidder : RawMessage → Except String ExtImpBidder
  /-- The call `json.Unmarshal` into an `openrtb_ext.ExtImpSovrn`. -/
  unmarshalExtImpSovrn : RawMessage → Except String ExtImpSovrn
  /-- The call `json.Unmarshal` into an `openrtb_ext.ExtImpVerizonMedia`. -/
  unmarshalExtImpVerizonMedia : RawMessage → Except String ExtImpVerizonMedia
  /-- The call `json.Unmarshal` into an `openrtb_ext.ExtImpSovrnXsp`. -/
  unmarshalExtImpSovrnXsp : RawMessage → Except String ExtImpSovrnXsp
  /-- The call `json.Unmarshal` into a `sovrnXsp.bidExt`. -/
  unmarshalBidExt : RawMessage → Except String sovrnXsp.bidExt
  /-- The call `json.Marshal` of a bid request. -/
  marshalBidRequest : BidRequestTree → Except String String
  /-- The function `strings.TrimSpace`. -/
  TrimSpace : String → String
  /-- The rendering of a decoding error under the `%d` verb. -/
  errorVerbD : String → String

/-- The bid cells: the variables whose addresses the typed bids hold. -/
abbrev BidCells := List Bid

/-- What `MakeBids` of sovrn leaves behind: the two returned slices and the cells. -/
structure BidsResult where
  bids : List TypedBid
  errs : List GoError
  cells : BidCells
deriving DecidableEq, Repr

/-- What `MakeBids` of sovrnXsp and verizonmedia leaves behind: the returned
`*BidderResponse` (`none` is nil), the returned errors and the cells. -/
structure ResponseResult where
  response : Option BidderResponse
  errs : List GoError
  cells : BidCells
deriving DecidableEq, Repr

/-- The bid a typed bid points to, once `MakeBids` has returned. -/
def TypedBid.deref (cells : BidCells) (t : TypedBid) : Option Bid := cells[t.Bid]?

/-- All bids of a response, in seat-bid then bid order. -/
def allBids (r : BidResponse) : List Bid := r.SeatBid.flatMap (fun sb => sb.Bid)

/-! ## Response normalisation: `MakeBids` -/

namespace sovrn

/-- Source: `getMediaTypeForImp` of `sovrn.go`. -/
def getMediaTypeForImp (impId : String) : List Imp → BidType
  | [] => BidTypeBanner
  | imp :: rest =>
      if imp.ID = impId ∧ imp.Video.isSome then BidTypeVideo
      else getMediaTypeForImp impId rest

/-- The loop `for _, bid := range sb.Bid` of `MakeBids`; its variable `bid` lives at
address `c` for the whole loop, and every typed bid holds `&bid`. -/
def MakeBids.rangeBid (imps : List Imp) (c : Ptr) :
    List Bid → List TypedBid × BidCells → List TypedBid × BidCells
  | [], st => st
  | b :: rest, (bids, cells) =>
      rangeBid imps c rest
        (bids ++ [⟨c, getMediaTypeForImp b.ImpID imps⟩], cells.set c b)

/-- The loop `for _, sb := range bidResp.SeatBid` of `MakeBids`; each run of the inner
loop declares its variable afresh. -/
def MakeBids.rangeSeatBid (imps : List Imp) :
    List SeatBid → List TypedBid × BidCells → List TypedBid × BidCells
  | [], st => st
  | sb :: rest, (bids, cells) =>
      rangeSeatBid imps rest
        (MakeBids.rangeBid imps cells.length sb.Bid (bids, cells ++ [Bid.zero]))

/-- Source: `SovrnAdapter.MakeBids`. -/
def MakeBids (env : Stdlib) (internalRequest : BidRequest) (_externalRequest : RequestData)
    (response : ResponseData) : BidsResult :=
  if response.StatusCode = 204 then ⟨[], [], []⟩
  else if response.StatusCode ≠ 200 then
    ⟨[], [.errorString ("Unexpected status code: " ++ fmtD response.StatusCode
        ++ ". Run with request.debug = 1 for more info")], []⟩
  else
    match env.unmarshalBidResponse response.Body with
    | .error e => ⟨[], [.errorString e], []⟩
    | .ok bidResp =>
        let st := MakeBids.rangeSeatBid internalRequest.Imp bidResp.SeatBid ([], [])
        ⟨st.1, [], st.2⟩

end sovrn

namespace sovrnXsp

def creativeTypeBanner : Int := 0
def creativeTypeVideo : Int := 1
def creativeTypeNative : Int := 2
def creativeTypeAudio : Int := 3

/-- The `switch ext.CreativeType` of `MakeBids`: the bid type and the errors after it. -/
def MakeBids.switchCreativeType (creativeType : Int) (errors : List GoError) :
    BidType × List GoError :=
  if creativeType = creativeTypeBanner then (BidTypeBanner, errors)
  else if creativeType = creativeTypeVideo then (BidTypeVideo, errors)
  else if creativeType = creativeTypeNative then (BidTypeNative, errors)
  else ("", errors ++ [.BadServerResponse
    ("Unsupported creative type: " ++ fmtD creativeType)])

/-- The loop `for _, bid := range seatBid.Bid` of `MakeBids`; `bid := bid` gives every
iteration a variable of its own. -/
def MakeBids.rangeBid (env : Stdlib) :
    List Bid → List TypedBid × List GoError × BidCells →
      List TypedBid × List GoError × BidCells
  | [], st => st
  | b :: rest, (bids, errors, cells) =>
      let c := cells.length
      let cells1 := cells ++ [b]
      match env.unmarshalBidExt b.Ext with
      | .error e => rangeBid env rest (bids, errors ++ [.errorString e], cells1)
      | .ok ext =>
          let sw := MakeBids.switchCreativeType ext.CreativeType errors
          rangeBid env rest
            (bids ++ [⟨c, sw.1⟩], sw.2, cells1.set c { b with Ext := "" })

/-- The loop `for _, seatBid := range response.SeatBid` of `MakeBids`. -/
def MakeBids.rangeSeatBid (env : Stdlib) :
    List SeatBid → List TypedBid × List GoError × BidCells →
      List TypedBid × List GoError × BidCells
  | [], st => st
  | sb :: rest, st => rangeSeatBid env rest (MakeBids.rangeBid env sb.Bid st)

/-- Source: `adapter.MakeBids` of `sovrnXsp.go`. -/
def MakeBids (env : Stdlib) (request : BidRequest) (_requestData : RequestData)
    (responseData : ResponseData) : ResponseResult :=
  if responseData.StatusCode = 204 then ⟨none, [], []⟩
  else if responseData.StatusCode ≠ 200 then
    ⟨none, [.BadServerResponse ("Unexpected status code: "
        ++ fmtD responseData.StatusCode)], []⟩
  else
    match env.unmarshalBidResponse responseData.Body with
    | .error e => ⟨none, [.errorString e], []⟩
    | .ok response =>
        let result := NewBidderResponseWithBidsCapacity request.Imp.length
        let st := MakeBids.rangeSeatBid env response.SeatBid (result.Bids, [], [])
        ⟨some { result with Bids := st.1 }, st.2.1, st.2.2⟩

end sovrnXsp

namespace verizonmedia

/-- Source: `getImpInfo` of `verizonmedia.go`. -/
def getImpInfo (impId : String) : List Imp → Bool × BidType
  | [] => (false, "")
  | imp :: rest =>
      if imp.ID = impId then (true, if imp.Banner.isSome then BidTypeBanner else "")
      else getImpInfo impId rest

/-- The loop `for _, bid := range sb.Bid` of `MakeBids`, its variable at address `c`;
`.error` is the `return` out of the loop. -/
def MakeBids.rangeBid (imps : List Imp) (c : Ptr) :
    List Bid → List TypedBid × BidCells → Except GoError (List TypedBid × BidCells)
  | [], st => .ok st
  | b :: rest, (bids, cells) =>
      let cells1 := cells.set c b
      let info := getImpInfo b.ImpID imps
      if !info.1 then
        .error (.BadServerResponse ("Unknown ad unit code \x27" ++ b.ImpID ++ "\x27"))
      else if BidTypeBanner ≠ info.2 then rangeBid imps c rest (bids, cells1)
      else rangeBid imps c rest (bids ++ [⟨c, BidTypeBanner⟩], cells1)

/-- The loop `for _, sb := range bidResp.SeatBid` of `MakeBids`. -/
def MakeBids.rangeSeatBid (imps : List Imp) :
    List SeatBid → List TypedBid × BidCells → Except GoError (List TypedBid × BidCells)
  | [], st => .ok st
  | sb :: rest, (bids, cells) =>
      match MakeBids.rangeBid imps cells.length sb.Bid (bids, cells ++ [Bid.zero]) with
      | .error e => .error e
      | .ok st => rangeSeatBid imps rest st

/-- Source: `VerizonMediaAdapter.MakeBids`. -/
def MakeBids (env : Stdlib) (internalRequest : BidRequest) (_externalRequest : RequestData)
    (response : ResponseData) : ResponseResult :=
  if response.StatusCode = 204 then ⟨none, [], []⟩
  else if response.StatusCode ≠ 200 then
    ⟨none, [.BadServerResponse ("Unexpected status code: "
        ++ fmtD response.StatusCode ++ ".")], []⟩
  else
    match env.unmarshalBidResponse response.Body with
    | .error e =>
        ⟨none, [.BadServerResponse ("Bad server response: " ++ env.errorVerbD e ++ ".")], []⟩
    | .ok bidResp =>
        let bidResponse := NewBidderResponseWithBidsCapacity internalRequest.Imp.length
        if bidResp.SeatBid.length < 1 then
          ⟨none, [.BadServerResponse ("Invalid SeatBids count: "
              ++ fmtD bidResp.SeatBid.length)], []⟩
        else
          match MakeBids.rangeSeatBid internalRequest.Imp bidResp.SeatBid
              (bidResponse.Bids, []) with
          | .error e => ⟨none, [e], []⟩
          | .ok st => ⟨some { bidResponse with Bids := st.1 }, [], st.2⟩

end verizonmedia

/-- The bid carries an impression identifier that `getImpInfo` finds on no impression. -/
def verizonmedia.unknownImp (imps : List Imp) (b : Bid) : Bool :=
  !(verizonmedia.getImpInfo b.ImpID imps).1

/-! ## Request shaping: `MakeRequests` -/

/-- What `MakeRequests` leaves behind: the two returned slices, the caller's request as
it is after the call, and the store after the call. -/
structure Shaped where
  reqs : List RequestData
  errs : List GoError
  request : BidRequest
  heap : Heap
deriving DecidableEq, Repr

namespace pbs

/-- The type `pbs.UsersyncInfo`, which is not among the sources: the three fields
`NewSovrnBidder` fills in (`Type_` is the field `Type`). -/
structure UsersyncInfo where
  URL : String
  Type_ : String
  SupportCORS : Bool
deriving DecidableEq, Repr

end pbs

namespace sovrn

/-- The type `SovrnAdapter`, without its HTTP client. -/
structure SovrnAdapter where
  URI : String
  usersyncInfo : pbs.UsersyncInfo
deriving DecidableEq, Repr

/-- Source: `preprocess` of `sovrn.go`, called on `&request.Imp[i]`: the impression as
it is afterwards, the store afterwards, and the two returned values. -/
def preprocess (env : Stdlib) (h : Heap) (imp : Imp) :
    Go (Imp × Heap × String × Option GoError) :=
  if imp.Native.isSome ∨ imp.Audio.isSome ∨ imp.Video.isSome then
    .ok (imp, h, "", some (.errorString
      ("Sovrn doesn\x27t support audio, video, or native Imps. Ignoring Imp ID=" ++ imp.ID)))
  else
    match env.unmarshalExtImpBidder imp.Ext with
    | .error e => .ok (imp, h, "", some (.errorString e))
    | .ok bidderExt =>
        match env.unmarshalExtImpSovrn bidderExt.Bidder with
        | .error e => .ok (imp, h, "", some (.errorString e))
        | .ok sovrnExt =>
            let imp1 := { imp with TagID := Itoa sovrnExt.TagId }
            let imp2 := { imp1 with BidFloor := sovrnExt.BidFloor }
            match imp2.Banner with
            | none => .error .nilDereference
            | some p =>
                match h.banner p with
                | .error f => .error f
                | .ok b =>
                    match h.setBanner p { b with Format := [] } with
                    | .error f => .error f
                    | .ok h1 => .ok (imp2, h1, imp2.TagID, none)

/-- The loop `for i := 0; i < len(request.Imp); i++` of `MakeRequests`, from index `i`
on: a rejected impression is cut out of `request.Imp` in place and `i` stepped back.
The first argument bounds the number of iterations. -/
def MakeRequests.loop (env : Stdlib) :
    Nat → Nat → List Imp → Heap → List GoError → Go (List Imp × Heap × List GoError)
  | 0, i, imps, h, errs =>
      if i < imps.length then .error .outOfFuel else .ok (imps, h, errs)
  | fuel + 1, i, imps, h, errs =>
      match imps[i]? with
      | none => .ok (imps, h, errs)
      | some imp =>
          match preprocess env h imp with
          | .error f => .error f
          | .ok (imp1, h1, _, err) =>
              let imps1 := imps.set i imp1
              match err with
              | some e => loop env fuel i (imps1.eraseIdx i) h1 (errs ++ [e])
              | none => loop env fuel (i + 1) imps1 h1 errs

/-- The header set of `MakeRequests`. -/
def MakeRequests.headers (env : Stdlib) (device : Device) (user : User) : Header :=
  let headers : Header := []
  let headers := headers.Add "Content-Type" "application/json"
  let headers := headers.Add "User-Agent" device.UA
  let headers := headers.Add "X-Forwarded-For" device.IP
  let headers := headers.Add "Accept-Language" device.Language
  let headers := headers.Add "DNT" (Itoa device.DNT)
  let userID := env.TrimSpace user.BuyerUID
  if userID.length > 0 then headers.Add "Cookie" ("ljt_reader" ++ "=" ++ userID)
  else headers

/-- Source: `SovrnAdapter.MakeRequests`. -/
def MakeRequests (env : Stdlib) (s : SovrnAdapter) (h : Heap) (request : BidRequest) :
    Go Shaped :=
  match MakeRequests.loop env request.Imp.length 0 request.Imp h [] with
  | .error f => .error f
  | .ok (imps, h1, errs) =>
      let request1 := { request with Imp := imps }
      if request1.Imp.length = 0 then .ok ⟨[], errs, request1, h1⟩
      else
        match h1.tree request1 with
        | .error f => .error f
        | .ok t =>
            match env.marshalBidRequest t with
            | .error e => .ok ⟨[], errs ++ [.errorString e], request1, h1⟩
            | .ok reqJSON =>
                match request1.Device with
                | none => .error .nilDereference
                | some device =>
                    match request1.User with
                    | none => .error .nilDereference
                    | some user =>
                        .ok ⟨[⟨"POST", s.URI, reqJSON, MakeRequests.headers env device user⟩],
                          errs, request1, h1⟩

end sovrn

namespace sovrnXsp

structure adapter where
  Endpoint : String
deriving DecidableEq, Repr

/-- The first statement of `MakeRequests`: the copy of `request.App`, its publisher
copied too (or a fresh one); `none` when the request has no app. -/
def MakeRequests.appCopy (request : BidRequest) : Option App :=
  match request.App with
  | none => none
  | some app =>
      match app.Publisher with
      | none => some { app with Publisher := some ⟨"", ""⟩ }
      | some publisher => some { app with Publisher := some publisher }

/-- The loop `for idx, imp := range request.Imp` of `MakeRequests`, from index `idx`
on; the state is `request.App` (the copy), `errors` and `imps`. -/
def MakeRequests.rangeImp (env : Stdlib) :
    Nat → List Imp → App × List GoError × List Imp → Go (App × List GoError × List Imp)
  | _, [], st => .ok st
  | idx, imp :: rest, (app, errors, imps) =>
      if imp.Banner.isNone ∧ imp.Video.isNone ∧ imp.Native.isNone then
        rangeImp env (idx + 1) rest (app, errors, imps)
      else
        match env.unmarshalExtImpBidder imp.Ext with
        | .error _ =>
            rangeImp env (idx + 1) rest
              (app, errors ++ [.BadInput
                ("imp #" ++ fmtD idx ++ ": ext.bidder not provided")], imps)
        | .ok bidderExt =>
            match env.unmarshalExtImpSovrnXsp bidderExt.Bidder with
            | .error e =>
                rangeImp env (idx + 1) rest
                  (app, errors ++ [.BadInput ("imp #" ++ fmtD idx ++ ": " ++ e)], imps)
            | .ok xspExt =>
                let app1 := if xspExt.MedID ≠ "" then { app with ID := xspExt.MedID } else app
                match app1.Publisher with
                | none =>
                    if xspExt.PubID ≠ "" then .error .nilDereference
                    else
                      let imp1 :=
                        if xspExt.ZoneID ≠ "" then { imp with TagID := xspExt.ZoneID } else imp
                      rangeImp env (idx + 1) rest (app1, errors, imps ++ [imp1])
                | some publisher =>
                    let app2 :=
                      if xspExt.PubID ≠ "" then
                        { app1 with Publisher := some { publisher with ID := xspExt.PubID } }
                      else app1
                    let imp1 :=
                      if xspExt.ZoneID ≠ "" then { imp with TagID := xspExt.ZoneID } else imp
                    rangeImp env (idx + 1) rest (app2, errors, imps ++ [imp1])

/-- The header set of `MakeRequests`. -/
def MakeRequests.headers : Header :=
  let headers : Header := []
  let headers := headers.Add "Content-Type" "application/json;charset=utf-8"
  let headers := headers.Add "Accept" "application/json"
  headers.Add "x-openrtb-version" "2.5"

/-- Source: `adapter.MakeRequests` of `sovrnXsp.go`. -/
def MakeRequests (env : Stdlib) (a : adapter) (h : Heap) (request : BidRequest) :
    Go Shaped :=
  match MakeRequests.appCopy request with
  | none => .ok ⟨[], [.BadInput "non-app request"], request, h⟩
  | some appCopy =>
      let request1 := { request with App := some appCopy }
      match MakeRequests.rangeImp env 0 request1.Imp (appCopy, [], []) with
      | .error f => .error f
      | .ok (app, errors, imps) =>
          let request2 := { request1 with App := some app }
          if imps.length = 0 then .ok ⟨[], errors, request2, h⟩
          else
            let request3 := { request2 with Imp := imps }
            match h.tree request3 with
            | .error f => .error f
            | .ok t =>
                match env.marshalBidRequest t with
                | .error e => .ok ⟨[], errors ++ [.errorString e], request3, h⟩
                | .ok requestJson =>
                    .ok ⟨[⟨"POST", a.Endpoint, requestJson, MakeRequests.headers⟩],
                      errors, request3, h⟩

end sovrnXsp

namespace verizonmedia

structure VerizonMediaAdapter where
  URI : String
deriving DecidableEq, Repr

/-- The rendering of a `uint64` under `%d`. -/
def fmtU (n : Nat) : String := fmtD n

/-- Source: `changeRequestForBidService` of `verizonmedia.go`, called on `&reqCopy`:
the request copy and the store afterwards, and the returned error. -/
def changeRequestForBidService (h : Heap) (request : BidRequest)
    (extension : ExtImpVerizonMedia) : Go (BidRequest × Heap × Option GoError) :=
  match request.Imp with
  | [] => .error .indexOutOfRange
  | imp0 :: rest =>
      let imp1 := { imp0 with TagID := extension.Pos }
      match request.Site with
      | none => .error .nilDereference
      | some sp =>
          match h.site sp with
          | .error f => .error f
          | .ok site =>
              match h.setSite sp { site with ID := extension.Dcn } with
              | .error f => .error f
              | .ok h1 =>
                  match imp1.Banner with
                  | none => .ok ({ request with Imp := imp1 :: rest }, h1, none)
                  | some bp =>
                      match h1.banner bp with
                      | .error f => .error f
                      | .ok banner =>
                          let a := h1.newBanner banner
                          let imp2 := { imp1 with Banner := some a.1 }
                          let request1 := { request with Imp := imp2 :: rest }
                          match banner.W, banner.H with
                          | some w, some hh =>
                              if w = 0 ∨ hh = 0 then
                                .ok (request1, a.2, some (.errorString
                                  ("Invalid sizes provided for Banner "
                                    ++ fmtU w ++ "x" ++ fmtU hh)))
                              else .ok (request1, a.2, none)
                          | _, _ =>
                              match banner.Format with
                              | [] =>
                                  .ok (request1, a.2, some (.errorString
                                    ("No sizes provided for Banner " ++ "[]")))
                              | f :: _ =>
                                  match a.2.setBanner a.1
                                      { banner with W := some f.W, H := some f.H } with
                                  | .error e => .error e
                                  | .ok h2 => .ok (request1, h2, none)

/-- The header set of `MakeRequests`. -/
def MakeRequests.headers (request : BidRequest) : Header :=
  let headers : Header := []
  let headers := headers.Add "Content-Type" "application/json;charset=utf-8"
  let headers := headers.Add "Accept" "application/json"
  let headers := headers.Add "x-openrtb-version" "2.5"
  match request.Device with
  | none => headers
  | some device => if device.UA ≠ "" then headers.Set "User-Agent" device.UA else headers

/-- The loop `for idx, imp := range request.Imp` of `MakeRequests`, from index `idx`
on; the state is the store, `reqs` and `errors`. -/
def MakeRequests.rangeImp (env : Stdlib) (a : VerizonMediaAdapter) (request : BidRequest)
    (headers : Header) :
    Nat → List Imp → Heap × List RequestData × List GoError →
      Go (Heap × List RequestData × List GoError)
  | _, [], st => .ok st
  | idx, imp :: rest, (h, reqs, errors) =>
      match env.unmarshalExtImpBidder imp.Ext with
      | .error _ =>
          rangeImp env a request headers (idx + 1) rest
            (h, reqs, errors ++ [.BadInput
              ("imp #" ++ fmtD idx ++ ": ext.bidder not provided")])
      | .ok bidderExt =>
          match env.unmarshalExtImpVerizonMedia bidderExt.Bidder with
          | .error e =>
              rangeImp env a request headers (idx + 1) rest
                (h, reqs, errors ++ [.BadInput ("imp #" ++ fmtD idx ++ ": " ++ e)])
          | .ok verizonMediaExt =>
              if verizonMediaExt.Dcn = "" then
                rangeImp env a request headers (idx + 1) rest
                  (h, reqs, errors ++ [.BadInput
                    ("imp #" ++ fmtD idx ++ ": missing param dcn")])
              else if verizonMediaExt.Pos = "" then
                rangeImp env a request headers (idx + 1) rest
                  (h, reqs, errors ++ [.BadInput
                    ("imp #" ++ fmtD idx ++ ": missing param pos")])
              else
                let reqCopy := { request with Imp := [imp] }
                match request.Site with
                | none => .error .nilDereference
                | some sp =>
                    match h.site sp with
                    | .error f => .error f
                    | .ok site =>
                        let s := h.newSite site
                        let reqCopy1 := { reqCopy with Site := some s.1 }
                        match changeRequestForBidService s.2 reqCopy1 verizonMediaExt with
                        | .error f => .error f
                        | .ok (_, h1, some err) =>
                            rangeImp env a request headers (idx + 1) rest
                              (h1, reqs, errors ++ [err])
                        | .ok (reqCopy2, h1, none) =>
                            match h1.tree reqCopy2 with
                            | .error f => .error f
                            | .ok t =>
                                match env.marshalBidRequest t with
                                | .error e =>
                                    rangeImp env a request headers (idx + 1) rest
                                      (h1, reqs, errors ++ [.errorString e])
                                | .ok reqJSON =>
                                    rangeImp env a request headers (idx + 1) rest
                                      (h1, reqs ++ [⟨"POST", a.URI, reqJSON, headers⟩], errors)

/-- Source: `VerizonMediaAdapter.MakeRequests`. -/
def MakeRequests (env : Stdlib) (a : VerizonMediaAdapter) (h : Heap)
    (request : BidRequest) : Go Shaped :=
  if request.Imp.length = 0 then
    .ok ⟨[], [.BadInput "No impression in the bid request"], request, h⟩
  else
    match MakeRequests.rangeImp env a request (MakeRequests.headers request) 0 request.Imp
        (h, [], []) with
    | .error f => .error f
    | .ok (h1, reqs, errors) => .ok ⟨reqs, errors, request, h1⟩

end verizonmedia

/-! ## Valid and invalid impression parameters -/

namespace sovrn

/-- The impression declares a media sub-object `preprocess` refuses. -/
def unsupportedMedia (imp : Imp) : Bool :=
  imp.Native.isSome || imp.Audio.isSome || imp.Video.isSome

/-- The sovrn parameters of a parameter blob, when both decoding steps succeed. -/
def params (env : Stdlib) (ext : RawMessage) : Option ExtImpSovrn :=
  match env.unmarshalExtImpBidder ext with
  | .error _ => none
  | .ok bidderExt =>
      match env.unmarshalExtImpSovrn bidderExt.Bidder with
      | .error _ => none
      | .ok e => some e

/-- A plain filter of the impression list, left to right: an impression `preprocess`
rejects is left out and its error recorded, one it accepts is kept as `preprocess` leaves
it; a panic of `preprocess` is a panic of the filter. -/
def filterImps (env : Stdlib) : List Imp → Heap → Go (List Imp × Heap × List GoError)
  | [], h => .ok ([], h, [])
  | imp :: rest, h =>
      match preprocess env h imp with
      | .error f => .error f
      | .ok (imp1, h1, _, err) =>
          match filterImps env rest h1 with
          | .error f => .error f
          | .ok (kept, h2, es) =>
              match err with
              | some e => .ok (kept, h2, e :: es)
              | none => .ok (imp1 :: kept, h2, es)

end sovrn

namespace sovrnXsp

/-- The impression declares none of banner, video and native: the loop of `MakeRequests`
passes over it. -/
def noSupportedMedia (imp : Imp) : Bool :=
  imp.Banner.isNone && imp.Video.isNone && imp.Native.isNone

/-- The sovrnXsp parameters of a parameter blob, when both decoding steps succeed. -/
def params (env : Stdlib) (ext : RawMessage) : Option ExtImpSovrnXsp :=
  match env.unmarshalExtImpBidder ext with
  | .error _ => none
  | .ok bidderExt =>
      match env.unmarshalExtImpSovrnXsp bidderExt.Bidder with
      | .error _ => none
      | .ok e => some e

/-- The impression declares a supported media type and its parameter blob does not
decode. -/
def undecodable (env : Stdlib) (imp : Imp) : Bool :=
  !noSupportedMedia imp && (params env imp.Ext).isNone

/-- The impression as the loop of `MakeRequests` appends it to `imps`: an impression with
a supported media type whose parameters decode, its tag ID replaced by a non-empty zone
ID; `none` for an impression the loop does not keep. -/
def keptImp (env : Stdlib) (imp : Imp) : Option Imp :=
  if noSupportedMedia imp then none
  else
    match params env imp.Ext with
    | none => none
    | some xspExt =>
        some (if xspExt.ZoneID ≠ "" then { imp with TagID := xspExt.ZoneID } else imp)

/-- The failure the loop of `MakeRequests` appends for the impression at index `idx`: a
`BadInput` carrying the index, for an impression with a supported media type whose
parameters do not decode; `none` for every other impression. -/
def failure (env : Stdlib) (idx : Nat) (imp : Imp) : Option GoError :=
  if noSupportedMedia imp then none
  else
    match env.unmarshalExtImpBidder imp.Ext with
    | .error _ => some (.BadInput ("imp #" ++ fmtD idx ++ ": ext.bidder not provided"))
    | .ok bidderExt =>
        match env.unmarshalExtImpSovrnXsp bidderExt.Bidder with
        | .error e => some (.BadInput ("imp #" ++ fmtD idx ++ ": " ++ e))
        | .ok _ => none

end sovrnXsp

/-! ## The shaping of verizonmedia, on trees

`MakeRequests` of verizonmedia works on the object graph; the definitions below say what
it computes on the tree of the request, and `verizonmedia.rangeImp_refines` proves that
the code computes exactly this. -/

/-- The store `h1` extends `h`: every object of `h` is in `h1`, at its address and
unchanged. -/
def Heap.le (h h1 : Heap) : Prop :=
  h.sites <+: h1.sites ∧ h.banners <+: h1.banners

namespace verizonmedia

/-- The verizonmedia parameters of a parameter blob, when both decoding steps
succeed. -/
def params (env : Stdlib) (ext : RawMessage) : Option ExtImpVerizonMedia :=
  match env.unmarshalExtImpBidder ext with
  | .error _ => none
  | .ok bidderExt =>
      match env.unmarshalExtImpVerizonMedia bidderExt.Bidder with
      | .error _ => none
      | .ok e => some e

/-- The parameter blob is invalid for verizonmedia: it does not decode, or it decodes
with an empty `dcn` or an empty `pos`. -/
def invalidParams (env : Stdlib) (ext : RawMessage) : Prop :=
  match params env ext with
  | none => True
  | some e => e.Dcn = "" ∨ e.Pos = ""

/-- The banner as `changeRequestForBidService` leaves its copy, or the error it
returns. -/
def bannerForBidService (banner : Banner) : Except GoError Banner :=
  match banner.W, banner.H with
  | some w, some hh =>
      if w = 0 ∨ hh = 0 then
        .error (.errorString ("Invalid sizes provided for Banner " ++ fmtU w ++ "x" ++ fmtU hh))
      else .ok banner
  | _, _ =>
      match banner.Format with
      | [] => .error (.errorString ("No sizes provided for Banner " ++ "[]"))
      | f :: _ => .ok { banner with W := some f.W, H := some f.H }

/-- The tree of the request copy built for one impression: that impression alone, its
tag ID overridden by `pos`, and the site copy with its ID overridden by `dcn`. -/
def shapedTree (t : BidRequestTree) (site : Site) (it : ImpOf Banner)
    (ext : ExtImpVerizonMedia) (banner : Option Banner) : BidRequestTree :=
  { t with
    Imp := [{ it with TagID := ext.Pos, Banner := banner }]
    Site := some { site with ID := ext.Dcn } }

/-- The envelope for a shaped tree, or the serialisation error. -/
def marshalShaped (env : Stdlib) (a : VerizonMediaAdapter) (headers : Header)
    (tree : BidRequestTree) : Except GoError RequestData :=
  match env.marshalBidRequest tree with
  | .error e => .error (.errorString e)
  | .ok reqJSON => .ok ⟨"POST", a.URI, reqJSON, headers⟩

/-- What one iteration of the loop of `MakeRequests` yields for the impression at index
`idx`: a panic, a failure record, or an envelope. -/
def shapeImp (env : Stdlib) (a : VerizonMediaAdapter) (t : BidRequestTree)
    (headers : Header) (idx : Nat) (it : ImpOf Banner) : Go (Except GoError RequestData) :=
  match env.unmarshalExtImpBidder it.Ext with
  | .error _ => .ok (.error (.BadInput ("imp #" ++ fmtD idx ++ ": ext.bidder not provided")))
  | .ok bidderExt =>
      match env.unmarshalExtImpVerizonMedia bidderExt.Bidder with
      | .error e => .ok (.error (.BadInput ("imp #" ++ fmtD idx ++ ": " ++ e)))
      | .ok ext =>
          if ext.Dcn = "" then
            .ok (.error (.BadInput ("imp #" ++ fmtD idx ++ ": missing param dcn")))
          else if ext.Pos = "" then
            .ok (.error (.BadInput ("imp #" ++ fmtD idx ++ ": missing param pos")))
          else
            match t.Site with
            | none => .error .nilDereference
            | some site =>
                match it.Banner with
                | none => .ok (marshalShaped env a headers (shapedTree t site it ext none))
                | some b =>
                    match bannerForBidService b with
                    | .error e => .ok (.error e)
                    | .ok b1 =>
                        .ok (marshalShaped env a headers (shapedTree t site it ext (some b1)))

/-- What the loop of `MakeRequests` yields from index `idx` on: envelopes and failure
records, each in impression order. -/
def shapeAll (env : Stdlib) (a : VerizonMediaAdapter) (t : BidRequestTree)
    (headers : Header) :
    Nat → List (ImpOf Banner) → List RequestData × List GoError →
      Go (List RequestData × List GoError)
  | _, [], st => .ok st
  | idx, it :: rest, (reqs, errs) =>
      match shapeImp env a t headers idx it with
      | .error f => .error f
      | .ok (.ok rd) => shapeAll env a t headers (idx + 1) rest (reqs ++ [rd], errs)
      | .ok (.error e) => shapeAll env a t headers (idx + 1) rest (reqs, errs ++ [e])

end verizonmedia

/-! ## The creative type a sovrnXsp bid carries -/

namespace sovrnXsp

/-- The media type the extension of a bid signals: banner for 0, video for 1, native for
2, and the empty bid type when the extension does not decode or carries another value. -/
def signalledType (env : Stdlib) (b : Bid) : BidType :=
  match env.unmarshalBidExt b.Ext with
  | .error _ => ""
  | .ok ext =>
      if ext.CreativeType = 0 then BidTypeBanner
      else if ext.CreativeType = 1 then BidTypeVideo
      else if ext.CreativeType = 2 then BidTypeNative
      else ""

end sovrnXsp

/-! ## One impression among its siblings, verizonmedia -/

namespace verizonmedia

/-- What the failure message of an impression with invalid parameters says after
`imp #i`; `none` when the parameters decode with a `dcn` and a `pos`. -/
def paramsFailure (env : Stdlib) (ext : RawMessage) : Option String :=
  match env.unmarshalExtImpBidder ext with
  | .error _ => some ": ext.bidder not provided"
  | .ok bidderExt =>
      match env.unmarshalExtImpVerizonMedia bidderExt.Bidder with
      | .error e => some (": " ++ e)
      | .ok x =>
          if x.Dcn = "" then some ": missing param dcn"
          else if x.Pos = "" then some ": missing param pos"
          else none

/-- The envelope an iteration of the loop appends to `reqs`, if it appends one. -/
def appendedEnvelope : Except GoError RequestData → List RequestData
  | .ok rd => [rd]
  | .error _ => []

/-- The failure an iteration of the loop appends to `errors`, if it appends one. -/
def appendedFailure : Except GoError RequestData → List GoError
  | .ok _ => []
  | .error e => [e]

/-- The last statement of `MakeRequests`: what the call returns once its loop is over. -/
def MakeRequests.returned (request : BidRequest) :
    Go (Heap × List RequestData × List GoError) → Go Shaped
  | .error f => .error f
  | .ok (h1, reqs, errors) => .ok ⟨reqs, errors, request, h1⟩

end verizonmedia

/-! ## The legacy interface of sovrn: `Call` -/

namespace pbs

/-- The fields of `pbs.PBSBid` that `Call` fills in. -/
structure PBSBid where
  BidID : String
  AdUnitCode : String
  BidderCode : String
  Price : Float64
  Adm : String
  Creative_id : String
  Width : Nat
  Height : Nat
  DealId : String
  NURL : String
deriving DecidableEq, Repr

/-- The bidder `Call` is given: its code, and its method `LookupBidID`, which is not
among the sources and is taken as it is given; it returns the empty string for a code
that is no ad unit of the bidder. -/
structure PBSBidder where
  BidderCode : String
  LookupBidID : String → String

end pbs

/-- The library functions of the legacy interface: `url.QueryUnescape`, and `sort.Sort`
on a `pbs.PBSBidSlice` (`SortSlice`), whose order is not among the sources; sorting
permutes. -/
structure LegacyLib where
  QueryUnescape : String → Except String String
  SortSlice : List pbs.PBSBid → List pbs.PBSBid
  SortSlice_perm : ∀ l, (SortSlice l).Perm l

namespace sovrn

/-- The loop `for _, bid := range sb.Bid` of `Call`; `.error` is the `return` out of the
loop. `url.QueryUnescape` returns the empty string with its error, which `Call` drops. -/
def Call.rangeBid (lib : LegacyLib) (bidder : pbs.PBSBidder) :
    List Bid → List pbs.PBSBid → Except GoError (List pbs.PBSBid)
  | [], bids => .ok bids
  | bid :: rest, bids =>
      let bidID := bidder.LookupBidID bid.ImpID
      if bidID = "" then
        .error (.errorString ("Unknown ad unit code \x27" ++ bid.ImpID ++ "\x27"))
      else
        let adm := match lib.QueryUnescape bid.AdM with
          | .ok u => u
          | .error _ => ""
        rangeBid lib bidder rest
          (bids ++ [⟨bidID, bid.ImpID, bidder.BidderCode, bid.Price, adm, bid.CrID, bid.W,
            bid.H, bid.DealID, bid.NURL⟩])

/-- The loop `for _, sb := range bidResp.SeatBid` of `Call`. -/
def Call.rangeSeatBid (lib : LegacyLib) (bidder : pbs.PBSBidder) :
    List SeatBid → List pbs.PBSBid → Except GoError (List pbs.PBSBid)
  | [], bids => .ok bids
  | sb :: rest, bids =>
      match Call.rangeBid lib bidder sb.Bid bids with
      | .error e => .error e
      | .ok bids1 => rangeSeatBid lib bidder rest bids1

/-- The response phase of `SovrnAdapter.Call`: what it returns once the HTTP exchange has
given a status code and the body has been read (the debug record is left out). -/
def Call.response (env : Stdlib) (lib : LegacyLib) (bidder : pbs.PBSBidder)
    (StatusCode : Int) (body : String) : List pbs.PBSBid × Option GoError :=
  if StatusCode = 204 then ([], none)
  else if StatusCode ≠ 200 then
    ([], some (.errorString ("HTTP status " ++ fmtD StatusCode ++ "; body: " ++ body)))
  else
    match env.unmarshalBidResponse body with
    | .error e => ([], some (.errorString e))
    | .ok bidResp =>
        match Call.rangeSeatBid lib bidder bidResp.SeatBid [] with
        | .error e => ([], some e)
        | .ok bids => (lib.SortSlice bids, none)

end sovrn

/-! ## The user sync of sovrn: `NewSovrnAdapter` -/

namespace url

/-- The bytes of a code point in UTF-8: a Go string is the sequence of its bytes. -/
def utf8 (v : Nat) : List Nat :=
  if v < 0x80 then [v]
  else if v < 0x800 then [0xC0 + v / 64, 0x80 + v % 64]
  else if v < 0x10000 then [0xE0 + v / 4096, 0x80 + v / 64 % 64, 0x80 + v % 64]
  else [0xF0 + v / 262144, 0x80 + v / 4096 % 64, 0x80 + v / 64 % 64, 0x80 + v % 64]

/-- The function `shouldEscape` of the Go library in the mode of a query component:
letters, digits and the marks `-`, `_`, `.`, `~` are kept, every other byte is escaped. -/
def shouldEscape (c : Nat) : Bool :=
  if (97 ≤ c ∧ c ≤ 122) ∨ (65 ≤ c ∧ c ≤ 90) ∨ (48 ≤ c ∧ c ≤ 57) then false
  else if c = 45 ∨ c = 95 ∨ c = 46 ∨ c = 126 then false
  else true

/-- The digit at index `n` of `"0123456789ABCDEF"`. -/
def upperhex (n : Nat) : Char :=
  if n < 10 then Char.ofNat (48 + n) else Char.ofNat (55 + n)

/-- What `escape` writes for one byte: the byte itself, `+` for a space, or `%XX`. -/
def escapeByte (c : Nat) : List Char :=
  if shouldEscape c then
    if c = 32 then ['+'] else ['%', upperhex (c / 16), upperhex (c % 16)]
  else [Char.ofNat c]

/-- The function `url.QueryEscape` of the Go library. -/
def QueryEscape (s : String) : String :=
  ⟨(s.data.flatMap (fun ch => utf8 ch.toNat)).flatMap escapeByte⟩

end url

namespace sovrn

/-- Source: `NewSovrnBidder` of `sovrn.go`, without the HTTP client. -/
def NewSovrnBidder (endpoint usersyncURL externalURL : String) : SovrnAdapter :=
  let redirectURI := externalURL ++ "/setuid?bidder=sovrn&uid=$UID"
  let info : pbs.UsersyncInfo :=
    ⟨usersyncURL ++ "redir=" ++ url.QueryEscape redirectURI, "redirect", false⟩
  ⟨endpoint, info⟩

/-- Source: `NewSovrnAdapter` of `sovrn.go`, without the HTTP adapter configuration. -/
def NewSovrnAdapter (endpoint usersyncURL externalURL : String) : SovrnAdapter :=
  NewSovrnBidder endpoint usersyncURL externalURL

/-- Source: `SovrnAdapter.GetUsersyncInfo`. -/
def SovrnAdapter.GetUsersyncInfo (s : SovrnAdapter) : pbs.UsersyncInfo := s.usersyncInfo

end sovrn

/-! ## Concrete inputs -/

namespace Example

/-- A bid on impression `A`. -/
def bidA : Bid := ⟨"1", "A", ⟨210⟩, "<div>ad</div>", "Cr-234", 728, 90, "", "", "0"⟩

/-- A bid on an impression `X` that no request below declares. -/
def bidX : Bid := ⟨"2", "X", ⟨100⟩, "<div>ad</div>", "Cr-9", 300, 250, "", "", "0"⟩

/-- A bid on an impression `Y` that no request below declares. -/
def bidY : Bid := ⟨"3", "Y", ⟨100⟩, "<div>ad</div>", "Cr-9", 300, 250, "", "", "0"⟩

/-- A video bid on impression `B`, its markup query-escaped. -/
def bidB : Bid := ⟨"4", "B", ⟨150⟩, "%3Cvast%2F%3E", "Cr-7", 640, 480, "deal", "http://win", "1"⟩

/-- A bid on impression `A` whose extension carries creative type 3 (audio). -/
def bidAudio : Bid := ⟨"5", "A", ⟨90⟩, "<audio/>", "Cr-3", 0, 0, "", "", "3"⟩

/-- Decoders by table, a serialiser that lists `ID:TagID` of the impressions after the
site ID, and the identity for the two string functions. -/
def stdlib : Stdlib where
  unmarshalBidResponse := fun body =>
    if body = "A" then .ok ⟨"r", [⟨[bidA], "s"⟩]⟩
    else if body = "X" then .ok ⟨"r", [⟨[bidX], "s"⟩]⟩
    else if body = "AX" then .ok ⟨"r", [⟨[bidA, bidX], "s"⟩]⟩
    else if body = "AXY" then .ok ⟨"r", [⟨[bidA], "s"⟩, ⟨[bidX, bidY], "t"⟩]⟩
    else if body = "AB" then .ok ⟨"r", [⟨[bidA, bidB], "s"⟩]⟩
    else if body = "A,audio,B" then .ok ⟨"r", [⟨[bidA, bidAudio], "s"⟩, ⟨[bidB], "t"⟩]⟩
    else .error "unexpected end of JSON input"
  unmarshalExtImpBidder := fun raw =>
    if raw = "" then .error "unexpected end of JSON input" else .ok ⟨raw⟩
  unmarshalExtImpSovrn := fun raw =>
    if raw = "111" then .ok ⟨111, ⟨5⟩⟩
    else if raw = "112" then .ok ⟨112, ⟨7⟩⟩
    else .error "invalid character"
  unmarshalExtImpVerizonMedia := fun raw =>
    if raw = "111" then .ok ⟨"dcn-A", "111"⟩
    else if raw = "112" then .ok ⟨"dcn-B", "112"⟩
    else if raw = "nodcn" then .ok ⟨"", "111"⟩
    else if raw = "nopos" then .ok ⟨"dcn-A", ""⟩
    else .error "invalid character"
  unmarshalExtImpSovrnXsp := fun raw =>
    if raw = "111" then .ok ⟨"pub", "med", "zone-111"⟩
    else if raw = "112" then .ok ⟨"", "", ""⟩
    else .error "invalid character"
  unmarshalBidExt := fun raw =>
    if raw = "0" then .ok ⟨0⟩
    else if raw = "1" then .ok ⟨1⟩
    else if raw = "2" then .ok ⟨2⟩
    else if raw = "3" then .ok ⟨3⟩
    else .error "unexpected end of JSON input"
  marshalBidRequest := fun t =>
    .ok ((t.Site.map (fun s => s.ID)).getD "" ++ "|"
      ++ String.join (t.Imp.map (fun i => i.ID ++ ":" ++ i.TagID ++ ";")))
  TrimSpace := fun u => u
  errorVerbD := fun e => e

/-- A store with one site and two banners: one with explicit sizes, one with a format
list only. -/
def heap : Heap :=
  ⟨[⟨"site-1", "example.com", "/"⟩],
    [⟨some 300, some 250, [], "b0"⟩, ⟨none, none, [⟨728, 90⟩, ⟨300, 250⟩], "b1"⟩]⟩

/-- Banner impression `A` with parameters `111`. -/
def impA : Imp := ⟨"A", some 0, none, none, none, "", ⟨0⟩, "111"⟩

/-- Banner impression `B` with parameters `112`. -/
def impB : Imp := ⟨"B", some 1, none, none, none, "", ⟨0⟩, "112"⟩

/-- An impression with an audio sub-object only. -/
def impAudio : Imp := ⟨"C", none, none, some ⟨["audio/mp4"]⟩, none, "", ⟨0⟩, "111"⟩

/-- An impression with a native sub-object only. -/
def impNative : Imp := ⟨"N", none, none, none, some ⟨"native"⟩, "", ⟨0⟩, "111"⟩

/-- An impression with valid parameters and no media sub-object at all. -/
def impBare : Imp := ⟨"D", none, none, none, none, "", ⟨0⟩, "111"⟩

/-- A banner impression whose parameter blob does not decode. -/
def impNoExt : Imp := ⟨"E", some 0, none, none, none, "", ⟨0⟩, ""⟩

/-- A banner impression whose parameters have no `dcn`. -/
def impNoDcn : Imp := ⟨"F", some 0, none, none, none, "", ⟨0⟩, "nodcn"⟩

def device : Device := ⟨"Mozilla/5.0", "10.0.0.1", "en", 0⟩

def user : User := ⟨"u1", "buyer-1"⟩

def app : App := ⟨"app-1", "com.example", none⟩

/-- The site request with impressions `A` and `B`. -/
def requestAB : BidRequest := ⟨"req", [impA, impB], some 0, none, some device, some user⟩

/-- The tree of `requestAB` in `heap`. -/
def treeAB : BidRequestTree :=
  ⟨"req",
    [⟨"A", some ⟨some 300, some 250, [], "b0"⟩, none, none, none, "", ⟨0⟩, "111"⟩,
      ⟨"B", some ⟨none, none, [⟨728, 90⟩, ⟨300, 250⟩], "b1"⟩, none, none, none, "", ⟨0⟩,
        "112"⟩],
    some ⟨"site-1", "example.com", "/"⟩, none, some device, some user⟩

/-- The verizonmedia adapter of the examples. -/
def verizon : verizonmedia.VerizonMediaAdapter := ⟨"http://verizon/bid"⟩

/-- The header set verizonmedia builds for `requestAB`. -/
def verizonHeaders : Header :=
  [("Content-Type", "application/json;charset=utf-8"), ("Accept", "application/json"),
    ("x-openrtb-version", "2.5"), ("User-Agent", "Mozilla/5.0")]

/-- The sovrn adapter of the examples. -/
def sovrnAdapter : sovrn.SovrnAdapter :=
  ⟨"http://sovrn/rtb/bid", ⟨"http://sovrn/userSync?", "redirect", false⟩⟩

/-- A request whose impressions are all invalid for sovrn: a native one and one whose
parameter blob does not decode. -/
def requestInvalidSovrn : BidRequest :=
  ⟨"req", [impNative, impNoExt], some 0, none, some device, some user⟩

/-- A request whose impressions are all invalid for verizonmedia: one whose parameter blob
does not decode and one without `dcn`. -/
def requestInvalidVerizon : BidRequest :=
  ⟨"req", [impNoExt, impNoDcn], some 0, none, some device, some user⟩

/-- The sovrnXsp adapter of the examples. -/
def xsp : sovrnXsp.adapter := ⟨"http://xsp/bid"⟩

/-- An app request whose only impression declares audio alone. -/
def requestAudio : BidRequest := ⟨"req", [impAudio], none, some app, none, none⟩

/-- An app request with banner impression `A`, an audio impression, and a banner
impression whose parameter blob does not decode. -/
def requestMixed : BidRequest :=
  ⟨"req", [impA, impAudio, impNoExt], none, some app, none, none⟩

/-- A request with device and user blocks whose only impression has valid sovrn
parameters and no media sub-object. -/
def requestBare : BidRequest := ⟨"req", [impBare], some 0, none, some device, some user⟩

/-- A request with device and user blocks: banner `A`, a native impression, banner `B`. -/
def requestANB : BidRequest :=
  ⟨"req", [impA, impNative, impB], some 0, none, some device, some user⟩

/-- An impression with a banner and a video sub-object. -/
def impBoth : Imp := ⟨"V", some 0, some ⟨["video/mp4"]⟩, none, none, "", ⟨0⟩, "111"⟩

/-- An impression with a video sub-object only. -/
def impVideo : Imp := ⟨"W", none, some ⟨["video/mp4"]⟩, none, none, "", ⟨0⟩, "111"⟩

/-- A request with device and user blocks whose only impression is native. -/
def requestNative : BidRequest := ⟨"req", [impNative], some 0, none, some device, some user⟩

/-- A site request (no app block) with impressions `A` and `B`. -/
def requestNoApp : BidRequest := requestAB

/-- A site request with banner `A`, a banner impression without `dcn`, and banner `B`. -/
def requestAFB : BidRequest :=
  ⟨"req", [impA, impNoDcn, impB], some 0, none, some device, some user⟩

/-- A banner without sizes: neither width and height nor a format list. -/
def heapNoSize : Heap :=
  ⟨[⟨"site-1", "example.com", "/"⟩],
    [⟨some 300, some 250, [], "b0"⟩, ⟨none, none, [], "b1"⟩]⟩

/-- The legacy bidder of the examples: ad units `A` and `B`. -/
def bidder : pbs.PBSBidder where
  BidderCode := "sovrn"
  LookupBidID := fun code =>
    if code = "A" then "Bid-1" else if code = "B" then "Bid-2" else ""

/-- A legacy library that unescapes one markup by table and leaves the order of the bids
alone. -/
def legacyLib : LegacyLib where
  QueryUnescape := fun u => if u = "%3Cvast%2F%3E" then .ok "<vast/>" else .ok u
  SortSlice := fun l => l
  SortSlice_perm := fun l => List.Perm.refl l

/-- A request without impressions, site, app, device or user. -/
def emptyRequest : BidRequest := ⟨"req", [], none, none, none, none⟩

/-- The request with banner `A`, a site and a user block, and no device block. -/
def requestNoDevice : BidRequest := ⟨"req", [impA], some 0, none, none, some user⟩

/-- The request with banner `A`, a site and a device block, and no user block. -/
def requestNoUser : BidRequest := ⟨"req", [impA], some 0, none, some device, none⟩

/-- The request with banner `A`, a device and a user block, and no site block. -/
def requestNoSite : BidRequest := ⟨"req", [impA], none, none, some device, some user⟩

/-- A video impression with the identifier `B`: no banner sub-object. -/
def impVideoB : Imp := ⟨"B", none, some ⟨["video/mp4"]⟩, none, none, "", ⟨0⟩, "112"⟩

/-- The site request with banner impression `A` and video impression `B`. -/
def requestAVideoB : BidRequest :=
  ⟨"req", [impA, impVideoB], some 0, none, some device, some user⟩

/-- The tree of `requestAFB` in `heap`. -/
def treeAFB : BidRequestTree :=
  ⟨"req",
    [⟨"A", some ⟨some 300, some 250, [], "b0"⟩, none, none, none, "", ⟨0⟩, "111"⟩,
      ⟨"F", some ⟨some 300, some 250, [], "b0"⟩, none, none, none, "", ⟨0⟩, "nodcn"⟩,
      ⟨"B", some ⟨none, none, [⟨728, 90⟩, ⟨300, 250⟩], "b1"⟩, none, none, none, "", ⟨0⟩,
        "112"⟩],
    some ⟨"site-1", "example.com", "/"⟩, none, some device, some user⟩

/-- The tree of `requestAB` in `heapNoSize`. -/
def treeABNoSize : BidRequestTree :=
  ⟨"req",
    [⟨"A", some ⟨some 300, some 250, [], "b0"⟩, none, none, none, "", ⟨0⟩, "111"⟩,
      ⟨"B", some ⟨none, none, [], "b1"⟩, none, none, none, "", ⟨0⟩, "112"⟩],
    some ⟨"site-1", "example.com", "/"⟩, none, some device, some user⟩

/-- The width and height a serialised banner shows. -/
def showSize (banner : Option Banner) : String :=
  match banner with
  | none => "-"
  | some b =>
      (match b.W with
        | none => "?"
        | some w => toString w)
      ++ "x"
      ++ (match b.H with
        | none => "?"
        | some hh => toString hh)

/-- The library of `stdlib` with a serialiser that also shows the banner sizes: the site
ID, then `ID:TagID:WxH` for every impression. -/
def stdlibSizes : Stdlib :=
  { stdlib with
    marshalBidRequest := fun t =>
      .ok ((t.Site.map (fun s => s.ID)).getD "" ++ "|"
        ++ String.join (t.Imp.map
            (fun i => i.ID ++ ":" ++ i.TagID ++ ":" ++ showSize i.Banner ++ ";"))) }

/-- The arguments of `NewSovrnAdapter` in `TestSovrnUserSyncInfo`. -/
def testAdapter : sovrn.SovrnAdapter :=
  sovrn.NewSovrnAdapter "http://sovrn/rtb/bid" "http://sovrn/userSync?" "http://localhost:8000"

/-- The URL `TestSovrnUserSyncInfo` expects. -/
def testURL : String :=
  "http://sovrn/userSync?location=http%3A%2F%2Flocalhost%3A8000%2Fsetuid%3Fbidder%3Dsovrn%26uid%3D%5BSOVRNID%5D"

/-- An outgoing envelope. -/
def envelope : RequestData := ⟨"POST", "http://partner/bid", "", []⟩

end Example

/-! # Theorems -/

/-! ## Status handling of `MakeBids` -/

/-- C1. With status code 204, `MakeBids` of sovrn, sovrnXsp and verizonmedia returns no
bids and no errors, for every request, envelope and response body. -/
theorem MakeBids_status_204 (env : Stdlib) (request : BidRequest) (rd : RequestData)
    (body : String) :
    sovrn.MakeBids env request rd ⟨204, body⟩ = ⟨[], [], []⟩
    ∧ sovrnXsp.MakeBids env request rd ⟨204, body⟩ = ⟨none, [], []⟩
    ∧ verizonmedia.MakeBids env request rd ⟨204, body⟩ = ⟨none, [], []⟩ := by
  refine ⟨?_, ?_, ?_⟩
  · simp [sovrn.MakeBids]
  · simp [sovrnXsp.MakeBids]
  · simp [verizonmedia.MakeBids]

/-- The status text is part of a message built around it. -/
theorem mentions_middle (a b c : String) : mentions (a ++ b ++ c) b :=
  ⟨a.data, c.data, by simp⟩

/-- The status text is part of a message that ends with it. -/
theorem mentions_end (a b : String) : mentions (a ++ b) b :=
  ⟨a.data, [], by simp⟩

/-- C2. With a status code other than 200 and 204, `MakeBids` of each adapter returns
zero bids and exactly one failure, whose message contains the decimal rendering of the
status code. -/
theorem MakeBids_unexpected_status (env : Stdlib) (request : BidRequest)
    (rd : RequestData) (code : Int) (body : String)
    (h200 : code ≠ 200) (h204 : code ≠ 204) :
    ((sovrn.MakeBids env request rd ⟨code, body⟩).bids = []
      ∧ ∃ e, (sovrn.MakeBids env request rd ⟨code, body⟩).errs = [e]
          ∧ mentions e.Error (fmtD code))
    ∧ ((sovrnXsp.MakeBids env request rd ⟨code, body⟩).response = none
      ∧ ∃ e, (sovrnXsp.MakeBids env request rd ⟨code, body⟩).errs = [e]
          ∧ mentions e.Error (fmtD code))
    ∧ ((verizonmedia.MakeBids env request rd ⟨code, body⟩).response = none
      ∧ ∃ e, (verizonmedia.MakeBids env request rd ⟨code, body⟩).errs = [e]
          ∧ mentions e.Error (fmtD code)) := by
  refine ⟨?_, ?_, ?_⟩
  · simp only [sovrn.MakeBids, h204, h200, if_false, ne_eq, not_false_eq_true, if_true]
    exact ⟨trivial, _, rfl, mentions_middle _ _ _⟩
  · simp only [sovrnXsp.MakeBids, h204, h200, if_false, ne_eq, not_false_eq_true, if_true]
    exact ⟨trivial, _, rfl, mentions_end _ _⟩
  · simp only [verizonmedia.MakeBids, h204, h200, if_false, ne_eq, not_false_eq_true,
      if_true]
    exact ⟨trivial, _, rfl, mentions_middle _ _ _⟩

/-- C2 at status 502: one failure each, mentioning `502`. -/
theorem MakeBids_unexpected_status_witness :
    ((502 : Int) ≠ 200 ∧ (502 : Int) ≠ 204)
    ∧ (((sovrn.MakeBids Example.stdlib Example.emptyRequest Example.envelope
          ⟨502, "Bad Gateway"⟩).bids = []
      ∧ ∃ e, (sovrn.MakeBids Example.stdlib Example.emptyRequest Example.envelope
          ⟨502, "Bad Gateway"⟩).errs = [e] ∧ mentions e.Error (fmtD 502))
    ∧ ((sovrnXsp.MakeBids Example.stdlib Example.emptyRequest Example.envelope
          ⟨502, "Bad Gateway"⟩).response = none
      ∧ ∃ e, (sovrnXsp.MakeBids Example.stdlib Example.emptyRequest Example.envelope
          ⟨502, "Bad Gateway"⟩).errs = [e] ∧ mentions e.Error (fmtD 502))
    ∧ ((verizonmedia.MakeBids Example.stdlib Example.emptyRequest Example.envelope
          ⟨502, "Bad Gateway"⟩).response = none
      ∧ ∃ e, (verizonmedia.MakeBids Example.stdlib Example.emptyRequest Example.envelope
          ⟨502, "Bad Gateway"⟩).errs = [e] ∧ mentions e.Error (fmtD 502))) :=
  ⟨⟨by decide, by decide⟩,
    MakeBids_unexpected_status Example.stdlib Example.emptyRequest Example.envelope 502
      "Bad Gateway" (by decide) (by decide)⟩

/-- C3, as the code has it: a status code other than 200/204, and a status-200 body that
does not decode, each give a single failure and zero bids in all three adapters.  The
failure is a `BadServerResponse` in verizonmedia (both cases) and in sovrnXsp (status
case); sovrn returns a plain error in both cases and sovrnXsp returns the decoder's own
error for an undecodable body. -/
theorem MakeBids_partner_fault (env : Stdlib) (request : BidRequest) (rd : RequestData)
    (code : Int) (body : String) :
    (code ≠ 200 → code ≠ 204 →
      (∃ m, sovrn.MakeBids env request rd ⟨code, body⟩ = ⟨[], [.errorString m], []⟩)
      ∧ (∃ m, sovrnXsp.MakeBids env request rd ⟨code, body⟩
          = ⟨none, [.BadServerResponse m], []⟩)
      ∧ (∃ m, verizonmedia.MakeBids env request rd ⟨code, body⟩
          = ⟨none, [.BadServerResponse m], []⟩))
    ∧ (∀ e, env.unmarshalBidResponse body = .error e →
      sovrn.MakeBids env request rd ⟨200, body⟩ = ⟨[], [.errorString e], []⟩
      ∧ sovrnXsp.MakeBids env request rd ⟨200, body⟩ = ⟨none, [.errorString e], []⟩
      ∧ (∃ m, verizonmedia.MakeBids env request rd ⟨200, body⟩
          = ⟨none, [.BadServerResponse m], []⟩)) := by
  refine ⟨fun h200 h204 => ⟨?_, ?_, ?_⟩, fun e he => ⟨?_, ?_, ?_⟩⟩
  · simp only [sovrn.MakeBids, h204, h200, if_false, ne_eq, not_false_eq_true, if_true]
    exact ⟨_, rfl⟩
  · simp only [sovrnXsp.MakeBids, h204, h200, if_false, ne_eq, not_false_eq_true, if_true]
    exact ⟨_, rfl⟩
  · simp only [verizonmedia.MakeBids, h204, h200, if_false, ne_eq, not_false_eq_true,
      if_true]
    exact ⟨_, rfl⟩
  · simp [sovrn.MakeBids, he]
  · simp [sovrnXsp.MakeBids, he]
  · simp [verizonmedia.MakeBids, he]

/-- C3 at status 502 and at an undecodable status-200 body. -/
theorem MakeBids_partner_fault_witness :
    ((∃ m, sovrn.MakeBids Example.stdlib Example.emptyRequest Example.envelope ⟨502, ""⟩
          = ⟨[], [.errorString m], []⟩)
      ∧ (∃ m, sovrnXsp.MakeBids Example.stdlib Example.emptyRequest Example.envelope
          ⟨502, ""⟩ = ⟨none, [.BadServerResponse m], []⟩)
      ∧ (∃ m, verizonmedia.MakeBids Example.stdlib Example.emptyRequest Example.envelope
          ⟨502, ""⟩ = ⟨none, [.BadServerResponse m], []⟩))
    ∧ (sovrn.MakeBids Example.stdlib Example.emptyRequest Example.envelope ⟨200, "<html>"⟩
          = ⟨[], [.errorString "unexpected end of JSON input"], []⟩
      ∧ sovrnXsp.MakeBids Example.stdlib Example.emptyRequest Example.envelope
          ⟨200, "<html>"⟩ = ⟨none, [.errorString "unexpected end of JSON input"], []⟩
      ∧ (∃ m, verizonmedia.MakeBids Example.stdlib Example.emptyRequest Example.envelope
          ⟨200, "<html>"⟩ = ⟨none, [.BadServerResponse m], []⟩)) :=
  ⟨(MakeBids_partner_fault Example.stdlib Example.emptyRequest Example.envelope 502 "").1
      (by decide) (by decide),
    (MakeBids_partner_fault Example.stdlib Example.emptyRequest Example.envelope 502
      "<html>").2 "unexpected end of JSON input" rfl⟩

/-- C3 fails as stated: at status 502 the one failure of sovrn is not a
`BadServerResponse`, and neither is the failure of sovrnXsp for an undecodable body. -/
theorem MakeBids_partner_fault_kind_counterexample :
    ((502 : Int) ≠ 200 ∧ (502 : Int) ≠ 204)
    ∧ (sovrn.MakeBids Example.stdlib Example.emptyRequest Example.envelope
        ⟨502, "Bad Gateway"⟩).errs.map GoError.isBadServerResponse = [false]
    ∧ Example.stdlib.unmarshalBidResponse "<html>" = .error "unexpected end of JSON input"
    ∧ (sovrnXsp.MakeBids Example.stdlib Example.emptyRequest Example.envelope
        ⟨200, "<html>"⟩).errs.map GoError.isBadServerResponse = [false] := by
  refine ⟨⟨by decide, by decide⟩, by decide, rfl, by decide⟩

/-! ## Unknown impression identifiers in a response -/

/-- An identifier is unknown to `getImpInfo` exactly when no impression carries it. -/
theorem verizonmedia.getImpInfo_not_found (impId : String) (imps : List Imp) :
    (verizonmedia.getImpInfo impId imps).1 = false ↔ ∀ imp ∈ imps, imp.ID ≠ impId := by
  induction imps with
  | nil => simp [verizonmedia.getImpInfo]
  | cons imp rest ih =>
      by_cases hid : imp.ID = impId
      · simp [verizonmedia.getImpInfo, hid]
      · simp [verizonmedia.getImpInfo, hid, ih]

/-- The inner loop of verizonmedia `MakeBids` returns at the first unknown identifier and
falls through when there is none. -/
theorem verizonmedia.rangeBid_first_unknown (imps : List Imp) (c : Ptr) (bs : List Bid) :
    ∀ st : List TypedBid × BidCells,
      match bs.find? (verizonmedia.unknownImp imps) with
      | some u => verizonmedia.MakeBids.rangeBid imps c bs st
          = .error (.BadServerResponse ("Unknown ad unit code \x27" ++ u.ImpID ++ "\x27"))
      | none => ∃ st1, verizonmedia.MakeBids.rangeBid imps c bs st = .ok st1 := by
  induction bs with
  | nil => intro st; exact ⟨st, rfl⟩
  | cons b rest ih =>
      intro st
      obtain ⟨bids, cells⟩ := st
      by_cases hb : (verizonmedia.getImpInfo b.ImpID imps).1 = true
      · have hu : verizonmedia.unknownImp imps b = false := by
          simp [verizonmedia.unknownImp, hb]
        simp only [List.find?, hu, verizonmedia.MakeBids.rangeBid, hb, Bool.not_true]
        by_cases hm : BidTypeBanner ≠ (verizonmedia.getImpInfo b.ImpID imps).2
        · simpa [hm] using ih (bids, cells.set c b)
        · simpa [hm] using ih (bids ++ [⟨c, BidTypeBanner⟩], cells.set c b)
      · have hb1 : (verizonmedia.getImpInfo b.ImpID imps).1 = false := by
          simpa using hb
        have hu : verizonmedia.unknownImp imps b = true := by
          simp [verizonmedia.unknownImp, hb1]
        simp [List.find?, hu, verizonmedia.MakeBids.rangeBid, hb1]

/-- The outer loop of verizonmedia `MakeBids` returns at the first unknown identifier of
the response, in seat-bid then bid order, and falls through when there is none. -/
theorem verizonmedia.rangeSeatBid_first_unknown (imps : List Imp) (sbs : List SeatBid) :
    ∀ st : List TypedBid × BidCells,
      match (sbs.flatMap (fun sb => sb.Bid)).find? (verizonmedia.unknownImp imps) with
      | some u => verizonmedia.MakeBids.rangeSeatBid imps sbs st
          = .error (.BadServerResponse ("Unknown ad unit code \x27" ++ u.ImpID ++ "\x27"))
      | none => ∃ st1, verizonmedia.MakeBids.rangeSeatBid imps sbs st = .ok st1 := by
  induction sbs with
  | nil => intro st; exact ⟨st, rfl⟩
  | cons sb rest ih =>
      intro st
      obtain ⟨bids, cells⟩ := st
      have h1 := verizonmedia.rangeBid_first_unknown imps cells.length sb.Bid
        (bids, cells ++ [Bid.zero])
      simp only [List.flatMap_cons, List.find?_append, verizonmedia.MakeBids.rangeSeatBid]
      cases hf : sb.Bid.find? (verizonmedia.unknownImp imps) with
      | some u =>
          rw [hf] at h1
          simp only [Option.or_some] at h1 ⊢
          rw [h1]
      | none =>
          rw [hf] at h1
          obtain ⟨st1, h1⟩ := h1
          simp only [Option.none_or]
          rw [h1]
          exact ih st1

/-- C4, as the code has it: in verizonmedia `MakeBids` with status 200 and a decodable
response, a bid whose impression identifier is the ID of no impression of the internal
request makes the whole call fail: zero bids and exactly one `BadServerResponse` failure,
which names the identifier of the first bid, in seat-bid then bid order, that matches no
impression; that is the identifier of the bid at hand where the response carries no other
unknown identifier. The other bids of the response may match what they will. -/
theorem verizonmedia.MakeBids_unknown_imp (env : Stdlib) (request : BidRequest)
    (rd : RequestData) (body : String) (resp : BidResponse) (b : Bid)
    (hdec : env.unmarshalBidResponse body = .ok resp)
    (hb : b ∈ allBids resp)
    (hunknown : ∀ imp ∈ request.Imp, imp.ID ≠ b.ImpID) :
    ∃ u, (allBids resp).find? (verizonmedia.unknownImp request.Imp) = some u
      ∧ (∀ imp ∈ request.Imp, imp.ID ≠ u.ImpID)
      ∧ ((∀ x ∈ allBids resp, (∀ imp ∈ request.Imp, imp.ID ≠ x.ImpID) → x.ImpID = b.ImpID)
          → u.ImpID = b.ImpID)
      ∧ verizonmedia.MakeBids env request rd ⟨200, body⟩
          = ⟨none, [.BadServerResponse ("Unknown ad unit code \x27" ++ u.ImpID ++ "\x27")],
              []⟩ := by
  have hub : verizonmedia.unknownImp request.Imp b = true := by
    simp [verizonmedia.unknownImp, (verizonmedia.getImpInfo_not_found _ _).2 hunknown]
  have hsome : ((allBids resp).find? (verizonmedia.unknownImp request.Imp)).isSome := by
    rw [List.find?_isSome]; exact ⟨b, hb, hub⟩
  obtain ⟨u, hu⟩ := Option.isSome_iff_exists.1 hsome
  have hupred := List.find?_some hu
  have humem := List.mem_of_find?_eq_some hu
  have hunk : ∀ imp ∈ request.Imp, imp.ID ≠ u.ImpID := by
    apply (verizonmedia.getImpInfo_not_found _ _).1
    simpa [verizonmedia.unknownImp] using hupred
  have hseat : ¬ resp.SeatBid.length < 1 := by
    intro hlt
    have : resp.SeatBid = [] := by
      cases hs : resp.SeatBid with
      | nil => rfl
      | cons a l => rw [hs] at hlt; simp at hlt
    simp [allBids, this] at hb
  refine ⟨u, hu, hunk, fun hall => hall u humem hunk, ?_⟩
  have hloop := verizonmedia.rangeSeatBid_first_unknown request.Imp resp.SeatBid
    ((NewBidderResponseWithBidsCapacity request.Imp.length).Bids, [])
  unfold allBids at hu
  rw [hu] at hloop
  simp only at hloop
  simp only [verizonmedia.MakeBids, hdec, hseat, if_false]
  rw [hloop]
  simp

/-- C4 on a response bidding on the banner impression `A` and on an unknown `X`: no bid
is returned, one failure names `X`. -/
theorem verizonmedia.MakeBids_unknown_imp_witness :
    Example.stdlib.unmarshalBidResponse "AX" = .ok ⟨"r", [⟨[Example.bidA, Example.bidX], "s"⟩]⟩
    ∧ Example.bidX ∈ allBids ⟨"r", [⟨[Example.bidA, Example.bidX], "s"⟩]⟩
    ∧ (∀ imp ∈ Example.requestAB.Imp, imp.ID ≠ Example.bidX.ImpID)
    ∧ ∃ u, (allBids ⟨"r", [⟨[Example.bidA, Example.bidX], "s"⟩]⟩).find?
          (verizonmedia.unknownImp Example.requestAB.Imp) = some u
      ∧ (∀ imp ∈ Example.requestAB.Imp, imp.ID ≠ u.ImpID)
      ∧ ((∀ x ∈ allBids ⟨"r", [⟨[Example.bidA, Example.bidX], "s"⟩]⟩,
            (∀ imp ∈ Example.requestAB.Imp, imp.ID ≠ x.ImpID) → x.ImpID = Example.bidX.ImpID)
          → u.ImpID = Example.bidX.ImpID)
      ∧ verizonmedia.MakeBids Example.stdlib Example.requestAB Example.envelope ⟨200, "AX"⟩
          = ⟨none, [.BadServerResponse ("Unknown ad unit code \x27" ++ u.ImpID ++ "\x27")],
              []⟩ :=
  ⟨rfl, by decide, by decide,
    verizonmedia.MakeBids_unknown_imp Example.stdlib Example.requestAB Example.envelope "AX"
      ⟨"r", [⟨[Example.bidA, Example.bidX], "s"⟩]⟩ Example.bidX rfl (by decide) (by decide)⟩

/-- C4 fails as stated: on a response with a bid on `A` in one seat bid and bids on the
unknown `X` and `Y` in another, the bid on `Y` carries an identifier that is the ID of no
impression, and the one failure names `X`, not `Y`. -/
theorem verizonmedia.MakeBids_unknown_imp_counterexample :
    Example.stdlib.unmarshalBidResponse "AXY"
      = .ok ⟨"r", [⟨[Example.bidA], "s"⟩, ⟨[Example.bidX, Example.bidY], "t"⟩]⟩
    ∧ Example.bidY ∈ allBids ⟨"r", [⟨[Example.bidA], "s"⟩, ⟨[Example.bidX, Example.bidY], "t"⟩]⟩
    ∧ (∀ imp ∈ Example.requestAB.Imp, imp.ID ≠ Example.bidY.ImpID)
    ∧ verizonmedia.MakeBids Example.stdlib Example.requestAB Example.envelope ⟨200, "AXY"⟩
        = ⟨none, [.BadServerResponse "Unknown ad unit code \x27X\x27"], []⟩
    ∧ verizonmedia.MakeBids Example.stdlib Example.requestAB Example.envelope ⟨200, "AXY"⟩
        ≠ ⟨none, [.BadServerResponse ("Unknown ad unit code \x27" ++ Example.bidY.ImpID
            ++ "\x27")], []⟩ := by
  refine ⟨rfl, by decide, by decide, by decide, by decide⟩

/-- The typed bids the inner loop of sovrn `MakeBids` appends: one per bid, typed by
`getMediaTypeForImp`. -/
theorem sovrn.rangeBid_bids (imps : List Imp) (c : Ptr) (bs : List Bid) :
    ∀ st : List TypedBid × BidCells,
      (sovrn.MakeBids.rangeBid imps c bs st).1
        = st.1 ++ bs.map (fun b => ⟨c, sovrn.getMediaTypeForImp b.ImpID imps⟩) := by
  induction bs with
  | nil => intro st; simp [sovrn.MakeBids.rangeBid]
  | cons b rest ih =>
      intro st
      obtain ⟨bids, cells⟩ := st
      simp [sovrn.MakeBids.rangeBid, ih]

/-- The bid types the outer loop of sovrn `MakeBids` appends: one per bid of the
response, in seat-bid then bid order. -/
theorem sovrn.rangeSeatBid_bidTypes (imps : List Imp) (sbs : List SeatBid) :
    ∀ st : List TypedBid × BidCells,
      (sovrn.MakeBids.rangeSeatBid imps sbs st).1.map (fun t => t.BidType)
        = st.1.map (fun t => t.BidType)
          ++ (sbs.flatMap (fun sb => sb.Bid)).map
              (fun b => sovrn.getMediaTypeForImp b.ImpID imps) := by
  induction sbs with
  | nil => intro st; simp [sovrn.MakeBids.rangeSeatBid]
  | cons sb rest ih =>
      intro st
      obtain ⟨bids, cells⟩ := st
      simp only [sovrn.MakeBids.rangeSeatBid, ih, sovrn.rangeBid_bids, List.map_append,
        List.map_map, List.flatMap_cons, List.append_assoc]
      rfl

/-- An identifier carried by no impression is resolved to banner by sovrn. -/
theorem sovrn.getMediaTypeForImp_unknown (impId : String) (imps : List Imp)
    (h : ∀ imp ∈ imps, imp.ID ≠ impId) :
    sovrn.getMediaTypeForImp impId imps = BidTypeBanner := by
  induction imps with
  | nil => rfl
  | cons imp rest ih =>
      have h1 : imp.ID ≠ impId := h imp (List.mem_cons_self _ _)
      simp only [sovrn.getMediaTypeForImp, h1, false_and, if_false]
      exact ih (fun x hx => h x (List.mem_cons_of_mem _ hx))

/-- C5, as the code has it: in sovrn and sovrnXsp `MakeBids` with status 200 and a
decodable response, a bid whose impression identifier is the ID of no impression of the
internal request is not a failure.  sovrn returns no failure and one typed bid per bid of
the response, typed by `getMediaTypeForImp`, which is banner for an unknown identifier;
sovrnXsp does not consult the internal request, its result is the same for every one. -/
theorem MakeBids_unmatched_bid_returned (env : Stdlib) (request : BidRequest)
    (rd : RequestData) (body : String) (resp : BidResponse)
    (hdec : env.unmarshalBidResponse body = .ok resp) :
    ((sovrn.MakeBids env request rd ⟨200, body⟩).errs = []
      ∧ (sovrn.MakeBids env request rd ⟨200, body⟩).bids.map (fun t => t.BidType)
          = (allBids resp).map (fun b => sovrn.getMediaTypeForImp b.ImpID request.Imp)
      ∧ (∀ b ∈ allBids resp, (∀ imp ∈ request.Imp, imp.ID ≠ b.ImpID) →
          sovrn.getMediaTypeForImp b.ImpID request.Imp = BidTypeBanner))
    ∧ (∀ other : BidRequest, sovrnXsp.MakeBids env request rd ⟨200, body⟩
          = sovrnXsp.MakeBids env other rd ⟨200, body⟩) := by
  refine ⟨⟨?_, ?_, ?_⟩, ?_⟩
  · simp [sovrn.MakeBids, hdec]
  · simp only [sovrn.MakeBids, hdec]
    simpa [allBids] using sovrn.rangeSeatBid_bidTypes request.Imp resp.SeatBid ([], [])
  · intro b _ hb
    exact sovrn.getMediaTypeForImp_unknown _ _ hb
  · intro other
    simp [sovrnXsp.MakeBids, hdec, NewBidderResponseWithBidsCapacity]

/-- C5 on a response with one bid on the unknown impression `X`. -/
theorem MakeBids_unmatched_bid_returned_witness :
    Example.stdlib.unmarshalBidResponse "X" = .ok ⟨"r", [⟨[Example.bidX], "s"⟩]⟩
    ∧ ((sovrn.MakeBids Example.stdlib Example.requestAB Example.envelope ⟨200, "X"⟩).errs = []
      ∧ (sovrn.MakeBids Example.stdlib Example.requestAB Example.envelope
            ⟨200, "X"⟩).bids.map (fun t => t.BidType)
          = (allBids ⟨"r", [⟨[Example.bidX], "s"⟩]⟩).map
              (fun b => sovrn.getMediaTypeForImp b.ImpID Example.requestAB.Imp)
      ∧ (∀ b ∈ allBids ⟨"r", [⟨[Example.bidX], "s"⟩]⟩,
          (∀ imp ∈ Example.requestAB.Imp, imp.ID ≠ b.ImpID) →
          sovrn.getMediaTypeForImp b.ImpID Example.requestAB.Imp = BidTypeBanner))
    ∧ (∀ other : BidRequest,
        sovrnXsp.MakeBids Example.stdlib Example.requestAB Example.envelope ⟨200, "X"⟩
          = sovrnXsp.MakeBids Example.stdlib other Example.envelope ⟨200, "X"⟩) :=
  ⟨rfl, MakeBids_unmatched_bid_returned Example.stdlib Example.requestAB Example.envelope
    "X" ⟨"r", [⟨[Example.bidX], "s"⟩]⟩ rfl⟩

/-- C5 fails as stated: on a response whose only bid names the unknown impression `X`,
sovrn and sovrnXsp both return that bid (typed banner) and no failure. -/
theorem MakeBids_unmatched_bid_counterexample :
    (∀ imp ∈ Example.requestAB.Imp, imp.ID ≠ Example.bidX.ImpID)
    ∧ Example.stdlib.unmarshalBidResponse "X" = .ok ⟨"r", [⟨[Example.bidX], "s"⟩]⟩
    ∧ sovrn.MakeBids Example.stdlib Example.requestAB Example.envelope ⟨200, "X"⟩
        = ⟨[⟨0, BidTypeBanner⟩], [], [Example.bidX]⟩
    ∧ sovrnXsp.MakeBids Example.stdlib Example.requestAB Example.envelope ⟨200, "X"⟩
        = ⟨some ⟨"USD", [⟨0, BidTypeBanner⟩]⟩, [], [{ Example.bidX with Ext := "" }]⟩ := by
  refine ⟨by decide, rfl, by decide, by decide⟩

/-! ## The store -/

theorem Heap.le_refl (h : Heap) : h.le h := ⟨List.prefix_refl _, List.prefix_refl _⟩

theorem Heap.le_trans {h1 h2 h3 : Heap} (h12 : h1.le h2) (h23 : h2.le h3) : h1.le h3 :=
  ⟨h12.1.trans h23.1, h12.2.trans h23.2⟩

/-- Reading through a prefix. -/
theorem List.getElem?_of_prefix {α : Type} {l l1 : List α} (hp : l <+: l1) {p : Nat} {x : α}
    (hx : l[p]? = some x) : l1[p]? = some x := by
  obtain ⟨t, rfl⟩ := hp
  have hlt : p < l.length := by
    by_contra hge
    rw [List.getElem?_eq_none (by omega)] at hx
    cases hx
  rw [List.getElem?_append_left hlt]
  exact hx

theorem Heap.banner_eq_ok {h : Heap} {p : Ptr} {b : Banner} :
    h.banner p = .ok b ↔ h.banners[p]? = some b := by
  unfold Heap.banner
  cases hb : h.banners[p]? <;> simp

theorem Heap.site_eq_ok {h : Heap} {p : Ptr} {s : Site} :
    h.site p = .ok s ↔ h.sites[p]? = some s := by
  unfold Heap.site
  cases hb : h.sites[p]? <;> simp

/-- A banner of the store is still there in every extension of the store. -/
theorem Heap.le_banner {h h1 : Heap} (hle : h.le h1) {p : Ptr} {b : Banner}
    (hb : h.banner p = .ok b) : h1.banner p = .ok b :=
  Heap.banner_eq_ok.2 (List.getElem?_of_prefix hle.2 (Heap.banner_eq_ok.1 hb))

/-- A site of the store is still there in every extension of the store. -/
theorem Heap.le_site {h h1 : Heap} (hle : h.le h1) {p : Ptr} {s : Site}
    (hs : h.site p = .ok s) : h1.site p = .ok s :=
  Heap.site_eq_ok.2 (List.getElem?_of_prefix hle.1 (Heap.site_eq_ok.1 hs))

theorem Heap.le_impTree {h h1 : Heap} (hle : h.le h1) {imp : Imp} {it : ImpOf Banner}
    (hi : h.impTree imp = .ok it) : h1.impTree imp = .ok it := by
  unfold Heap.impTree at hi ⊢
  cases hb : imp.Banner with
  | none => simpa [hb] using hi
  | some p =>
      rw [hb] at hi
      simp only at hi ⊢
      cases hp : h.banner p with
      | error f => rw [hp] at hi; cases hi
      | ok b => rw [hp] at hi; rw [Heap.le_banner hle hp]; exact hi

theorem Heap.le_impTrees {h h1 : Heap} (hle : h.le h1) :
    ∀ {imps : List Imp} {its : List (ImpOf Banner)},
      h.impTrees imps = .ok its → h1.impTrees imps = .ok its := by
  intro imps
  induction imps with
  | nil => intro its hi; simpa [Heap.impTrees] using hi
  | cons imp rest ih =>
      intro its hi
      simp only [Heap.impTrees] at hi ⊢
      cases h1i : h.impTree imp with
      | error f => rw [h1i] at hi; cases hi
      | ok it =>
          rw [h1i] at hi
          simp only at hi
          cases h2 : h.impTrees rest with
          | error f => rw [h2] at hi; cases hi
          | ok its1 =>
              rw [h2] at hi
              rw [Heap.le_impTree hle h1i, ih h2]
              exact hi

/-- The tree of a request is the same in every extension of the store. -/
theorem Heap.le_tree {h h1 : Heap} (hle : h.le h1) {r : BidRequest} {t : BidRequestTree}
    (ht : h.tree r = .ok t) : h1.tree r = .ok t := by
  unfold Heap.tree at ht ⊢
  cases hi : h.impTrees r.Imp with
  | error f => rw [hi] at ht; cases ht
  | ok its =>
      rw [hi] at ht
      rw [Heap.le_impTrees hle hi]
      simp only at ht ⊢
      cases hs : r.Site with
      | none => simpa [hs] using ht
      | some sp =>
          rw [hs] at ht
          simp only at ht ⊢
          cases hp : h.site sp with
          | error f => rw [hp] at ht; cases ht
          | ok s => rw [hp] at ht; rw [Heap.le_site hle hp]; exact ht

theorem Heap.impTree_eq_ok {h : Heap} {imp : Imp} {it : ImpOf Banner} :
    h.impTree imp = .ok it ↔
      (imp.Banner = none ∧ it = ⟨imp.ID, none, imp.Video, imp.Audio, imp.Native, imp.TagID,
          imp.BidFloor, imp.Ext⟩)
      ∨ (∃ p b, imp.Banner = some p ∧ h.banner p = .ok b
          ∧ it = ⟨imp.ID, some b, imp.Video, imp.Audio, imp.Native, imp.TagID,
              imp.BidFloor, imp.Ext⟩) := by
  unfold Heap.impTree
  cases hb : imp.Banner with
  | none =>
      constructor
      · intro hh
        left
        simp only [Except.ok.injEq] at hh
        exact ⟨rfl, hh.symm⟩
      · rintro (⟨-, rfl⟩ | ⟨p, b, hp, -⟩)
        · rfl
        · cases hp
  | some p =>
      dsimp only
      cases hp : h.banner p with
      | error f =>
          constructor
          · intro hh; cases hh
          · rintro (⟨hn, -⟩ | ⟨q, c, hq, hc, -⟩)
            · cases hn
            · cases hq
              rw [hp] at hc
              cases hc
      | ok b =>
          constructor
          · intro hh
            right
            simp only [Except.ok.injEq] at hh
            exact ⟨p, b, rfl, hp, hh.symm⟩
          · rintro (⟨hn, -⟩ | ⟨q, c, hq, hc, rfl⟩)
            · cases hn
            · cases hq
              rw [hp] at hc
              cases hc
              rfl

theorem Heap.site_new (ss : List Site) (bs : List Banner) (s : Site) :
    Heap.site ⟨ss ++ [s], bs⟩ ss.length = .ok s := by
  simp [Heap.site]

theorem Heap.banner_new (ss : List Site) (bs : List Banner) (b : Banner) :
    Heap.banner ⟨ss, bs ++ [b]⟩ bs.length = .ok b := by
  simp [Heap.banner]

theorem List.set_last {α : Type} (l : List α) (x y : α) :
    (l ++ [x]).set l.length y = l ++ [y] := by
  induction l with
  | nil => rfl
  | cons a l ih => simp [ih]

theorem Heap.setSite_new (ss : List Site) (bs : List Banner) (s s1 : Site) :
    Heap.setSite ⟨ss ++ [s], bs⟩ ss.length s1 = .ok ⟨ss ++ [s1], bs⟩ := by
  simp [Heap.setSite, List.set_last]

theorem Heap.setBanner_new (ss : List Site) (bs : List Banner) (b b1 : Banner) :
    Heap.setBanner ⟨ss, bs ++ [b]⟩ bs.length b1 = .ok ⟨ss, bs ++ [b1]⟩ := by
  simp [Heap.setBanner, List.set_last]

theorem Heap.le_append (ss ss1 : List Site) (bs bs1 : List Banner) :
    Heap.le ⟨ss, bs⟩ ⟨ss ++ ss1, bs ++ bs1⟩ :=
  ⟨List.prefix_append _ _, List.prefix_append _ _⟩

/-! ## `MakeRequests` of verizonmedia computes `shapeAll` -/

/-- On a request copy whose impression has no banner, `changeRequestForBidService`
overrides the tag ID and the ID of the site copy, and nothing else. -/
theorem verizonmedia.changeRequest_noBanner (ss : List Site) (bs : List Banner) (site : Site)
    (rid : String) (app : Option App) (dev : Option Device) (usr : Option User) (imp : Imp)
    (ext : ExtImpVerizonMedia) (hb : imp.Banner = none) :
    verizonmedia.changeRequestForBidService ⟨ss ++ [site], bs⟩
        ⟨rid, [imp], some ss.length, app, dev, usr⟩ ext
      = .ok (⟨rid, [⟨imp.ID, none, imp.Video, imp.Audio, imp.Native, ext.Pos, imp.BidFloor,
              imp.Ext⟩], some ss.length, app, dev, usr⟩,
            ⟨ss ++ [{ site with ID := ext.Dcn }], bs⟩, none) := by
  simp [verizonmedia.changeRequestForBidService, Heap.site_new, Heap.setSite_new, hb]

/-- On a request copy whose impression has a banner, `changeRequestForBidService`
overrides the tag ID and the ID of the site copy, and points the impression to a copy of
the banner, which it leaves as `bannerForBidService` says. -/
theorem verizonmedia.changeRequest_banner (ss : List Site) (bs : List Banner) (site : Site)
    (rid : String) (app : Option App) (dev : Option Device) (usr : Option User) (imp : Imp)
    (ext : ExtImpVerizonMedia) (p : Ptr) (b : Banner) (hb : imp.Banner = some p)
    (hpb : Heap.banner ⟨ss, bs⟩ p = .ok b) :
    verizonmedia.changeRequestForBidService ⟨ss ++ [site], bs⟩
        ⟨rid, [imp], some ss.length, app, dev, usr⟩ ext
      = match verizonmedia.bannerForBidService b with
        | .error e =>
            .ok (⟨rid, [⟨imp.ID, some bs.length, imp.Video, imp.Audio, imp.Native, ext.Pos,
                  imp.BidFloor, imp.Ext⟩], some ss.length, app, dev, usr⟩,
                ⟨ss ++ [{ site with ID := ext.Dcn }], bs ++ [b]⟩, some e)
        | .ok b1 =>
            .ok (⟨rid, [⟨imp.ID, some bs.length, imp.Video, imp.Audio, imp.Native, ext.Pos,
                  imp.BidFloor, imp.Ext⟩], some ss.length, app, dev, usr⟩,
                ⟨ss ++ [{ site with ID := ext.Dcn }], bs ++ [b1]⟩, none) := by
  have hpb1 : Heap.banner ⟨ss ++ [{ site with ID := ext.Dcn }], bs⟩ p = .ok b := hpb
  simp only [verizonmedia.changeRequestForBidService, Heap.site_new, Heap.setSite_new, hb,
    hpb1, Heap.newBanner, verizonmedia.bannerForBidService]
  rcases hW : b.W with _ | w <;> rcases hH : b.H with _ | hh
  · cases hF : b.Format with
    | nil => rfl
    | cons f fs => simp only [Heap.setBanner_new]
  · cases hF : b.Format with
    | nil => rfl
    | cons f fs => simp only [Heap.setBanner_new]
  · cases hF : b.Format with
    | nil => rfl
    | cons f fs => simp only [Heap.setBanner_new]
  · by_cases hz : w = 0 ∨ hh = 0
    · simp only [hz, if_true]
    · simp only [hz, if_false]

/-- The tree of the request copy after `changeRequestForBidService`. -/
theorem verizonmedia.tree_shaped (ss : List Site) (bs : List Banner) (site : Site)
    (request : BidRequest) (t : BidRequestTree) (imp : Imp) (ext : ExtImpVerizonMedia)
    (b b1 : Banner)
    (hID : t.ID = request.ID) (hApp : t.App = request.App)
    (hDev : t.Device = request.Device) (hUser : t.User = request.User) :
    Heap.tree ⟨ss ++ [{ site with ID := ext.Dcn }], bs ++ [b1]⟩
        ⟨request.ID, [⟨imp.ID, some bs.length, imp.Video, imp.Audio, imp.Native, ext.Pos,
          imp.BidFloor, imp.Ext⟩], some ss.length, request.App, request.Device, request.User⟩
      = .ok (verizonmedia.shapedTree t site
          ⟨imp.ID, some b, imp.Video, imp.Audio, imp.Native, imp.TagID, imp.BidFloor, imp.Ext⟩
          ext (some b1)) := by
  simp [Heap.tree, Heap.impTrees, Heap.impTree, Heap.site_new, Heap.banner_new,
    verizonmedia.shapedTree, hID, hApp, hDev, hUser]

/-- One iteration of the loop of `MakeRequests`: it yields what `shapeImp` says for the
tree of the impression, and leaves a store that extends the one it started from. -/
theorem verizonmedia.rangeImp_step (env : Stdlib) (a : verizonmedia.VerizonMediaAdapter)
    (request : BidRequest) (headers : Header) (t : BidRequestTree) (idx : Nat) (imp : Imp)
    (rest : List Imp) (it : ImpOf Banner) (h1 : Heap) (reqs : List RequestData)
    (errs : List GoError)
    (hID : t.ID = request.ID) (hApp : t.App = request.App)
    (hDev : t.Device = request.Device) (hUser : t.User = request.User)
    (hsite : match request.Site with
      | none => t.Site = none
      | some sp => ∃ s, h1.site sp = .ok s ∧ t.Site = some s)
    (himp : h1.impTree imp = .ok it) :
    match verizonmedia.shapeImp env a t headers idx it with
    | .error f =>
        verizonmedia.MakeRequests.rangeImp env a request headers idx (imp :: rest)
          (h1, reqs, errs) = .error f
    | .ok (.ok rd) =>
        ∃ h2, h1.le h2 ∧
          verizonmedia.MakeRequests.rangeImp env a request headers idx (imp :: rest)
            (h1, reqs, errs)
          = verizonmedia.MakeRequests.rangeImp env a request headers (idx + 1) rest
            (h2, reqs ++ [rd], errs)
    | .ok (.error e) =>
        ∃ h2, h1.le h2 ∧
          verizonmedia.MakeRequests.rangeImp env a request headers idx (imp :: rest)
            (h1, reqs, errs)
          = verizonmedia.MakeRequests.rangeImp env a request headers (idx + 1) rest
            (h2, reqs, errs ++ [e]) := by
  have hExt : it.Ext = imp.Ext := by
    rcases Heap.impTree_eq_ok.1 himp with ⟨-, rfl⟩ | ⟨p, b, -, -, rfl⟩ <;> rfl
  unfold verizonmedia.shapeImp
  rw [verizonmedia.MakeRequests.rangeImp, hExt]
  cases hd1 : env.unmarshalExtImpBidder imp.Ext with
  | error e1 => exact ⟨h1, Heap.le_refl _, rfl⟩
  | ok bidderExt =>
      dsimp only
      cases hd2 : env.unmarshalExtImpVerizonMedia bidderExt.Bidder with
      | error e2 => exact ⟨h1, Heap.le_refl _, rfl⟩
      | ok ext =>
          dsimp only
          by_cases hdcn : ext.Dcn = ""
          · simp only [hdcn, if_true]
            exact ⟨h1, Heap.le_refl _, rfl⟩
          · by_cases hpos : ext.Pos = ""
            · simp only [hdcn, hpos, if_true, if_false]
              exact ⟨h1, Heap.le_refl _, rfl⟩
            · simp only [hdcn, hpos, if_false]
              cases hs : request.Site with
              | none =>
                  rw [hs] at hsite
                  simp only at hsite
                  rw [hsite]
              | some sp =>
                  rw [hs] at hsite
                  obtain ⟨site, hsp, htsite⟩ := hsite
                  rw [htsite]
                  obtain ⟨ss, bs⟩ := h1
                  simp only [hsp, Heap.newSite]
                  rcases Heap.impTree_eq_ok.1 himp with ⟨hb, rfl⟩ | ⟨p, b, hb, hpb, rfl⟩
                  · rw [verizonmedia.changeRequest_noBanner ss bs site _ _ _ _ imp ext hb]
                    have htree : Heap.tree
                        ⟨ss ++ [{ site with ID := ext.Dcn }], bs⟩
                        { request with
                          Imp := [⟨imp.ID, none, imp.Video, imp.Audio, imp.Native, ext.Pos,
                            imp.BidFloor, imp.Ext⟩]
                          Site := some ss.length }
                        = .ok (verizonmedia.shapedTree t site
                            ⟨imp.ID, none, imp.Video, imp.Audio, imp.Native, imp.TagID,
                              imp.BidFloor, imp.Ext⟩ ext none) := by
                      simp [Heap.tree, Heap.impTrees, Heap.impTree, Heap.site_new,
                        verizonmedia.shapedTree, hID, hApp, hDev, hUser]
                    simp only [htree, verizonmedia.marshalShaped]
                    cases hm : env.marshalBidRequest (verizonmedia.shapedTree t site
                        ⟨imp.ID, none, imp.Video, imp.Audio, imp.Native, imp.TagID,
                          imp.BidFloor, imp.Ext⟩ ext none) with
                    | error e =>
                        exact ⟨⟨ss ++ [{ site with ID := ext.Dcn }], bs⟩,
                          ⟨List.prefix_append _ _, List.prefix_refl _⟩, rfl⟩
                    | ok js =>
                        exact ⟨⟨ss ++ [{ site with ID := ext.Dcn }], bs⟩,
                          ⟨List.prefix_append _ _, List.prefix_refl _⟩, rfl⟩
                  · rw [verizonmedia.changeRequest_banner ss bs site _ _ _ _ imp ext p b hb hpb]
                    dsimp only
                    cases hbb : verizonmedia.bannerForBidService b with
                    | error e =>
                        exact ⟨⟨ss ++ [{ site with ID := ext.Dcn }], bs ++ [b]⟩,
                          Heap.le_append _ _ _ _, rfl⟩
                    | ok b1 =>
                        simp only [verizonmedia.tree_shaped ss bs site request t imp ext b b1
                          hID hApp hDev hUser, verizonmedia.marshalShaped]
                        cases hm : env.marshalBidRequest (verizonmedia.shapedTree t site
                            ⟨imp.ID, some b, imp.Video, imp.Audio, imp.Native, imp.TagID,
                              imp.BidFloor, imp.Ext⟩ ext (some b1)) with
                        | error e =>
                            exact ⟨⟨ss ++ [{ site with ID := ext.Dcn }], bs ++ [b1]⟩,
                              Heap.le_append _ _ _ _, rfl⟩
                        | ok js =>
                            exact ⟨⟨ss ++ [{ site with ID := ext.Dcn }], bs ++ [b1]⟩,
                              Heap.le_append _ _ _ _, rfl⟩

theorem Heap.impTrees_cons_eq_ok {h : Heap} {imp : Imp} {rest : List Imp}
    {its : List (ImpOf Banner)} (hi : h.impTrees (imp :: rest) = .ok its) :
    ∃ it its1, h.impTree imp = .ok it ∧ h.impTrees rest = .ok its1 ∧ its = it :: its1 := by
  simp only [Heap.impTrees] at hi
  cases h1 : h.impTree imp with
  | error f => rw [h1] at hi; cases hi
  | ok it =>
      rw [h1] at hi
      dsimp only at hi
      cases h2 : h.impTrees rest with
      | error f => rw [h2] at hi; cases hi
      | ok its1 =>
          rw [h2] at hi
          simp only [Except.ok.injEq] at hi
          exact ⟨it, its1, rfl, rfl, hi.symm⟩

/-- What a resolved tree says about the request it is the tree of. -/
theorem Heap.tree_eq_ok {h : Heap} {r : BidRequest} {t : BidRequestTree}
    (ht : h.tree r = .ok t) :
    h.impTrees r.Imp = .ok t.Imp ∧ t.ID = r.ID ∧ t.App = r.App ∧ t.Device = r.Device
      ∧ t.User = r.User
      ∧ (match r.Site with
        | none => t.Site = none
        | some sp => ∃ s, h.site sp = .ok s ∧ t.Site = some s) := by
  unfold Heap.tree at ht
  cases hi : h.impTrees r.Imp with
  | error f => rw [hi] at ht; cases ht
  | ok its =>
      rw [hi] at ht
      dsimp only at ht
      cases hs : r.Site with
      | none =>
          rw [hs] at ht
          simp only [Except.ok.injEq] at ht
          subst ht
          exact ⟨rfl, rfl, rfl, rfl, rfl, rfl⟩
      | some sp =>
          rw [hs] at ht
          dsimp only at ht
          cases hp : h.site sp with
          | error f => rw [hp] at ht; cases ht
          | ok s =>
              rw [hp] at ht
              simp only [Except.ok.injEq] at ht
              subst ht
              exact ⟨rfl, rfl, rfl, rfl, rfl, s, hp, rfl⟩

/-- The loop of `MakeRequests` computes `shapeAll` on the trees of the impressions, and
leaves a store that extends the one it started from. -/
theorem verizonmedia.rangeImp_refines (env : Stdlib) (a : verizonmedia.VerizonMediaAdapter)
    (request : BidRequest) (headers : Header) (t : BidRequestTree) (h0 : Heap)
    (hID : t.ID = request.ID) (hApp : t.App = request.App)
    (hDev : t.Device = request.Device) (hUser : t.User = request.User)
    (hsite : match request.Site with
      | none => t.Site = none
      | some sp => ∃ s, h0.site sp = .ok s ∧ t.Site = some s) :
    ∀ (imps : List Imp) (its : List (ImpOf Banner)) (idx : Nat) (h1 : Heap)
      (reqs : List RequestData) (errs : List GoError),
      h0.le h1 → h0.impTrees imps = .ok its →
      match verizonmedia.shapeAll env a t headers idx its (reqs, errs) with
      | .error f =>
          verizonmedia.MakeRequests.rangeImp env a request headers idx imps (h1, reqs, errs)
            = .error f
      | .ok out =>
          ∃ h2, h1.le h2 ∧
            verizonmedia.MakeRequests.rangeImp env a request headers idx imps
              (h1, reqs, errs) = .ok (h2, out.1, out.2) := by
  intro imps
  induction imps with
  | nil =>
      intro its idx h1 reqs errs _ hi
      simp only [Heap.impTrees, Except.ok.injEq] at hi
      subst hi
      exact ⟨h1, Heap.le_refl _, rfl⟩
  | cons imp rest ih =>
      intro its idx h1 reqs errs hle hi
      obtain ⟨it, its1, himp, hrest, rfl⟩ := Heap.impTrees_cons_eq_ok hi
      have hsite1 : match request.Site with
          | none => t.Site = none
          | some sp => ∃ s, h1.site sp = .ok s ∧ t.Site = some s := by
        cases hs : request.Site with
        | none => rw [hs] at hsite; exact hsite
        | some sp =>
            rw [hs] at hsite
            obtain ⟨s, hs1, hs2⟩ := hsite
            exact ⟨s, Heap.le_site hle hs1, hs2⟩
      have hstep := verizonmedia.rangeImp_step env a request headers t idx imp rest it h1
        reqs errs hID hApp hDev hUser hsite1 (Heap.le_impTree hle himp)
      simp only [verizonmedia.shapeAll]
      cases hsh : verizonmedia.shapeImp env a t headers idx it with
      | error f =>
          rw [hsh] at hstep
          exact hstep
      | ok res =>
          cases res with
          | error e =>
              rw [hsh] at hstep
              obtain ⟨h2, hle2, heq⟩ := hstep
              have hih := ih its1 (idx + 1) h2 reqs (errs ++ [e]) (Heap.le_trans hle hle2)
                hrest
              dsimp only
              rw [heq]
              cases hall : verizonmedia.shapeAll env a t headers (idx + 1) its1
                  (reqs, errs ++ [e]) with
              | error f => rw [hall] at hih; exact hih
              | ok out =>
                  rw [hall] at hih
                  obtain ⟨h3, hle3, heq3⟩ := hih
                  exact ⟨h3, Heap.le_trans hle2 hle3, heq3⟩
          | ok rd =>
              rw [hsh] at hstep
              obtain ⟨h2, hle2, heq⟩ := hstep
              have hih := ih its1 (idx + 1) h2 (reqs ++ [rd]) errs (Heap.le_trans hle hle2)
                hrest
              dsimp only
              rw [heq]
              cases hall : verizonmedia.shapeAll env a t headers (idx + 1) its1
                  (reqs ++ [rd], errs) with
              | error f => rw [hall] at hih; exact hih
              | ok out =>
                  rw [hall] at hih
                  obtain ⟨h3, hle3, heq3⟩ := hih
                  exact ⟨h3, Heap.le_trans hle2 hle3, heq3⟩

/-- On a request with at least one impression, `MakeRequests` of verizonmedia returns
what `shapeAll` computes on the tree of the request, leaves the caller's request as it
was and leaves a store that extends the one it was called in. -/
theorem verizonmedia.MakeRequests_refines (env : Stdlib)
    (a : verizonmedia.VerizonMediaAdapter) (h : Heap) (request : BidRequest)
    (t : BidRequestTree) (ht : h.tree request = .ok t) (hne : request.Imp ≠ []) :
    match verizonmedia.shapeAll env a t (verizonmedia.MakeRequests.headers request) 0 t.Imp
        ([], []) with
    | .error f => verizonmedia.MakeRequests env a h request = .error f
    | .ok out =>
        ∃ h2, h.le h2 ∧
          verizonmedia.MakeRequests env a h request = .ok ⟨out.1, out.2, request, h2⟩ := by
  obtain ⟨hi, hID, hApp, hDev, hUser, hsite⟩ := Heap.tree_eq_ok ht
  have hlen : ¬ request.Imp.length = 0 := by
    intro h0
    exact hne (List.length_eq_zero.1 h0)
  have hr := verizonmedia.rangeImp_refines env a request
    (verizonmedia.MakeRequests.headers request) t h hID hApp hDev hUser hsite request.Imp
    t.Imp 0 h [] [] (Heap.le_refl _) hi
  simp only [verizonmedia.MakeRequests, hlen, if_false]
  cases hall : verizonmedia.shapeAll env a t (verizonmedia.MakeRequests.headers request) 0
      t.Imp ([], []) with
  | error f =>
      rw [hall] at hr
      dsimp only at hr ⊢
      rw [hr]
  | ok out =>
      rw [hall] at hr
      obtain ⟨h2, hle2, heq⟩ := hr
      dsimp only
      rw [heq]
      exact ⟨h2, hle2, rfl⟩

/-- With a site block in the tree, an iteration of the loop does not panic. -/
theorem verizonmedia.shapeImp_returns (env : Stdlib) (a : verizonmedia.VerizonMediaAdapter)
    (t : BidRequestTree) (headers : Header) (idx : Nat) (it : ImpOf Banner) (site : Site)
    (hsite : t.Site = some site) :
    ∃ res, verizonmedia.shapeImp env a t headers idx it = .ok res := by
  unfold verizonmedia.shapeImp
  rw [hsite]
  cases env.unmarshalExtImpBidder it.Ext with
  | error e => exact ⟨_, rfl⟩
  | ok bidderExt =>
      dsimp only
      cases env.unmarshalExtImpVerizonMedia bidderExt.Bidder with
      | error e => exact ⟨_, rfl⟩
      | ok ext =>
          dsimp only
          by_cases hdcn : ext.Dcn = ""
          · simp only [hdcn, if_true]; exact ⟨_, rfl⟩
          · by_cases hpos : ext.Pos = ""
            · simp only [hdcn, hpos, if_true, if_false]; exact ⟨_, rfl⟩
            · simp only [hdcn, hpos, if_false]
              cases it.Banner with
              | none => exact ⟨_, rfl⟩
              | some b =>
                  dsimp only
                  cases verizonmedia.bannerForBidService b with
                  | error e => exact ⟨_, rfl⟩
                  | ok b1 => exact ⟨_, rfl⟩

/-- With a site block in the tree, the loop does not panic. -/
theorem verizonmedia.shapeAll_returns (env : Stdlib) (a : verizonmedia.VerizonMediaAdapter)
    (t : BidRequestTree) (headers : Header) (site : Site) (hsite : t.Site = some site) :
    ∀ (its : List (ImpOf Banner)) (idx : Nat) (st : List RequestData × List GoError),
      ∃ out, verizonmedia.shapeAll env a t headers idx its st = .ok out := by
  intro its
  induction its with
  | nil => intro idx st; exact ⟨st, rfl⟩
  | cons it rest ih =>
      intro idx st
      obtain ⟨reqs, errs⟩ := st
      obtain ⟨res, hres⟩ := verizonmedia.shapeImp_returns env a t headers idx it site hsite
      simp only [verizonmedia.shapeAll, hres]
      cases res with
      | error e => exact ih (idx + 1) (reqs, errs ++ [e])
      | ok rd => exact ih (idx + 1) (reqs ++ [rd], errs)

/-- C10. `MakeRequests` of verizonmedia never modifies the caller's request: on every
request with a site block the call returns, the request is the one passed in, every
object of the store it was called in is still there unchanged, and so the tree of the
request (site ID, impression list, tag IDs, banner widths, heights and format lists) is
what it was before the call. -/
theorem verizonmedia.MakeRequests_frame (env : Stdlib)
    (a : verizonmedia.VerizonMediaAdapter) (h : Heap) (request : BidRequest)
    (t : BidRequestTree) (ht : h.tree request = .ok t) (hsite : request.Site ≠ none) :
    ∃ r, verizonmedia.MakeRequests env a h request = .ok r
      ∧ r.request = request ∧ h.le r.heap ∧ r.heap.tree r.request = .ok t := by
  by_cases hne : request.Imp = []
  · refine ⟨⟨[], [.BadInput "No impression in the bid request"], request, h⟩, ?_, rfl,
      Heap.le_refl _, ht⟩
    simp [verizonmedia.MakeRequests, hne]
  · obtain ⟨-, -, -, -, -, hs⟩ := Heap.tree_eq_ok ht
    have htsite : ∃ site, t.Site = some site := by
      cases hrs : request.Site with
      | none => exact absurd hrs hsite
      | some sp =>
          rw [hrs] at hs
          obtain ⟨s, -, hs2⟩ := hs
          exact ⟨s, hs2⟩
    obtain ⟨site, htsite⟩ := htsite
    have href := verizonmedia.MakeRequests_refines env a h request t ht hne
    obtain ⟨out, hout⟩ := verizonmedia.shapeAll_returns env a t
      (verizonmedia.MakeRequests.headers request) site htsite t.Imp 0 ([], [])
    rw [hout] at href
    obtain ⟨h2, hle, heq⟩ := href
    exact ⟨_, heq, rfl, hle, Heap.le_tree hle ht⟩

/-- C10 on the request with impressions `A` and `B`. -/
theorem verizonmedia.MakeRequests_frame_witness :
    Example.heap.tree Example.requestAB = .ok Example.treeAB
    ∧ Example.requestAB.Site ≠ none
    ∧ ∃ r, verizonmedia.MakeRequests Example.stdlib Example.verizon Example.heap
          Example.requestAB = .ok r
      ∧ r.request = Example.requestAB ∧ Example.heap.le r.heap
      ∧ r.heap.tree r.request = .ok Example.treeAB :=
  ⟨rfl, by decide,
    verizonmedia.MakeRequests_frame Example.stdlib Example.verizon Example.heap
      Example.requestAB Example.treeAB rfl (by decide)⟩

theorem Heap.impTrees_length {h : Heap} :
    ∀ {imps : List Imp} {its : List (ImpOf Banner)},
      h.impTrees imps = .ok its → its.length = imps.length := by
  intro imps
  induction imps with
  | nil =>
      intro its hi
      simp only [Heap.impTrees, Except.ok.injEq] at hi
      subst hi
      rfl
  | cons imp rest ih =>
      intro its hi
      obtain ⟨it, its1, -, hrest, rfl⟩ := Heap.impTrees_cons_eq_ok hi
      simp [ih hrest]

/-- An impression with valid parameters and a usable banner (or none) gets an envelope:
the serialisation of a request holding that impression alone, its tag ID replaced by its
own `pos`, under a site whose ID is its own `dcn`. -/
theorem verizonmedia.shapeImp_valid (env : Stdlib) (a : verizonmedia.VerizonMediaAdapter)
    (t : BidRequestTree) (headers : Header) (idx : Nat) (it : ImpOf Banner) (site : Site)
    (ext : ExtImpVerizonMedia) (hsite : t.Site = some site)
    (hparams : verizonmedia.params env it.Ext = some ext)
    (hdcn : ext.Dcn ≠ "") (hpos : ext.Pos ≠ "")
    (hbanner : ∀ b, it.Banner = some b → ∃ b1, verizonmedia.bannerForBidService b = .ok b1)
    (hmarshal : ∀ tree, ∃ js, env.marshalBidRequest tree = .ok js) :
    ∃ banner js,
      (match it.Banner with
        | none => banner = none
        | some b => ∃ b1, verizonmedia.bannerForBidService b = .ok b1 ∧ banner = some b1)
      ∧ env.marshalBidRequest
          ⟨t.ID, [{ it with TagID := ext.Pos, Banner := banner }],
            some { site with ID := ext.Dcn }, t.App, t.Device, t.User⟩ = .ok js
      ∧ verizonmedia.shapeImp env a t headers idx it
          = .ok (.ok ⟨"POST", a.URI, js, headers⟩) := by
  unfold verizonmedia.params at hparams
  unfold verizonmedia.shapeImp
  rw [hsite]
  cases hd1 : env.unmarshalExtImpBidder it.Ext with
  | error e => rw [hd1] at hparams; cases hparams
  | ok bidderExt =>
      rw [hd1] at hparams
      dsimp only at hparams ⊢
      cases hd2 : env.unmarshalExtImpVerizonMedia bidderExt.Bidder with
      | error e => rw [hd2] at hparams; cases hparams
      | ok ext1 =>
          rw [hd2] at hparams
          simp only [Option.some.injEq] at hparams
          subst hparams
          simp only [hdcn, hpos, if_false]
          cases hb : it.Banner with
          | none =>
              obtain ⟨js, hjs⟩ := hmarshal (verizonmedia.shapedTree t site it ext1 none)
              refine ⟨none, js, rfl, hjs, ?_⟩
              simp only [verizonmedia.marshalShaped, hjs]
          | some b =>
              obtain ⟨b1, hb1⟩ := hbanner b hb
              obtain ⟨js, hjs⟩ := hmarshal (verizonmedia.shapedTree t site it ext1 (some b1))
              refine ⟨some b1, js, ⟨b1, hb1, rfl⟩, hjs, ?_⟩
              simp only [hb1, verizonmedia.marshalShaped, hjs]

/-- C9. On a request with a site block whose impressions all have decodable parameters
with non-empty `dcn` and `pos` and a usable banner size (or no banner), `MakeRequests` of
verizonmedia returns as many envelopes as there are impressions; the i-th envelope is the
serialisation of a request holding the i-th impression alone, its tag ID replaced by its
own `pos` (and its banner sized), under a site whose ID is that impression's own `dcn`;
with at least one impression there is no failure. -/
theorem verizonmedia.MakeRequests_split (env : Stdlib)
    (a : verizonmedia.VerizonMediaAdapter) (h : Heap) (request : BidRequest)
    (t : BidRequestTree) (site : Site)
    (ht : h.tree request = .ok t) (hsite : t.Site = some site)
    (hvalid : ∀ it ∈ t.Imp, ∃ ext, verizonmedia.params env it.Ext = some ext
      ∧ ext.Dcn ≠ "" ∧ ext.Pos ≠ ""
      ∧ ∀ b, it.Banner = some b → ∃ b1, verizonmedia.bannerForBidService b = .ok b1)
    (hmarshal : ∀ tree, ∃ js, env.marshalBidRequest tree = .ok js) :
    ∃ r, verizonmedia.MakeRequests env a h request = .ok r
      ∧ r.reqs.length = request.Imp.length
      ∧ (request.Imp ≠ [] → r.errs = [])
      ∧ List.Forall₂
          (fun it rd => ∃ ext banner,
            verizonmedia.params env it.Ext = some ext
            ∧ (match it.Banner with
              | none => banner = none
              | some b => ∃ b1, verizonmedia.bannerForBidService b = .ok b1 ∧ banner = some b1)
            ∧ env.marshalBidRequest
                ⟨t.ID, [{ it with TagID := ext.Pos, Banner := banner }],
                  some { site with ID := ext.Dcn }, t.App, t.Device, t.User⟩ = .ok rd.Body
            ∧ rd.Method = "POST" ∧ rd.Uri = a.URI
            ∧ rd.Headers = verizonmedia.MakeRequests.headers request)
          t.Imp r.reqs := by
  have hlen := Heap.impTrees_length (Heap.tree_eq_ok ht).1
  by_cases hne : request.Imp = []
  · have htimp : t.Imp = [] := by
      apply List.length_eq_zero.1
      rw [hlen, hne]; rfl
    refine ⟨⟨[], [.BadInput "No impression in the bid request"], request, h⟩, ?_, ?_,
      fun hc => absurd hne hc, ?_⟩
    · simp [verizonmedia.MakeRequests, hne]
    · simp [hne]
    · rw [htimp]; exact List.Forall₂.nil
  · have hall : ∀ (its : List (ImpOf Banner)) (idx : Nat) (reqs : List RequestData),
        (∀ it ∈ its, it ∈ t.Imp) →
        ∃ out, verizonmedia.shapeAll env a t (verizonmedia.MakeRequests.headers request) idx
            its (reqs, []) = .ok (reqs ++ out, [])
          ∧ List.Forall₂
            (fun it rd => ∃ ext banner,
              verizonmedia.params env it.Ext = some ext
              ∧ (match it.Banner with
                | none => banner = none
                | some b =>
                    ∃ b1, verizonmedia.bannerForBidService b = .ok b1 ∧ banner = some b1)
              ∧ env.marshalBidRequest
                  ⟨t.ID, [{ it with TagID := ext.Pos, Banner := banner }],
                    some { site with ID := ext.Dcn }, t.App, t.Device, t.User⟩ = .ok rd.Body
              ∧ rd.Method = "POST" ∧ rd.Uri = a.URI
              ∧ rd.Headers = verizonmedia.MakeRequests.headers request)
            its out := by
      intro its
      induction its with
      | nil => intro idx reqs _; exact ⟨[], by simp [verizonmedia.shapeAll], List.Forall₂.nil⟩
      | cons it rest ih =>
          intro idx reqs hmem
          obtain ⟨ext, hparams, hdcn, hpos, hbanner⟩ := hvalid it (hmem it (List.mem_cons_self _ _))
          obtain ⟨banner, js, hb, hjs, hsh⟩ := verizonmedia.shapeImp_valid env a t
            (verizonmedia.MakeRequests.headers request) idx it site ext hsite hparams hdcn
            hpos hbanner hmarshal
          obtain ⟨out, hout, hfa⟩ := ih (idx + 1)
            (reqs ++ [⟨"POST", a.URI, js, verizonmedia.MakeRequests.headers request⟩])
            (fun x hx => hmem x (List.mem_cons_of_mem _ hx))
          refine ⟨⟨"POST", a.URI, js, verizonmedia.MakeRequests.headers request⟩ :: out, ?_,
            List.Forall₂.cons ⟨ext, banner, hparams, hb, hjs, rfl, rfl, rfl⟩ hfa⟩
          simp only [verizonmedia.shapeAll, hsh, hout, List.append_assoc, List.singleton_append]
    obtain ⟨out, hout, hfa⟩ := hall t.Imp 0 [] (fun _ hx => hx)
    have href := verizonmedia.MakeRequests_refines env a h request t ht hne
    rw [hout] at href
    obtain ⟨h2, -, heq⟩ := href
    refine ⟨_, heq, ?_, fun _ => rfl, ?_⟩
    · simp only [List.nil_append]
      rw [← hlen]
      exact hfa.length_eq.symm
    · simpa using hfa

/-- C9 on the request with impressions `A` (parameters `dcn-A`, `111`) and `B`
(parameters `dcn-B`, `112`). -/
theorem verizonmedia.MakeRequests_split_witness :
    Example.heap.tree Example.requestAB = .ok Example.treeAB
    ∧ Example.treeAB.Site = some ⟨"site-1", "example.com", "/"⟩
    ∧ ∃ r, verizonmedia.MakeRequests Example.stdlib Example.verizon Example.heap
          Example.requestAB = .ok r
      ∧ r.reqs.length = Example.requestAB.Imp.length
      ∧ (Example.requestAB.Imp ≠ [] → r.errs = [])
      ∧ List.Forall₂
          (fun it rd => ∃ ext banner,
            verizonmedia.params Example.stdlib it.Ext = some ext
            ∧ (match it.Banner with
              | none => banner = none
              | some b => ∃ b1, verizonmedia.bannerForBidService b = .ok b1 ∧ banner = some b1)
            ∧ Example.stdlib.marshalBidRequest
                ⟨Example.treeAB.ID, [{ it with TagID := ext.Pos, Banner := banner }],
                  some { (⟨"site-1", "example.com", "/"⟩ : Site) with ID := ext.Dcn },
                  Example.treeAB.App, Example.treeAB.Device, Example.treeAB.User⟩
                = .ok rd.Body
            ∧ rd.Method = "POST" ∧ rd.Uri = Example.verizon.URI
            ∧ rd.Headers = verizonmedia.MakeRequests.headers Example.requestAB)
          Example.treeAB.Imp r.reqs :=
  ⟨rfl, rfl,
    verizonmedia.MakeRequests_split Example.stdlib Example.verizon Example.heap
      Example.requestAB Example.treeAB ⟨"site-1", "example.com", "/"⟩ rfl rfl
      (by
        intro it hit
        simp only [Example.treeAB, List.mem_cons, List.mem_singleton, List.not_mem_nil,
          or_false] at hit
        rcases hit with rfl | rfl
        · exact ⟨⟨"dcn-A", "111"⟩, rfl, by decide, by decide,
            fun b hb => ⟨⟨some 300, some 250, [], "b0"⟩, by cases hb; rfl⟩⟩
        · exact ⟨⟨"dcn-B", "112"⟩, rfl, by decide, by decide,
            fun b hb => ⟨⟨some 728, some 90, [⟨728, 90⟩, ⟨300, 250⟩], "b1"⟩, by cases hb; rfl⟩⟩)
      (fun _ => ⟨_, rfl⟩)⟩

/-- The scenario of the specification, run: impressions `A` and `B` with tags 111 and 112
give two single-impression envelopes, tagged 111 under site `dcn-A` and 112 under site
`dcn-B`; the store grows by two site copies and two banner copies, the second sized from
the first entry of its format list. -/
theorem verizonmedia.MakeRequests_two_impressions :
    verizonmedia.MakeRequests Example.stdlib Example.verizon Example.heap Example.requestAB
      = .ok ⟨[⟨"POST", "http://verizon/bid", "dcn-A|A:111;", Example.verizonHeaders⟩,
              ⟨"POST", "http://verizon/bid", "dcn-B|B:112;", Example.verizonHeaders⟩],
            [], Example.requestAB,
            ⟨[⟨"site-1", "example.com", "/"⟩, ⟨"dcn-A", "example.com", "/"⟩,
                ⟨"dcn-B", "example.com", "/"⟩],
              [⟨some 300, some 250, [], "b0"⟩,
                ⟨none, none, [⟨728, 90⟩, ⟨300, 250⟩], "b1"⟩,
                ⟨some 300, some 250, [], "b0"⟩,
                ⟨some 728, some 90, [⟨728, 90⟩, ⟨300, 250⟩], "b1"⟩]⟩⟩ := by
  rfl

/-! ## Requests whose impressions are all invalid -/

/-- On an impression with an unsupported media sub-object or an undecodable parameter
blob, `preprocess` returns an error and changes neither the impression nor the store. -/
theorem sovrn.preprocess_invalid (env : Stdlib) (h : Heap) (imp : Imp)
    (hinv : sovrn.unsupportedMedia imp = true ∨ sovrn.params env imp.Ext = none) :
    ∃ e, sovrn.preprocess env h imp = .ok (imp, h, "", some e) := by
  unfold sovrn.preprocess
  by_cases hm : imp.Native.isSome = true ∨ imp.Audio.isSome = true ∨ imp.Video.isSome = true
  · simp only [hm, if_true]
    exact ⟨_, rfl⟩
  · simp only [hm, if_false]
    have hp : sovrn.params env imp.Ext = none := by
      rcases hinv with hu | hp
      · exfalso
        apply hm
        simp only [sovrn.unsupportedMedia, Bool.or_eq_true] at hu
        tauto
      · exact hp
    unfold sovrn.params at hp
    cases hd1 : env.unmarshalExtImpBidder imp.Ext with
    | error e => exact ⟨_, rfl⟩
    | ok bidderExt =>
        rw [hd1] at hp
        dsimp only at hp ⊢
        cases hd2 : env.unmarshalExtImpSovrn bidderExt.Bidder with
        | error e => exact ⟨_, rfl⟩
        | ok e => rw [hd2] at hp; cases hp

/-- When every impression is invalid, the loop of sovrn `MakeRequests` empties the
impression list, appends one failure per impression and leaves the store alone. -/
theorem sovrn.loop_all_invalid (env : Stdlib) (h : Heap) :
    ∀ (imps : List Imp) (fuel : Nat) (errs : List GoError),
      imps.length ≤ fuel →
      (∀ imp ∈ imps, sovrn.unsupportedMedia imp = true ∨ sovrn.params env imp.Ext = none) →
      ∃ es, sovrn.MakeRequests.loop env fuel 0 imps h errs = .ok ([], h, errs ++ es)
        ∧ List.Forall₂ (fun imp e => sovrn.preprocess env h imp = .ok (imp, h, "", some e))
            imps es := by
  intro imps
  induction imps with
  | nil =>
      intro fuel errs _ _
      refine ⟨[], ?_, List.Forall₂.nil⟩
      cases fuel <;> simp [sovrn.MakeRequests.loop]
  | cons imp rest ih =>
      intro fuel errs hfuel hinv
      cases fuel with
      | zero => simp at hfuel
      | succ f =>
          obtain ⟨e, he⟩ := sovrn.preprocess_invalid env h imp
            (hinv imp (List.mem_cons_self _ _))
          obtain ⟨es, hes, hfa⟩ := ih f (errs ++ [e]) (by simpa using hfuel)
            (fun x hx => hinv x (List.mem_cons_of_mem _ hx))
          refine ⟨e :: es, ?_, List.Forall₂.cons he hfa⟩
          simp only [sovrn.MakeRequests.loop, List.getElem?_cons_zero, he, List.set_cons_zero,
            List.eraseIdx_cons_zero, hes, List.append_assoc, List.singleton_append]

/-- When every parameter blob is invalid, the loop of verizonmedia `MakeRequests` appends
one `BadInput` failure per impression, builds no envelope and does not touch the store. -/
theorem verizonmedia.rangeImp_all_invalid (env : Stdlib)
    (a : verizonmedia.VerizonMediaAdapter) (request : BidRequest) (headers : Header) :
    ∀ (imps : List Imp) (idx : Nat) (h : Heap) (reqs : List RequestData)
      (errs : List GoError),
      (∀ imp ∈ imps, verizonmedia.invalidParams env imp.Ext) →
      ∃ es, verizonmedia.MakeRequests.rangeImp env a request headers idx imps (h, reqs, errs)
          = .ok (h, reqs, errs ++ es)
        ∧ es.length = imps.length ∧ ∀ e ∈ es, e.isBadInput = true := by
  intro imps
  induction imps with
  | nil =>
      intro idx h reqs errs _
      exact ⟨[], by simp [verizonmedia.MakeRequests.rangeImp], rfl, by simp⟩
  | cons imp rest ih =>
      intro idx h reqs errs hinv
      have hi := hinv imp (List.mem_cons_self _ _)
      have hrest : ∀ x ∈ rest, verizonmedia.invalidParams env x.Ext :=
        fun x hx => hinv x (List.mem_cons_of_mem _ hx)
      have key : ∃ e, e.isBadInput = true ∧
          verizonmedia.MakeRequests.rangeImp env a request headers idx (imp :: rest)
            (h, reqs, errs)
          = verizonmedia.MakeRequests.rangeImp env a request headers (idx + 1) rest
            (h, reqs, errs ++ [e]) := by
        unfold verizonmedia.invalidParams verizonmedia.params at hi
        rw [verizonmedia.MakeRequests.rangeImp]
        cases hd1 : env.unmarshalExtImpBidder imp.Ext with
        | error e1 => (refine ⟨_, ?_, rfl⟩; rfl)
        | ok bidderExt =>
            rw [hd1] at hi
            dsimp only at hi ⊢
            cases hd2 : env.unmarshalExtImpVerizonMedia bidderExt.Bidder with
            | error e2 => (refine ⟨_, ?_, rfl⟩; rfl)
            | ok ext =>
                rw [hd2] at hi
                dsimp only at hi ⊢
                by_cases hdcn : ext.Dcn = ""
                · simp only [hdcn, if_true]
                  (refine ⟨_, ?_, rfl⟩; rfl)
                · have hpos : ext.Pos = "" := by
                    rcases hi with hc | hc
                    · exact absurd hc hdcn
                    · exact hc
                  simp only [hdcn, hpos, if_true, if_false]
                  (refine ⟨_, ?_, rfl⟩; rfl)
      obtain ⟨e, hbad, hstep⟩ := key
      obtain ⟨es, hes, hlen, hall⟩ := ih (idx + 1) h reqs (errs ++ [e]) hrest
      refine ⟨e :: es, ?_, by simp [hlen], ?_⟩
      · rw [hstep, hes]
        simp
      · intro x hx
        rcases List.mem_cons.1 hx with rfl | hx
        · exact hbad
        · exact hall x hx

/-- C7. On a request with n ≥ 1 impressions that are all invalid, `MakeRequests` of sovrn
(unsupported media sub-object or undecodable parameter blob) and of verizonmedia
(undecodable parameter blob, empty `dcn` or empty `pos`) return zero envelopes and exactly
n failures, one per impression: for sovrn the failure `preprocess` returns on that
impression, for verizonmedia a `BadInput`. -/
theorem MakeRequests_all_invalid (env : Stdlib) (s : sovrn.SovrnAdapter)
    (a : verizonmedia.VerizonMediaAdapter) (h : Heap) (request : BidRequest)
    (hne : request.Imp ≠ []) :
    ((∀ imp ∈ request.Imp,
        sovrn.unsupportedMedia imp = true ∨ sovrn.params env imp.Ext = none) →
      ∃ r, sovrn.MakeRequests env s h request = .ok r
        ∧ r.reqs = [] ∧ r.errs.length = request.Imp.length
        ∧ List.Forall₂ (fun imp e => sovrn.preprocess env h imp = .ok (imp, h, "", some e))
            request.Imp r.errs)
    ∧ ((∀ imp ∈ request.Imp, verizonmedia.invalidParams env imp.Ext) →
      ∃ r, verizonmedia.MakeRequests env a h request = .ok r
        ∧ r.reqs = [] ∧ r.errs.length = request.Imp.length
        ∧ ∀ e ∈ r.errs, e.isBadInput = true) := by
  constructor
  · intro hinv
    obtain ⟨es, hes, hfa⟩ := sovrn.loop_all_invalid env h request.Imp request.Imp.length []
      (Nat.le_refl _) hinv
    refine ⟨⟨[], es, { request with Imp := [] }, h⟩, ?_, rfl, hfa.length_eq.symm, hfa⟩
    simp [sovrn.MakeRequests, hes]
  · intro hinv
    obtain ⟨es, hes, hlen, hall⟩ := verizonmedia.rangeImp_all_invalid env a request
      (verizonmedia.MakeRequests.headers request) request.Imp 0 h [] [] hinv
    have hlen0 : ¬ request.Imp.length = 0 := fun h0 => hne (List.length_eq_zero.1 h0)
    refine ⟨⟨[], es, request, h⟩, ?_, rfl, hlen, hall⟩
    simp [verizonmedia.MakeRequests, hlen0, hes]

/-- C7 on two requests of two invalid impressions each. -/
theorem MakeRequests_all_invalid_witness :
    (Example.requestInvalidSovrn.Imp ≠ []
      ∧ (∀ imp ∈ Example.requestInvalidSovrn.Imp,
          sovrn.unsupportedMedia imp = true ∨ sovrn.params Example.stdlib imp.Ext = none)
      ∧ ∃ r, sovrn.MakeRequests Example.stdlib Example.sovrnAdapter Example.heap
            Example.requestInvalidSovrn = .ok r
        ∧ r.reqs = [] ∧ r.errs.length = Example.requestInvalidSovrn.Imp.length
        ∧ List.Forall₂
            (fun imp e => sovrn.preprocess Example.stdlib Example.heap imp
              = .ok (imp, Example.heap, "", some e))
            Example.requestInvalidSovrn.Imp r.errs)
    ∧ (Example.requestInvalidVerizon.Imp ≠ []
      ∧ (∀ imp ∈ Example.requestInvalidVerizon.Imp,
          verizonmedia.invalidParams Example.stdlib imp.Ext)
      ∧ ∃ r, verizonmedia.MakeRequests Example.stdlib Example.verizon Example.heap
            Example.requestInvalidVerizon = .ok r
        ∧ r.reqs = [] ∧ r.errs.length = Example.requestInvalidVerizon.Imp.length
        ∧ ∀ e ∈ r.errs, e.isBadInput = true) :=
  have hs : ∀ imp ∈ Example.requestInvalidSovrn.Imp,
      sovrn.unsupportedMedia imp = true ∨ sovrn.params Example.stdlib imp.Ext = none := by
    intro imp himp
    simp only [Example.requestInvalidSovrn, List.mem_cons, List.mem_singleton,
      List.not_mem_nil, or_false] at himp
    rcases himp with rfl | rfl
    · exact Or.inl rfl
    · exact Or.inr rfl
  have hv : ∀ imp ∈ Example.requestInvalidVerizon.Imp,
      verizonmedia.invalidParams Example.stdlib imp.Ext := by
    intro imp himp
    simp only [Example.requestInvalidVerizon, List.mem_cons, List.mem_singleton,
      List.not_mem_nil, or_false] at himp
    rcases himp with rfl | rfl
    · exact trivial
    · exact Or.inl rfl
  ⟨⟨by decide, hs,
      (MakeRequests_all_invalid Example.stdlib Example.sovrnAdapter Example.verizon
        Example.heap Example.requestInvalidSovrn (by decide)).1 hs⟩,
    ⟨by decide, hv,
      (MakeRequests_all_invalid Example.stdlib Example.sovrnAdapter Example.verizon
        Example.heap Example.requestInvalidVerizon (by decide)).2 hv⟩⟩

/-! ## The accounting of sovrnXsp `MakeRequests` -/

/-- The loop of sovrnXsp `MakeRequests` returns; it records a `BadInput` failure for every
impression with a supported media type whose parameters do not decode, keeps every
impression with a supported media type whose parameters decode (with its banner pointer),
and passes over the impressions that declare none of banner, video and native. -/
theorem sovrnXsp.rangeImp_accounting (env : Stdlib) :
    ∀ (imps : List Imp) (idx : Nat) (app : App) (errors : List GoError) (out : List Imp),
      app.Publisher.isSome = true →
      ∃ app1 es kept,
        sovrnXsp.MakeRequests.rangeImp env idx imps (app, errors, out)
          = .ok (app1, errors ++ es, out ++ kept)
        ∧ app1.Publisher.isSome = true
        ∧ (∀ e ∈ es, e.isBadInput = true)
        ∧ es.length = (imps.filter (sovrnXsp.undecodable env)).length
        ∧ kept.length + es.length + (imps.filter sovrnXsp.noSupportedMedia).length
            = imps.length
        ∧ (∀ k ∈ kept, ∃ imp ∈ imps, k.Banner = imp.Banner) := by
  intro imps
  induction imps with
  | nil =>
      intro idx app errors out hpub
      exact ⟨app, [], [], by simp [sovrnXsp.MakeRequests.rangeImp], hpub, by simp, rfl, rfl,
        by simp⟩
  | cons imp rest ih =>
      intro idx app errors out hpub
      rw [sovrnXsp.MakeRequests.rangeImp]
      by_cases hskip : imp.Banner.isNone = true ∧ imp.Video.isNone = true
          ∧ imp.Native.isNone = true
      · have hno : sovrnXsp.noSupportedMedia imp = true := by
          simp [sovrnXsp.noSupportedMedia, hskip.1, hskip.2.1, hskip.2.2]
        obtain ⟨app1, es, kept, heq, hp1, hbad, hlen, hcount, hkept⟩ :=
          ih (idx + 1) app errors out hpub
        refine ⟨app1, es, kept, ?_, hp1, hbad, ?_, ?_, ?_⟩
        · simp only [hskip, and_self, if_true]
          exact heq
        · simp [List.filter_cons, sovrnXsp.undecodable, hno, hlen]
        · simp only [List.filter_cons, hno, if_true, List.length_cons]
          omega
        · intro k hk
          obtain ⟨x, hx, hxb⟩ := hkept k hk
          exact ⟨x, List.mem_cons_of_mem _ hx, hxb⟩
      · have hno : sovrnXsp.noSupportedMedia imp = false := by
          simp only [sovrnXsp.noSupportedMedia, Bool.and_eq_false_iff]
          by_contra hc
          apply hskip
          simp only [not_or, Bool.not_eq_false] at hc
          exact ⟨hc.1.1, hc.1.2, hc.2⟩
        simp only [hskip, if_false]
        cases hd1 : env.unmarshalExtImpBidder imp.Ext with
        | error e1 =>
            have hu : sovrnXsp.undecodable env imp = true := by
              simp [sovrnXsp.undecodable, hno, sovrnXsp.params, hd1]
            obtain ⟨app1, es, kept, heq, hp1, hbad, hlen, hcount, hkept⟩ :=
              ih (idx + 1) app
                (errors ++ [.BadInput ("imp #" ++ fmtD idx ++ ": ext.bidder not provided")])
                out hpub
            refine ⟨app1,
              GoError.BadInput ("imp #" ++ fmtD idx ++ ": ext.bidder not provided") :: es,
              kept, ?_, hp1, ?_, ?_, ?_, ?_⟩
            · dsimp only
              rw [heq]
              simp
            · intro x hx
              rcases List.mem_cons.1 hx with rfl | hx
              · rfl
              · exact hbad x hx
            · simp [List.filter_cons, hu, hlen]
            · simp only [List.filter_cons, hno, List.length_cons]
              simp only [Bool.false_eq_true, if_false]
              omega
            · intro k hk
              obtain ⟨x, hx, hxb⟩ := hkept k hk
              exact ⟨x, List.mem_cons_of_mem _ hx, hxb⟩
        | ok bidderExt =>
            dsimp only
            cases hd2 : env.unmarshalExtImpSovrnXsp bidderExt.Bidder with
            | error e2 =>
                have hu : sovrnXsp.undecodable env imp = true := by
                  simp [sovrnXsp.undecodable, hno, sovrnXsp.params, hd1, hd2]
                obtain ⟨app1, es, kept, heq, hp1, hbad, hlen, hcount, hkept⟩ :=
                  ih (idx + 1) app
                    (errors ++ [.BadInput ("imp #" ++ fmtD idx ++ ": " ++ e2)]) out hpub
                refine ⟨app1, GoError.BadInput ("imp #" ++ fmtD idx ++ ": " ++ e2) :: es,
                  kept, ?_, hp1, ?_, ?_, ?_, ?_⟩
                · dsimp only
                  rw [heq]
                  simp
                · intro x hx
                  rcases List.mem_cons.1 hx with rfl | hx
                  · rfl
                  · exact hbad x hx
                · simp [List.filter_cons, hu, hlen]
                · simp only [List.filter_cons, hno, List.length_cons]
                  simp only [Bool.false_eq_true, if_false]
                  omega
                · intro k hk
                  obtain ⟨x, hx, hxb⟩ := hkept k hk
                  exact ⟨x, List.mem_cons_of_mem _ hx, hxb⟩
            | ok xspExt =>
                have hu : sovrnXsp.undecodable env imp = false := by
                  simp [sovrnXsp.undecodable, hno, sovrnXsp.params, hd1, hd2]
                dsimp only
                obtain ⟨pub, hpubeq⟩ := Option.isSome_iff_exists.1 hpub
                have hpub1 : (if xspExt.MedID ≠ "" then { app with ID := xspExt.MedID }
                    else app).Publisher = some pub := by
                  split <;> exact hpubeq
                rw [hpub1]
                dsimp only
                have hpub2 : (if xspExt.PubID ≠ "" then
                      { (if xspExt.MedID ≠ "" then { app with ID := xspExt.MedID } else app) with
                        Publisher := some { pub with ID := xspExt.PubID } }
                    else (if xspExt.MedID ≠ "" then { app with ID := xspExt.MedID }
                      else app)).Publisher.isSome = true := by
                  split
                  · rfl
                  · rw [hpub1]; rfl
                obtain ⟨app1, es, kept, heq, hp1, hbad, hlen, hcount, hkept⟩ :=
                  ih (idx + 1) _ errors
                    (out ++ [if xspExt.ZoneID ≠ "" then { imp with TagID := xspExt.ZoneID }
                      else imp]) hpub2
                refine ⟨app1, es,
                  (if xspExt.ZoneID ≠ "" then { imp with TagID := xspExt.ZoneID } else imp)
                    :: kept, ?_, hp1, hbad, ?_, ?_, ?_⟩
                · rw [heq]
                  simp
                · simp [List.filter_cons, hu, hlen]
                · simp only [List.filter_cons, hno, List.length_cons]
                  simp only [Bool.false_eq_true, if_false]
                  omega
                · intro k hk
                  rcases List.mem_cons.1 hk with rfl | hk
                  · refine ⟨imp, List.mem_cons_self _ _, ?_⟩
                    split <;> rfl
                  · obtain ⟨x, hx, hxb⟩ := hkept k hk
                    exact ⟨x, List.mem_cons_of_mem _ hx, hxb⟩

/-- The impressions of a resolved request point to banners of the store. -/
theorem Heap.banner_of_impTrees {h : Heap} :
    ∀ {imps : List Imp} {its : List (ImpOf Banner)}, h.impTrees imps = .ok its →
      ∀ imp ∈ imps, ∀ p, imp.Banner = some p → ∃ b, h.banner p = .ok b := by
  intro imps
  induction imps with
  | nil => intro its _ imp himp; cases himp
  | cons x rest ih =>
      intro its hi imp himp p hp
      obtain ⟨it, its1, hx, hrest, -⟩ := Heap.impTrees_cons_eq_ok hi
      rcases List.mem_cons.1 himp with rfl | hmem
      · rcases Heap.impTree_eq_ok.1 hx with ⟨hn, -⟩ | ⟨q, b, hq, hb, -⟩
        · rw [hn] at hp; cases hp
        · rw [hq] at hp
          cases hp
          exact ⟨b, hb⟩
      · exact ih hrest imp hmem p hp

/-- Impressions that point to banners of the store resolve. -/
theorem Heap.impTrees_of_banner {h : Heap} :
    ∀ (ks : List Imp), (∀ k ∈ ks, ∀ p, k.Banner = some p → ∃ b, h.banner p = .ok b) →
      ∃ its, h.impTrees ks = .ok its ∧ its.length = ks.length := by
  intro ks
  induction ks with
  | nil => intro _; exact ⟨[], rfl, rfl⟩
  | cons k rest ih =>
      intro hk
      obtain ⟨its, hits, hlen⟩ := ih (fun x hx => hk x (List.mem_cons_of_mem _ hx))
      have hkt : ∃ it, h.impTree k = .ok it := by
        cases hb : k.Banner with
        | none => exact ⟨_, Heap.impTree_eq_ok.2 (Or.inl ⟨hb, rfl⟩)⟩
        | some p =>
            obtain ⟨b, hpb⟩ := hk k (List.mem_cons_self _ _) p hb
            exact ⟨_, Heap.impTree_eq_ok.2 (Or.inr ⟨p, b, hb, hpb, rfl⟩)⟩
      obtain ⟨it, hit⟩ := hkt
      exact ⟨it :: its, by simp [Heap.impTrees, hit, hits], by simp [hlen]⟩

/-- The loop of sovrnXsp `MakeRequests`, impression by impression: the impressions it keeps
are, in order, those `keptImp` keeps, and the failures it records are, in order, those
`failure` gives for each impression at its index. -/
theorem sovrnXsp.rangeImp_kept (env : Stdlib) :
    ∀ (imps : List Imp) (idx : Nat) (app : App) (errors : List GoError) (out : List Imp),
      app.Publisher.isSome = true →
      ∃ app1,
        sovrnXsp.MakeRequests.rangeImp env idx imps (app, errors, out)
          = .ok (app1,
              errors ++ (imps.enumFrom idx).filterMap (fun p => sovrnXsp.failure env p.1 p.2),
              out ++ imps.filterMap (sovrnXsp.keptImp env))
        ∧ app1.Publisher.isSome = true := by
  intro imps
  induction imps with
  | nil =>
      intro idx app errors out hpub
      exact ⟨app, by simp [sovrnXsp.MakeRequests.rangeImp], hpub⟩
  | cons imp rest ih =>
      intro idx app errors out hpub
      rw [sovrnXsp.MakeRequests.rangeImp]
      by_cases hskip : imp.Banner.isNone = true ∧ imp.Video.isNone = true
          ∧ imp.Native.isNone = true
      · have hno : sovrnXsp.noSupportedMedia imp = true := by
          simp [sovrnXsp.noSupportedMedia, hskip.1, hskip.2.1, hskip.2.2]
        obtain ⟨app1, heq, hp1⟩ := ih (idx + 1) app errors out hpub
        refine ⟨app1, ?_, hp1⟩
        simp only [hskip, and_self, if_true]
        rw [heq]
        simp [List.enumFrom_cons, List.filterMap_cons, sovrnXsp.failure, sovrnXsp.keptImp, hno]
      · have hno : sovrnXsp.noSupportedMedia imp = false := by
          simp only [sovrnXsp.noSupportedMedia, Bool.and_eq_false_iff]
          by_contra hc
          apply hskip
          simp only [not_or, Bool.not_eq_false] at hc
          exact ⟨hc.1.1, hc.1.2, hc.2⟩
        simp only [hskip, if_false]
        cases hd1 : env.unmarshalExtImpBidder imp.Ext with
        | error e1 =>
            obtain ⟨app1, heq, hp1⟩ := ih (idx + 1) app
              (errors ++ [.BadInput ("imp #" ++ fmtD idx ++ ": ext.bidder not provided")])
              out hpub
            refine ⟨app1, ?_, hp1⟩
            dsimp only
            rw [heq]
            simp [List.enumFrom_cons, List.filterMap_cons, sovrnXsp.failure, sovrnXsp.keptImp,
              sovrnXsp.params, hno, hd1]
        | ok bidderExt =>
            dsimp only
            cases hd2 : env.unmarshalExtImpSovrnXsp bidderExt.Bidder with
            | error e2 =>
                obtain ⟨app1, heq, hp1⟩ := ih (idx + 1) app
                  (errors ++ [.BadInput ("imp #" ++ fmtD idx ++ ": " ++ e2)]) out hpub
                refine ⟨app1, ?_, hp1⟩
                dsimp only
                rw [heq]
                simp [List.enumFrom_cons, List.filterMap_cons, sovrnXsp.failure,
                  sovrnXsp.keptImp, sovrnXsp.params, hno, hd1, hd2]
            | ok xspExt =>
                dsimp only
                obtain ⟨pub, hpubeq⟩ := Option.isSome_iff_exists.1 hpub
                have hpub1 : (if xspExt.MedID ≠ "" then { app with ID := xspExt.MedID }
                    else app).Publisher = some pub := by
                  split <;> exact hpubeq
                rw [hpub1]
                dsimp only
                have hpub2 : (if xspExt.PubID ≠ "" then
                      { (if xspExt.MedID ≠ "" then { app with ID := xspExt.MedID } else app) with
                        Publisher := some { pub with ID := xspExt.PubID } }
                    else (if xspExt.MedID ≠ "" then { app with ID := xspExt.MedID }
                      else app)).Publisher.isSome = true := by
                  split
                  · rfl
                  · rw [hpub1]; rfl
                obtain ⟨app1, heq, hp1⟩ := ih (idx + 1) _ errors
                  (out ++ [if xspExt.ZoneID ≠ "" then { imp with TagID := xspExt.ZoneID }
                    else imp]) hpub2
                refine ⟨app1, ?_, hp1⟩
                rw [heq]
                simp [List.enumFrom_cons, List.filterMap_cons, sovrnXsp.failure,
                  sovrnXsp.keptImp, sovrnXsp.params, hno, hd1, hd2]

/-- The trees of a list of impressions hold the tree of each of them. -/
theorem Heap.impTree_mem_impTrees {h : Heap} :
    ∀ {imps : List Imp} {its : List (ImpOf Banner)}, h.impTrees imps = .ok its →
      ∀ k ∈ imps, ∃ it, h.impTree k = .ok it ∧ it ∈ its := by
  intro imps
  induction imps with
  | nil => intro its _ k hk; cases hk
  | cons x rest ih =>
      intro its hi k hk
      obtain ⟨it, its1, hx, hrest, rfl⟩ := Heap.impTrees_cons_eq_ok hi
      rcases List.mem_cons.1 hk with rfl | hmem
      · exact ⟨it, hx, List.mem_cons_self _ _⟩
      · obtain ⟨it1, h1, h2⟩ := ih hrest k hmem
        exact ⟨it1, h1, List.mem_cons_of_mem _ h2⟩

/-- An impression with a supported media type for which the loop records no failure is
kept, under its own ID and with its own banner. -/
theorem sovrnXsp.keptImp_of_no_failure (env : Stdlib) (idx : Nat) (imp : Imp)
    (hno : sovrnXsp.noSupportedMedia imp = false)
    (hf : sovrnXsp.failure env idx imp = none) :
    ∃ k, sovrnXsp.keptImp env imp = some k ∧ k.ID = imp.ID ∧ k.Banner = imp.Banner := by
  unfold sovrnXsp.failure at hf
  unfold sovrnXsp.keptImp sovrnXsp.params
  simp only [hno, Bool.false_eq_true, if_false] at hf ⊢
  cases hd1 : env.unmarshalExtImpBidder imp.Ext with
  | error e1 => rw [hd1] at hf; cases hf
  | ok bidderExt =>
      rw [hd1] at hf
      dsimp only at hf ⊢
      cases hd2 : env.unmarshalExtImpSovrnXsp bidderExt.Bidder with
      | error e2 => rw [hd2] at hf; cases hf
      | ok x =>
          dsimp only
          refine ⟨_, rfl, ?_, ?_⟩ <;> split <;> rfl

/-- C8, as the code has it: on a request with an app block (serialisation succeeding),
`MakeRequests` of sovrnXsp returns, and no impression is lost otherwise than by the guard
on the media types. The failures are, in input order, one `BadInput` carrying its index
for each impression with a supported media type whose parameters do not decode; the
impressions of the envelope are, in input order, the impressions with a supported media
type whose parameters decode, each with its tag ID replaced by a non-empty zone ID. So
every input impression declares none of banner, video and native (and is passed over with
no failure), or has its `BadInput` among the failures, or has its tree among the
impressions of the request the envelope serialises; the three add up to the input
impressions, and there is no envelope when no impression is kept. -/
theorem sovrnXsp.MakeRequests_accounting (env : Stdlib) (a : sovrnXsp.adapter) (h : Heap)
    (request : BidRequest) (t : BidRequestTree)
    (ht : h.tree request = .ok t) (happ : request.App ≠ none)
    (hmarshal : ∀ tree, ∃ js, env.marshalBidRequest tree = .ok js) :
    ∃ r, sovrnXsp.MakeRequests env a h request = .ok r
      ∧ (∀ e ∈ r.errs, e.isBadInput = true)
      ∧ r.errs = request.Imp.enum.filterMap (fun p => sovrnXsp.failure env p.1 p.2)
      ∧ r.errs.length = (request.Imp.filter (sovrnXsp.undecodable env)).length
      ∧ ((r.reqs = [] ∧ request.Imp.filterMap (sovrnXsp.keptImp env) = []
          ∧ r.errs.length + (request.Imp.filter sovrnXsp.noSupportedMedia).length
              = request.Imp.length)
        ∨ (∃ rd tree, r.reqs = [rd] ∧ r.heap.tree r.request = .ok tree
          ∧ r.request.Imp = request.Imp.filterMap (sovrnXsp.keptImp env)
          ∧ env.marshalBidRequest tree = .ok rd.Body
          ∧ tree.Imp.length + r.errs.length
              + (request.Imp.filter sovrnXsp.noSupportedMedia).length
              = request.Imp.length))
      ∧ (∀ i imp, request.Imp[i]? = some imp →
          sovrnXsp.noSupportedMedia imp = true
          ∨ (∃ e ∈ r.errs, sovrnXsp.failure env i imp = some e)
          ∨ (∃ k rd tree it, sovrnXsp.keptImp env imp = some k ∧ k.ID = imp.ID
              ∧ r.reqs = [rd] ∧ r.heap.tree r.request = .ok tree
              ∧ env.marshalBidRequest tree = .ok rd.Body
              ∧ r.heap.impTree k = .ok it ∧ it ∈ tree.Imp)) := by
  obtain ⟨app0, happ0⟩ : ∃ app0, sovrnXsp.MakeRequests.appCopy request = some app0
      ∧ app0.Publisher.isSome = true := by
    unfold sovrnXsp.MakeRequests.appCopy
    cases hra : request.App with
    | none => exact absurd hra happ
    | some app =>
        dsimp only
        cases hpb : app.Publisher with
        | none => exact ⟨{ app with Publisher := some ⟨"", ""⟩ }, rfl, rfl⟩
        | some pub => exact ⟨{ app with Publisher := some pub }, rfl, rfl⟩
  obtain ⟨hcopy, hpub0⟩ := happ0
  obtain ⟨app1, es, kept, heq, -, hbad, hlen, hcount, hkept⟩ :=
    sovrnXsp.rangeImp_accounting env request.Imp 0 app0 [] [] hpub0
  obtain ⟨app2, heq2, -⟩ := sovrnXsp.rangeImp_kept env request.Imp 0 app0 [] [] hpub0
  simp only [List.nil_append] at heq heq2
  have hsame := heq.symm.trans heq2
  simp only [Except.ok.injEq, Prod.mk.injEq] at hsame
  obtain ⟨-, hes, hkeq⟩ := hsame
  have hes1 : es = request.Imp.enum.filterMap (fun p => sovrnXsp.failure env p.1 p.2) := hes
  have htri : ∀ i imp, request.Imp[i]? = some imp →
      sovrnXsp.noSupportedMedia imp = true
      ∨ (∃ e ∈ es, sovrnXsp.failure env i imp = some e)
      ∨ (∃ k ∈ kept, sovrnXsp.keptImp env imp = some k ∧ k.ID = imp.ID) := by
    intro i imp hget
    by_cases hno : sovrnXsp.noSupportedMedia imp = true
    · exact Or.inl hno
    · have hno1 : sovrnXsp.noSupportedMedia imp = false := by simpa using hno
      cases hf : sovrnXsp.failure env i imp with
      | some e =>
          refine Or.inr (Or.inl ⟨e, ?_, rfl⟩)
          rw [hes1]
          exact List.mem_filterMap.2 ⟨(i, imp), List.mk_mem_enum_iff_getElem?.2 hget, hf⟩
      | none =>
          obtain ⟨k, hk, hid, -⟩ := sovrnXsp.keptImp_of_no_failure env i imp hno1 hf
          refine Or.inr (Or.inr ⟨k, ?_, hk, hid⟩)
          rw [hkeq]
          exact List.mem_filterMap.2 ⟨imp, List.mem_iff_getElem?.2 ⟨i, hget⟩, hk⟩
  obtain ⟨himps, -, -, -, -, hsite⟩ := Heap.tree_eq_ok ht
  by_cases hk : kept.length = 0
  · have hnil : kept = [] := List.length_eq_zero.1 hk
    refine ⟨⟨[], es, { request with App := some app1 }, h⟩, ?_, hbad, hes1, hlen,
      Or.inl ⟨rfl, ?_, ?_⟩, ?_⟩
    · simp only [sovrnXsp.MakeRequests, hcopy, heq, hk, if_true]
    · rw [← hkeq]; exact hnil
    · simp only at hcount ⊢
      omega
    · intro i imp hget
      rcases htri i imp hget with h1 | h1 | ⟨k, hkm, -, -⟩
      · exact Or.inl h1
      · exact Or.inr (Or.inl h1)
      · rw [hnil] at hkm; cases hkm
  · have hbanners : ∀ k ∈ kept, ∀ p, k.Banner = some p → ∃ b, h.banner p = .ok b := by
      intro k hkm p hp
      obtain ⟨imp, himp, hb⟩ := hkept k hkm
      exact Heap.banner_of_impTrees himps imp himp p (hb ▸ hp)
    obtain ⟨its, hits, hitslen⟩ := Heap.impTrees_of_banner kept hbanners
    have htree : ∃ tree, h.tree { request with App := some app1, Imp := kept } = .ok tree
        ∧ tree.Imp = its := by
      unfold Heap.tree
      simp only [hits]
      cases hs : request.Site with
      | none => exact ⟨_, rfl, rfl⟩
      | some sp =>
          rw [hs] at hsite
          obtain ⟨site, hsp, -⟩ := hsite
          simp only [hsp]
          exact ⟨_, rfl, rfl⟩
    obtain ⟨tree, htree, htimp⟩ := htree
    obtain ⟨js, hjs⟩ := hmarshal tree
    refine ⟨⟨[⟨"POST", a.Endpoint, js, sovrnXsp.MakeRequests.headers⟩], es,
      { request with App := some app1, Imp := kept }, h⟩, ?_, hbad, hes1, hlen,
      Or.inr ⟨_, tree, rfl, htree, hkeq, hjs, ?_⟩, ?_⟩
    · simp only [sovrnXsp.MakeRequests, hcopy, heq, hk, if_false, htree, hjs]
    · rw [htimp, hitslen]
      exact hcount
    · intro i imp hget
      rcases htri i imp hget with h1 | h1 | ⟨k, hkm, hkk, hid⟩
      · exact Or.inl h1
      · exact Or.inr (Or.inl h1)
      · obtain ⟨it, hit, hmem⟩ := Heap.impTree_mem_impTrees hits k hkm
        exact Or.inr (Or.inr ⟨k, _, tree, it, hkk, hid, rfl, htree, hjs, hit, htimp ▸ hmem⟩)

/-- C8 on an app request with a banner impression, an audio impression and a banner
impression whose parameters do not decode. -/
theorem sovrnXsp.MakeRequests_accounting_witness :
    Example.requestMixed.App ≠ none
    ∧ ∃ r, sovrnXsp.MakeRequests Example.stdlib Example.xsp Example.heap Example.requestMixed
          = .ok r
      ∧ (∀ e ∈ r.errs, e.isBadInput = true)
      ∧ r.errs = Example.requestMixed.Imp.enum.filterMap
          (fun p => sovrnXsp.failure Example.stdlib p.1 p.2)
      ∧ r.errs.length
          = (Example.requestMixed.Imp.filter (sovrnXsp.undecodable Example.stdlib)).length
      ∧ ((r.reqs = []
          ∧ Example.requestMixed.Imp.filterMap (sovrnXsp.keptImp Example.stdlib) = []
          ∧ r.errs.length + (Example.requestMixed.Imp.filter sovrnXsp.noSupportedMedia).length
              = Example.requestMixed.Imp.length)
        ∨ (∃ rd tree, r.reqs = [rd] ∧ r.heap.tree r.request = .ok tree
          ∧ r.request.Imp
              = Example.requestMixed.Imp.filterMap (sovrnXsp.keptImp Example.stdlib)
          ∧ Example.stdlib.marshalBidRequest tree = .ok rd.Body
          ∧ tree.Imp.length + r.errs.length
              + (Example.requestMixed.Imp.filter sovrnXsp.noSupportedMedia).length
              = Example.requestMixed.Imp.length))
      ∧ (∀ i imp, Example.requestMixed.Imp[i]? = some imp →
          sovrnXsp.noSupportedMedia imp = true
          ∨ (∃ e ∈ r.errs, sovrnXsp.failure Example.stdlib i imp = some e)
          ∨ (∃ k rd tree it, sovrnXsp.keptImp Example.stdlib imp = some k ∧ k.ID = imp.ID
              ∧ r.reqs = [rd] ∧ r.heap.tree r.request = .ok tree
              ∧ Example.stdlib.marshalBidRequest tree = .ok rd.Body
              ∧ r.heap.impTree k = .ok it ∧ it ∈ tree.Imp)) :=
  ⟨by decide,
    sovrnXsp.MakeRequests_accounting Example.stdlib Example.xsp Example.heap
      Example.requestMixed
      ⟨"req",
        [⟨"A", some ⟨some 300, some 250, [], "b0"⟩, none, none, none, "", ⟨0⟩, "111"⟩,
          ⟨"C", none, none, some ⟨["audio/mp4"]⟩, none, "", ⟨0⟩, "111"⟩,
          ⟨"E", some ⟨some 300, some 250, [], "b0"⟩, none, none, none, "", ⟨0⟩, ""⟩],
        none, some Example.app, none, none⟩
      rfl (by decide) (fun _ => ⟨_, rfl⟩)⟩

/-- C8 fails as stated: an app request whose only impression declares audio alone gives no
envelope and no failure at all, so the impression is dropped silently. -/
theorem sovrnXsp.MakeRequests_silent_drop_counterexample :
    Example.requestAudio.App ≠ none
    ∧ Example.requestAudio.Imp = [Example.impAudio]
    ∧ Example.impAudio.Banner = none ∧ Example.impAudio.Video = none
    ∧ Example.impAudio.Native = none ∧ Example.impAudio.Audio ≠ none
    ∧ sovrnXsp.MakeRequests Example.stdlib Example.xsp Example.heap Example.requestAudio
        = .ok ⟨[], [],
            { Example.requestAudio with
              App := some { Example.app with Publisher := some ⟨"", ""⟩ } },
            Example.heap⟩ := by
  refine ⟨by decide, rfl, rfl, rfl, rfl, by decide, rfl⟩

/-- The mixed request, run: one envelope holding impression `A` with the zone ID of its
parameters as tag ID, one `BadInput` failure for the impression at index 2, nothing for
the audio impression at index 1. -/
theorem sovrnXsp.MakeRequests_mixed :
    sovrnXsp.MakeRequests Example.stdlib Example.xsp Example.heap Example.requestMixed
      = .ok ⟨[⟨"POST", "http://xsp/bid", "|A:zone-111;",
              [("Content-Type", "application/json;charset=utf-8"),
                ("Accept", "application/json"), ("x-openrtb-version", "2.5")]⟩],
            [.BadInput "imp #2: ext.bidder not provided"],
            { Example.requestMixed with
              App := some ⟨"med", "com.example", some ⟨"pub", ""⟩⟩
              Imp := [{ Example.impA with TagID := "zone-111" }] },
            Example.heap⟩ := by
  rfl

/-! ## The loop of sovrn `MakeRequests` is a filter -/

theorem List.getElem?_length_append {α : Type} (l : List α) (x : α) (r : List α) :
    (l ++ x :: r)[l.length]? = some x := by
  induction l with
  | nil => simp
  | cons a l ih => simpa using ih

theorem List.set_length_append {α : Type} (l : List α) (x y : α) (r : List α) :
    (l ++ x :: r).set l.length y = l ++ y :: r := by
  induction l with
  | nil => rfl
  | cons a l ih => simp [ih]

theorem List.eraseIdx_length_append {α : Type} (l : List α) (x : α) (r : List α) :
    (l ++ x :: r).eraseIdx l.length = l ++ r := by
  induction l with
  | nil => rfl
  | cons a l ih => simp [ih]

/-- The in-place remove-and-step-back loop of sovrn `MakeRequests`, entered at index
`done.length` with the impressions before that index already accepted, computes the plain
filter of the remaining impressions; the bound on its iterations is never reached. -/
theorem sovrn.loop_eq_filterImps (env : Stdlib) :
    ∀ (rest done : List Imp) (fuel : Nat) (h : Heap) (errs : List GoError),
      rest.length ≤ fuel →
      sovrn.MakeRequests.loop env fuel done.length (done ++ rest) h errs
        = match sovrn.filterImps env rest h with
          | .error f => .error f
          | .ok (kept, h1, es) => .ok (done ++ kept, h1, errs ++ es) := by
  intro rest
  induction rest with
  | nil =>
      intro done fuel h errs _
      cases fuel <;> simp [sovrn.MakeRequests.loop, sovrn.filterImps]
  | cons imp rest ih =>
      intro done fuel h errs hfuel
      cases fuel with
      | zero => simp at hfuel
      | succ f =>
          have hf : rest.length ≤ f := by simpa using hfuel
          simp only [sovrn.MakeRequests.loop, List.getElem?_length_append, sovrn.filterImps]
          cases hp : sovrn.preprocess env h imp with
          | error e => rfl
          | ok res =>
              obtain ⟨imp1, h1, tag, err⟩ := res
              dsimp only
              rw [List.set_length_append]
              cases err with
              | some e =>
                  dsimp only
                  rw [List.eraseIdx_length_append, ih done f h1 (errs ++ [e]) hf]
                  cases sovrn.filterImps env rest h1 with
                  | error e1 => rfl
                  | ok out => simp
              | none =>
                  dsimp only
                  have hidx : done.length + 1 = (done ++ [imp1]).length := by simp
                  have hl : done ++ imp1 :: rest = (done ++ [imp1]) ++ rest := by simp
                  rw [hidx, hl, ih (done ++ [imp1]) f h1 errs hf]
                  cases sovrn.filterImps env rest h1 with
                  | error e1 => rfl
                  | ok out => simp

/-- What `preprocess` does to an impression it accepts: tag ID and bid floor are taken from
the impression's own parameters, and the format list of its banner is cleared in the
store. -/
theorem sovrn.preprocess_accepts (env : Stdlib) (h : Heap) (imp : Imp) (ext : ExtImpSovrn)
    (p : Ptr) (b : Banner)
    (hmedia : sovrn.unsupportedMedia imp = false)
    (hparams : sovrn.params env imp.Ext = some ext)
    (hbanner : imp.Banner = some p) (hb : h.banner p = .ok b) :
    sovrn.preprocess env h imp
      = .ok ({ imp with TagID := Itoa ext.TagId, BidFloor := ext.BidFloor },
          { h with banners := h.banners.set p { b with Format := [] } },
          Itoa ext.TagId, none) := by
  have hm : ¬ (imp.Native.isSome = true ∨ imp.Audio.isSome = true ∨ imp.Video.isSome = true) := by
    intro hc
    simp only [sovrn.unsupportedMedia, Bool.or_eq_false_iff] at hmedia
    rcases hc with hc | hc | hc
    · rw [hmedia.1.1] at hc; cases hc
    · rw [hmedia.1.2] at hc; cases hc
    · rw [hmedia.2] at hc; cases hc
  have hlt : p < h.banners.length := by
    have := Heap.banner_eq_ok.1 hb
    by_contra hge
    rw [List.getElem?_eq_none (Nat.le_of_not_lt hge)] at this
    cases this
  unfold sovrn.params at hparams
  unfold sovrn.preprocess
  simp only [hm, if_false]
  cases hd1 : env.unmarshalExtImpBidder imp.Ext with
  | error e => rw [hd1] at hparams; cases hparams
  | ok bidderExt =>
      rw [hd1] at hparams
      dsimp only at hparams ⊢
      cases hd2 : env.unmarshalExtImpSovrn bidderExt.Bidder with
      | error e => rw [hd2] at hparams; cases hparams
      | ok e =>
          rw [hd2] at hparams
          simp only [Option.some.injEq] at hparams
          subst hparams
          simp only [hbanner, hb, Heap.setBanner, hlt, if_true]

/-- C6 fails on the code: on a request with device and user blocks whose only impression
has valid parameters and no banner sub-object, `preprocess` writes through the nil banner
pointer and `MakeRequests` of sovrn panics instead of returning envelopes and failure
records. -/
theorem sovrn.MakeRequests_bare_impression_panics :
    Example.requestBare.Device ≠ none ∧ Example.requestBare.User ≠ none
    ∧ Example.requestBare.Imp = [Example.impBare]
    ∧ sovrn.unsupportedMedia Example.impBare = false
    ∧ sovrn.params Example.stdlib Example.impBare.Ext = some ⟨111, ⟨5⟩⟩
    ∧ Example.impBare.Banner = none
    ∧ sovrn.preprocess Example.stdlib Example.heap Example.impBare = .error .nilDereference
    ∧ sovrn.MakeRequests Example.stdlib Example.sovrnAdapter Example.heap Example.requestBare
        = .error .nilDereference := by
  refine ⟨by decide, by decide, rfl, rfl, rfl, rfl, rfl, rfl⟩

/-- Where no impression lacks its banner the loop does what C6 says; run on banner `A`, a
native impression and banner `B`: one envelope holding `A` and `B` in this order with the
tag IDs 111 and 112 of their parameters, one failure for the native impression, and both
format lists cleared in the store. -/
theorem sovrn.MakeRequests_filters :
    sovrn.MakeRequests Example.stdlib Example.sovrnAdapter Example.heap Example.requestANB
      = .ok ⟨[⟨"POST", "http://sovrn/rtb/bid", "site-1|A:111;B:112;",
              [("Content-Type", "application/json"), ("User-Agent", "Mozilla/5.0"),
                ("X-Forwarded-For", "10.0.0.1"), ("Accept-Language", "en"), ("DNT", "0"),
                ("Cookie", "ljt_reader=buyer-1")]⟩],
            [.errorString
              "Sovrn doesn\x27t support audio, video, or native Imps. Ignoring Imp ID=N"],
            { Example.requestANB with
              Imp := [{ Example.impA with TagID := "111", BidFloor := ⟨5⟩ },
                { Example.impB with TagID := "112", BidFloor := ⟨7⟩ }] },
            ⟨[⟨"site-1", "example.com", "/"⟩],
              [⟨some 300, some 250, [], "b0"⟩, ⟨none, none, [], "b1"⟩]⟩⟩ := by
  rfl

/-! ## Media-type resolution of sovrn -/

/-- An impression with the bid's identifier and a video sub-object makes the bid a video
bid. -/
theorem sovrn.getMediaTypeForImp_video (impId : String) (imps : List Imp)
    (h : ∃ x ∈ imps, x.ID = impId ∧ x.Video.isSome = true) :
    sovrn.getMediaTypeForImp impId imps = BidTypeVideo := by
  induction imps with
  | nil => obtain ⟨x, hx, -⟩ := h; cases hx
  | cons imp rest ih =>
      by_cases hc : imp.ID = impId ∧ imp.Video.isSome = true
      · simp only [sovrn.getMediaTypeForImp, hc, and_self, if_true]
      · simp only [sovrn.getMediaTypeForImp, hc, if_false]
        apply ih
        obtain ⟨x, hx, hid, hv⟩ := h
        rcases List.mem_cons.1 hx with rfl | hmem
        · exact absurd ⟨hid, hv⟩ hc
        · exact ⟨x, hmem, hid, hv⟩

/-- The bid is a banner bid exactly when no impression with its identifier has a video
sub-object. -/
theorem sovrn.getMediaTypeForImp_banner_iff (impId : String) (imps : List Imp) :
    sovrn.getMediaTypeForImp impId imps = BidTypeBanner
      ↔ ∀ x ∈ imps, x.ID = impId → x.Video = none := by
  constructor
  · intro hb x hx hid
    by_contra hv
    have hsome : x.Video.isSome = true := by
      cases hxv : x.Video with
      | none => exact absurd hxv hv
      | some v => rfl
    rw [sovrn.getMediaTypeForImp_video impId imps ⟨x, hx, hid, hsome⟩] at hb
    exact absurd hb (by decide)
  · intro hall
    induction imps with
    | nil => rfl
    | cons imp rest ih =>
        have hc : ¬ (imp.ID = impId ∧ imp.Video.isSome = true) := by
          rintro ⟨hid, hv⟩
          rw [hall imp (List.mem_cons_self _ _) hid] at hv
          cases hv
        simp only [sovrn.getMediaTypeForImp, hc, if_false]
        exact ih (fun x hx => hall x (List.mem_cons_of_mem _ hx))

/-- C11. With pairwise distinct impression IDs, `getMediaTypeForImp` of sovrn resolves a
bid whose impression identifier matches an impression declaring only a banner sub-object
to banner, and one matching an impression declaring only a video sub-object to video. -/
theorem sovrn.getMediaTypeForImp_single_media (imps : List Imp) (imp : Imp) (bid : Bid)
    (hnodup : (imps.map (fun x => x.ID)).Nodup) (hmem : imp ∈ imps)
    (hbid : bid.ImpID = imp.ID) :
    (imp.Banner.isSome = true → imp.Video = none → imp.Audio = none → imp.Native = none →
      sovrn.getMediaTypeForImp bid.ImpID imps = BidTypeBanner)
    ∧ (imp.Video.isSome = true → imp.Banner = none → imp.Audio = none → imp.Native = none →
      sovrn.getMediaTypeForImp bid.ImpID imps = BidTypeVideo) := by
  rw [hbid]
  constructor
  · intro _ hv _ _
    apply (sovrn.getMediaTypeForImp_banner_iff _ _).2
    intro x hx hid
    have : x = imp := List.inj_on_of_nodup_map hnodup hx hmem hid
    rw [this]
    exact hv
  · intro hv _ _ _
    exact sovrn.getMediaTypeForImp_video _ _ ⟨imp, hmem, rfl, hv⟩

/-- C11 on a banner-only and a video-only impression. -/
theorem sovrn.getMediaTypeForImp_single_media_witness :
    ([Example.impA, Example.impVideo].map (fun x => x.ID)).Nodup
    ∧ (sovrn.getMediaTypeForImp Example.bidA.ImpID [Example.impA, Example.impVideo]
        = BidTypeBanner)
    ∧ (sovrn.getMediaTypeForImp "W" [Example.impA, Example.impVideo] = BidTypeVideo) :=
  ⟨by decide,
    (sovrn.getMediaTypeForImp_single_media [Example.impA, Example.impVideo] Example.impA
      Example.bidA (by decide) (by decide) rfl).1 rfl rfl rfl rfl,
    (sovrn.getMediaTypeForImp_single_media [Example.impA, Example.impVideo] Example.impVideo
      { Example.bidA with ImpID := "W" } (by decide) (by decide) rfl).2 rfl rfl rfl rfl⟩

/-- C12, as the code has it: when the impression matching the bid's identifier has both a
banner and a video sub-object, `getMediaTypeForImp` of sovrn resolves to video; a video
sub-object takes precedence, and banner is the result exactly when no impression with
that identifier declares video. -/
theorem sovrn.getMediaTypeForImp_video_precedence (imps : List Imp) (imp : Imp)
    (hmem : imp ∈ imps) (hbanner : imp.Banner.isSome = true)
    (hvideo : imp.Video.isSome = true) :
    sovrn.getMediaTypeForImp imp.ID imps = BidTypeVideo
    ∧ sovrn.getMediaTypeForImp imp.ID imps ≠ BidTypeBanner
    ∧ ∀ impId, (sovrn.getMediaTypeForImp impId imps = BidTypeBanner
        ↔ ∀ x ∈ imps, x.ID = impId → x.Video = none) := by
  have hv := sovrn.getMediaTypeForImp_video imp.ID imps ⟨imp, hmem, rfl, hvideo⟩
  refine ⟨hv, ?_, fun impId => sovrn.getMediaTypeForImp_banner_iff impId imps⟩
  rw [hv]
  decide

/-- C12 on an impression with a banner and a video sub-object. -/
theorem sovrn.getMediaTypeForImp_video_precedence_witness :
    Example.impBoth ∈ [Example.impA, Example.impBoth]
    ∧ Example.impBoth.Banner.isSome = true ∧ Example.impBoth.Video.isSome = true
    ∧ sovrn.getMediaTypeForImp Example.impBoth.ID [Example.impA, Example.impBoth]
        = BidTypeVideo
    ∧ sovrn.getMediaTypeForImp Example.impBoth.ID [Example.impA, Example.impBoth]
        ≠ BidTypeBanner
    ∧ ∀ impId, (sovrn.getMediaTypeForImp impId [Example.impA, Example.impBoth]
          = BidTypeBanner
        ↔ ∀ x ∈ [Example.impA, Example.impBoth], x.ID = impId → x.Video = none) :=
  ⟨by decide, rfl, rfl,
    sovrn.getMediaTypeForImp_video_precedence [Example.impA, Example.impBoth]
      Example.impBoth (by decide) rfl rfl⟩

/-- C12 fails as stated: for the one impression `V`, which declares both a banner and a
video sub-object, a bid on `V` is resolved to video, not to banner. -/
theorem sovrn.getMediaTypeForImp_both_counterexample :
    Example.impBoth.Banner ≠ none ∧ Example.impBoth.Video ≠ none
    ∧ sovrn.getMediaTypeForImp "V" [Example.impBoth] = "video"
    ∧ sovrn.getMediaTypeForImp "V" [Example.impBoth] ≠ BidTypeBanner := by
  refine ⟨by decide, by decide, by decide, by decide⟩

/-! ## The creative-type signal of sovrnXsp -/

/-- What the `switch` of sovrnXsp `MakeBids` yields on a recognised creative type. -/
theorem sovrnXsp.switchCreativeType_recognised (env : Stdlib) (b : Bid) (ct : Int)
    (errors : List GoError) (hdec : env.unmarshalBidExt b.Ext = .ok ⟨ct⟩)
    (hct : ct = 0 ∨ ct = 1 ∨ ct = 2) :
    sovrnXsp.MakeBids.switchCreativeType ct errors = (sovrnXsp.signalledType env b, errors) := by
  simp only [sovrnXsp.signalledType, hdec, sovrnXsp.MakeBids.switchCreativeType,
    sovrnXsp.creativeTypeBanner, sovrnXsp.creativeTypeVideo, sovrnXsp.creativeTypeNative]
  rcases hct with rfl | rfl | rfl <;> simp

/-- The inner loop of sovrnXsp `MakeBids` on bids that all carry a recognised creative
type: no error is added, every bid gets a cell of its own holding the bid with its
extension cleared, and a typed bid pointing to that cell with the signalled type. -/
theorem sovrnXsp.rangeBid_recognised (env : Stdlib) :
    ∀ (bs : List Bid) (bids : List TypedBid) (errors : List GoError) (cells : BidCells),
      (∀ b ∈ bs, ∃ ct, env.unmarshalBidExt b.Ext = .ok ⟨ct⟩ ∧ (ct = 0 ∨ ct = 1 ∨ ct = 2)) →
      (∀ t ∈ bids, t.Bid < cells.length) →
      ∃ bids1 cells1,
        sovrnXsp.MakeBids.rangeBid env bs (bids, errors, cells) = (bids1, errors, cells1)
        ∧ (∀ t ∈ bids1, t.Bid < cells1.length)
        ∧ bids1.map (fun t => (cells1[t.Bid]?, t.BidType))
            = bids.map (fun t => (cells[t.Bid]?, t.BidType))
              ++ bs.map (fun b => (some { b with Ext := "" }, sovrnXsp.signalledType env b)) := by
  intro bs
  induction bs with
  | nil =>
      intro bids errors cells _ hlt
      exact ⟨bids, cells, rfl, hlt, by simp⟩
  | cons b rest ih =>
      intro bids errors cells hgood hlt
      obtain ⟨ct, hdec, hct⟩ := hgood b (List.mem_cons_self _ _)
      have hlt1 : ∀ t ∈ bids ++ [(⟨cells.length, sovrnXsp.signalledType env b⟩ : TypedBid)],
          t.Bid < (cells ++ [{ b with Ext := "" }]).length := by
        intro t ht
        rcases List.mem_append.1 ht with h1 | h1
        · have := hlt t h1
          simp only [List.length_append, List.length_singleton]
          exact Nat.lt_succ_of_lt this
        · simp only [List.mem_singleton] at h1
          subst h1
          simp
      obtain ⟨bids1, cells1, heq, hlt2, hmap⟩ :=
        ih (bids ++ [⟨cells.length, sovrnXsp.signalledType env b⟩]) errors
          (cells ++ [{ b with Ext := "" }])
          (fun x hx => hgood x (List.mem_cons_of_mem _ hx)) hlt1
      refine ⟨bids1, cells1, ?_, hlt2, ?_⟩
      · simp only [sovrnXsp.MakeBids.rangeBid, hdec,
          sovrnXsp.switchCreativeType_recognised env b ct errors hdec hct, List.set_last]
        exact heq
      · rw [hmap]
        simp only [List.map_append, List.map_cons, List.map_nil, List.append_assoc,
          List.singleton_append]
        congr 1
        · apply List.map_congr_left
          intro t ht
          have := hlt t ht
          simp only [Prod.mk.injEq, and_true]
          exact List.getElem?_append_left this
        · simp

/-- The outer loop of sovrnXsp `MakeBids` on bids that all carry a recognised creative
type. -/
theorem sovrnXsp.rangeSeatBid_recognised (env : Stdlib) :
    ∀ (sbs : List SeatBid) (bids : List TypedBid) (errors : List GoError) (cells : BidCells),
      (∀ b ∈ sbs.flatMap (fun sb => sb.Bid),
        ∃ ct, env.unmarshalBidExt b.Ext = .ok ⟨ct⟩ ∧ (ct = 0 ∨ ct = 1 ∨ ct = 2)) →
      (∀ t ∈ bids, t.Bid < cells.length) →
      ∃ bids1 cells1,
        sovrnXsp.MakeBids.rangeSeatBid env sbs (bids, errors, cells) = (bids1, errors, cells1)
        ∧ (∀ t ∈ bids1, t.Bid < cells1.length)
        ∧ bids1.map (fun t => (cells1[t.Bid]?, t.BidType))
            = bids.map (fun t => (cells[t.Bid]?, t.BidType))
              ++ (sbs.flatMap (fun sb => sb.Bid)).map
                  (fun b => (some { b with Ext := "" }, sovrnXsp.signalledType env b)) := by
  intro sbs
  induction sbs with
  | nil =>
      intro bids errors cells _ hlt
      exact ⟨bids, cells, rfl, hlt, by simp⟩
  | cons sb rest ih =>
      intro bids errors cells hgood hlt
      obtain ⟨bids1, cells1, heq1, hlt1, hmap1⟩ :=
        sovrnXsp.rangeBid_recognised env sb.Bid bids errors cells
          (fun b hb => hgood b (by simp only [List.flatMap_cons, List.mem_append]; exact Or.inl hb))
          hlt
      obtain ⟨bids2, cells2, heq2, hlt2, hmap2⟩ :=
        ih bids1 errors cells1
          (fun b hb => hgood b (by simp only [List.flatMap_cons, List.mem_append]; exact Or.inr hb))
          hlt1
      refine ⟨bids2, cells2, ?_, hlt2, ?_⟩
      · simp only [sovrnXsp.MakeBids.rangeSeatBid, heq1]
        exact heq2
      · rw [hmap2, hmap1]
        simp only [List.flatMap_cons, List.map_append, List.append_assoc]

/-- C14. In sovrnXsp `MakeBids` with status 200 and a decodable response whose bids all
carry creative type 0, 1 or 2, there is no failure and exactly one typed bid per bid of
the response, in seat-bid then bid order; each points to the bid with its extension
cleared and all other fields unchanged, and is typed banner for 0, video for 1 and native
for 2, whatever the internal request declares. -/
theorem sovrnXsp.MakeBids_typed_by_signal (env : Stdlib) (request : BidRequest)
    (rd : RequestData) (body : String) (resp : BidResponse)
    (hdec : env.unmarshalBidResponse body = .ok resp)
    (hgood : ∀ b ∈ allBids resp,
      ∃ ct, env.unmarshalBidExt b.Ext = .ok ⟨ct⟩ ∧ (ct = 0 ∨ ct = 1 ∨ ct = 2)) :
    (sovrnXsp.MakeBids env request rd ⟨200, body⟩).errs = []
    ∧ (∃ bids, (sovrnXsp.MakeBids env request rd ⟨200, body⟩).response = some ⟨"USD", bids⟩
        ∧ bids.length = (allBids resp).length
        ∧ bids.map (fun t =>
              (TypedBid.deref (sovrnXsp.MakeBids env request rd ⟨200, body⟩).cells t,
                t.BidType))
            = (allBids resp).map
                (fun b => (some { b with Ext := "" }, sovrnXsp.signalledType env b)))
    ∧ (∀ b ∈ allBids resp, ∀ ct, env.unmarshalBidExt b.Ext = .ok ⟨ct⟩ →
        (ct = 0 → sovrnXsp.signalledType env b = BidTypeBanner)
        ∧ (ct = 1 → sovrnXsp.signalledType env b = BidTypeVideo)
        ∧ (ct = 2 → sovrnXsp.signalledType env b = BidTypeNative))
    ∧ (∀ other : BidRequest, sovrnXsp.MakeBids env other rd ⟨200, body⟩
        = sovrnXsp.MakeBids env request rd ⟨200, body⟩) := by
  obtain ⟨bids1, cells1, heq, -, hmap⟩ :=
    sovrnXsp.rangeSeatBid_recognised env resp.SeatBid [] [] [] hgood (by simp)
  have hres : sovrnXsp.MakeBids env request rd ⟨200, body⟩
      = ⟨some ⟨"USD", bids1⟩, [], cells1⟩ := by
    simp [sovrnXsp.MakeBids, hdec, NewBidderResponseWithBidsCapacity, heq]
  refine ⟨by rw [hres], ⟨bids1, by rw [hres], ?_, ?_⟩, ?_, ?_⟩
  · have := congrArg List.length hmap
    simpa [allBids] using this
  · rw [hres]
    simpa [allBids, TypedBid.deref] using hmap
  · intro b _ ct hct
    simp only [sovrnXsp.signalledType, hct]
    refine ⟨?_, ?_, ?_⟩ <;> intro h <;> subst h <;> simp
  · intro other
    simp [sovrnXsp.MakeBids, hdec, NewBidderResponseWithBidsCapacity]

/-- C14 on a response with a banner bid on `A` and a video bid on `B`, for a request that
declares no impression at all. -/
theorem sovrnXsp.MakeBids_typed_by_signal_witness :
    Example.stdlib.unmarshalBidResponse "AB"
      = .ok ⟨"r", [⟨[Example.bidA, Example.bidB], "s"⟩]⟩
    ∧ (sovrnXsp.MakeBids Example.stdlib Example.emptyRequest Example.envelope
        ⟨200, "AB"⟩).errs = []
    ∧ (∃ bids, (sovrnXsp.MakeBids Example.stdlib Example.emptyRequest Example.envelope
          ⟨200, "AB"⟩).response = some ⟨"USD", bids⟩
        ∧ bids.length = (allBids ⟨"r", [⟨[Example.bidA, Example.bidB], "s"⟩]⟩).length
        ∧ bids.map (fun t =>
              (TypedBid.deref (sovrnXsp.MakeBids Example.stdlib Example.emptyRequest
                Example.envelope ⟨200, "AB"⟩).cells t, t.BidType))
            = (allBids ⟨"r", [⟨[Example.bidA, Example.bidB], "s"⟩]⟩).map
                (fun b => (some { b with Ext := "" },
                  sovrnXsp.signalledType Example.stdlib b)))
    ∧ (∀ b ∈ allBids ⟨"r", [⟨[Example.bidA, Example.bidB], "s"⟩]⟩, ∀ ct,
        Example.stdlib.unmarshalBidExt b.Ext = .ok ⟨ct⟩ →
        (ct = 0 → sovrnXsp.signalledType Example.stdlib b = BidTypeBanner)
        ∧ (ct = 1 → sovrnXsp.signalledType Example.stdlib b = BidTypeVideo)
        ∧ (ct = 2 → sovrnXsp.signalledType Example.stdlib b = BidTypeNative))
    ∧ (∀ other : BidRequest,
        sovrnXsp.MakeBids Example.stdlib other Example.envelope ⟨200, "AB"⟩
          = sovrnXsp.MakeBids Example.stdlib Example.emptyRequest Example.envelope
              ⟨200, "AB"⟩) :=
  ⟨rfl,
    sovrnXsp.MakeBids_typed_by_signal Example.stdlib Example.emptyRequest Example.envelope
      "AB" ⟨"r", [⟨[Example.bidA, Example.bidB], "s"⟩]⟩ rfl
      (by
        intro b hb
        simp only [allBids, List.flatMap_cons, List.flatMap_nil, List.append_nil,
          List.mem_cons, List.mem_singleton, List.not_mem_nil, or_false] at hb
        rcases hb with rfl | rfl
        · exact ⟨0, rfl, Or.inl rfl⟩
        · exact ⟨1, rfl, Or.inr (Or.inl rfl)⟩)⟩

/-- On a bid whose extension carries an unrecognised creative type, the loop of sovrnXsp
`MakeBids` appends a `BadServerResponse` and then, having no `continue` in the default
case, appends the bid all the same, with the empty bid type. -/
theorem sovrnXsp.rangeBid_unrecognised (env : Stdlib) (b : Bid) (rest : List Bid) (ct : Int)
    (bids : List TypedBid) (errors : List GoError) (cells : BidCells)
    (hdec : env.unmarshalBidExt b.Ext = .ok ⟨ct⟩)
    (h0 : ct ≠ 0) (h1 : ct ≠ 1) (h2 : ct ≠ 2) :
    sovrnXsp.MakeBids.rangeBid env (b :: rest) (bids, errors, cells)
      = sovrnXsp.MakeBids.rangeBid env rest
          (bids ++ [⟨cells.length, ""⟩],
            errors ++ [.BadServerResponse ("Unsupported creative type: " ++ fmtD ct)],
            cells ++ [{ b with Ext := "" }]) := by
  simp [sovrnXsp.MakeBids.rangeBid, hdec, sovrnXsp.MakeBids.switchCreativeType,
    sovrnXsp.creativeTypeBanner, sovrnXsp.creativeTypeVideo, sovrnXsp.creativeTypeNative,
    h0, h1, h2, List.set_last]

/-- C13 fails on the code: on a response with a banner bid, a bid of creative type 3
(audio) and a video bid, sovrnXsp `MakeBids` records the one `BadServerResponse` and still
returns the audio bid, as the second of three typed bids, with the empty bid type; the
sibling bids are returned typed banner and video. -/
theorem sovrnXsp.MakeBids_unsupported_type_returned :
    Example.stdlib.unmarshalBidResponse "A,audio,B"
      = .ok ⟨"r", [⟨[Example.bidA, Example.bidAudio], "s"⟩, ⟨[Example.bidB], "t"⟩]⟩
    ∧ Example.stdlib.unmarshalBidExt Example.bidAudio.Ext = .ok ⟨3⟩
    ∧ sovrnXsp.MakeBids Example.stdlib Example.requestAB Example.envelope ⟨200, "A,audio,B"⟩
        = ⟨some ⟨"USD", [⟨0, BidTypeBanner⟩, ⟨1, ""⟩, ⟨2, BidTypeVideo⟩]⟩,
            [.BadServerResponse "Unsupported creative type: 3"],
            [{ Example.bidA with Ext := "" }, { Example.bidAudio with Ext := "" },
              { Example.bidB with Ext := "" }]⟩ := by
  refine ⟨rfl, rfl, by decide⟩

/-! ## One impression among its siblings, verizonmedia -/

/-- One iteration of the loop of verizonmedia `MakeRequests` does not look at the
impressions still to come: it panics, or it hands a new state to the next iteration. -/
theorem verizonmedia.rangeImp_cons (env : Stdlib) (a : verizonmedia.VerizonMediaAdapter)
    (request : BidRequest) (headers : Header) (idx : Nat) (imp : Imp) (h : Heap)
    (reqs : List RequestData) (errs : List GoError) :
    ∃ res : Go (Heap × List RequestData × List GoError), ∀ l : List Imp,
      verizonmedia.MakeRequests.rangeImp env a request headers idx (imp :: l) (h, reqs, errs)
        = match res with
          | .error f => .error f
          | .ok st1 => verizonmedia.MakeRequests.rangeImp env a request headers (idx + 1) l st1 := by
  cases hd1 : env.unmarshalExtImpBidder imp.Ext with
  | error e1 =>
      exact ⟨.ok (h, reqs, errs ++ [.BadInput
          ("imp #" ++ fmtD idx ++ ": ext.bidder not provided")]),
        fun l => by simp only [verizonmedia.MakeRequests.rangeImp, hd1]⟩
  | ok bidderExt =>
      cases hd2 : env.unmarshalExtImpVerizonMedia bidderExt.Bidder with
      | error e2 =>
          exact ⟨.ok (h, reqs, errs ++ [.BadInput ("imp #" ++ fmtD idx ++ ": " ++ e2)]),
            fun l => by simp only [verizonmedia.MakeRequests.rangeImp, hd1, hd2]⟩
      | ok ext =>
          by_cases hdcn : ext.Dcn = ""
          · exact ⟨.ok (h, reqs, errs ++ [.BadInput
                ("imp #" ++ fmtD idx ++ ": missing param dcn")]),
              fun l => by
                simp only [verizonmedia.MakeRequests.rangeImp, hd1, hd2, hdcn, if_true]⟩
          · by_cases hpos : ext.Pos = ""
            · exact ⟨.ok (h, reqs, errs ++ [.BadInput
                  ("imp #" ++ fmtD idx ++ ": missing param pos")]),
                fun l => by
                  simp only [verizonmedia.MakeRequests.rangeImp, hd1, hd2, hdcn, hpos,
                    if_true, if_false]⟩
            · cases hs : request.Site with
              | none =>
                  exact ⟨.error .nilDereference, fun l => by
                    simp only [verizonmedia.MakeRequests.rangeImp, hd1, hd2, hdcn, hpos,
                      if_false, hs]⟩
              | some sp =>
                  cases hsp : h.site sp with
                  | error f =>
                      exact ⟨.error f, fun l => by
                        simp only [verizonmedia.MakeRequests.rangeImp, hd1, hd2, hdcn, hpos,
                          if_false, hs, hsp]⟩
                  | ok site =>
                      cases hch : verizonmedia.changeRequestForBidService (h.newSite site).2
                          { request with Imp := [imp], Site := some (h.newSite site).1 }
                          ext with
                      | error f =>
                          exact ⟨.error f, fun l => by
                            simp only [verizonmedia.MakeRequests.rangeImp, hd1, hd2, hdcn,
                              hpos, if_false, hs, hsp, hch]⟩
                      | ok res =>
                          obtain ⟨r, h1, err⟩ := res
                          cases err with
                          | some e =>
                              exact ⟨.ok (h1, reqs, errs ++ [e]), fun l => by
                                simp only [verizonmedia.MakeRequests.rangeImp, hd1, hd2, hdcn,
                                  hpos, if_false, hs, hsp, hch]⟩
                          | none =>
                              cases htr : h1.tree r with
                              | error f =>
                                  exact ⟨.error f, fun l => by
                                    simp only [verizonmedia.MakeRequests.rangeImp, hd1, hd2,
                                      hdcn, hpos, if_false, hs, hsp, hch, htr]⟩
                              | ok t =>
                                  cases hm : env.marshalBidRequest t with
                                  | error e =>
                                      exact ⟨.ok (h1, reqs, errs ++ [.errorString e]),
                                        fun l => by
                                          simp only [verizonmedia.MakeRequests.rangeImp, hd1,
                                            hd2, hdcn, hpos, if_false, hs, hsp, hch, htr, hm]⟩
                                  | ok js =>
                                      exact ⟨.ok (h1, reqs ++ [⟨"POST", a.URI, js, headers⟩],
                                          errs),
                                        fun l => by
                                          simp only [verizonmedia.MakeRequests.rangeImp, hd1,
                                            hd2, hdcn, hpos, if_false, hs, hsp, hch, htr, hm]⟩

/-- The loop of verizonmedia `MakeRequests` over `pre ++ rest` is the loop over `pre`
followed by the loop over `rest`, the index carried on. -/
theorem verizonmedia.rangeImp_append (env : Stdlib) (a : verizonmedia.VerizonMediaAdapter)
    (request : BidRequest) (headers : Header) (rest : List Imp) :
    ∀ (pre : List Imp) (idx : Nat) (st : Heap × List RequestData × List GoError),
      verizonmedia.MakeRequests.rangeImp env a request headers idx (pre ++ rest) st
        = match verizonmedia.MakeRequests.rangeImp env a request headers idx pre st with
          | .error f => .error f
          | .ok st1 =>
              verizonmedia.MakeRequests.rangeImp env a request headers (idx + pre.length)
                rest st1 := by
  intro pre
  induction pre with
  | nil => intro idx st; simp [verizonmedia.MakeRequests.rangeImp]
  | cons imp pre ih =>
      intro idx st
      obtain ⟨h, reqs, errs⟩ := st
      have hidx : idx + (imp :: pre).length = idx + 1 + pre.length := by
        simp only [List.length_cons]; omega
      obtain ⟨res, hres⟩ := verizonmedia.rangeImp_cons env a request headers idx imp h reqs errs
      rw [hidx, List.cons_append, hres (pre ++ rest), hres pre]
      cases res with
      | error f => rfl
      | ok st1 => exact ih (idx + 1) st1

/-- The call of `MakeRequests` seen from one of its impressions: the loop over the
impressions before it, then the loop from that impression on, at its position. -/
theorem verizonmedia.MakeRequests_focus (env : Stdlib) (a : verizonmedia.VerizonMediaAdapter)
    (h : Heap) (request : BidRequest) (pre : List Imp) (imp : Imp) (post : List Imp)
    (hImp : request.Imp = pre ++ imp :: post) :
    verizonmedia.MakeRequests env a h request
      = verizonmedia.MakeRequests.returned request
          (match verizonmedia.MakeRequests.rangeImp env a request
              (verizonmedia.MakeRequests.headers request) 0 pre (h, [], []) with
            | .error f => .error f
            | .ok st1 =>
                verizonmedia.MakeRequests.rangeImp env a request
                  (verizonmedia.MakeRequests.headers request) pre.length (imp :: post) st1) := by
  have hlen : ¬ request.Imp.length = 0 := by
    rw [hImp]; simp
  have happ := verizonmedia.rangeImp_append env a request
    (verizonmedia.MakeRequests.headers request) (imp :: post) pre 0 (h, [], [])
  simp only [Nat.zero_add] at happ
  simp only [verizonmedia.MakeRequests, hlen, if_false]
  rw [hImp, happ]
  cases verizonmedia.MakeRequests.rangeImp env a request
      (verizonmedia.MakeRequests.headers request) 0 pre (h, [], []) with
  | error f => rfl
  | ok st1 =>
      dsimp only
      cases verizonmedia.MakeRequests.rangeImp env a request
          (verizonmedia.MakeRequests.headers request) pre.length (imp :: post) st1 with
      | error f => rfl
      | ok st2 => rfl

/-- An impression with invalid parameters adds one `BadInput` to the errors, whose message
is `imp #` and its index followed by what `paramsFailure` says, and nothing else. -/
theorem verizonmedia.rangeImp_invalid (env : Stdlib) (a : verizonmedia.VerizonMediaAdapter)
    (request : BidRequest) (headers : Header) (idx : Nat) (imp : Imp) (rest : List Imp)
    (h : Heap) (reqs : List RequestData) (errs : List GoError) (suffix : String)
    (hfail : verizonmedia.paramsFailure env imp.Ext = some suffix) :
    verizonmedia.MakeRequests.rangeImp env a request headers idx (imp :: rest) (h, reqs, errs)
      = verizonmedia.MakeRequests.rangeImp env a request headers (idx + 1) rest
          (h, reqs, errs ++ [.BadInput ("imp #" ++ fmtD idx ++ suffix)]) := by
  unfold verizonmedia.paramsFailure at hfail
  rw [verizonmedia.MakeRequests.rangeImp]
  cases hd1 : env.unmarshalExtImpBidder imp.Ext with
  | error e1 =>
      rw [hd1] at hfail
      simp only [Option.some.injEq] at hfail
      subst hfail
      rfl
  | ok bidderExt =>
      rw [hd1] at hfail
      dsimp only at hfail ⊢
      cases hd2 : env.unmarshalExtImpVerizonMedia bidderExt.Bidder with
      | error e2 =>
          rw [hd2] at hfail
          simp only [Option.some.injEq] at hfail
          subst hfail
          dsimp only
          rw [String.append_assoc ("imp #" ++ fmtD idx)]
      | ok ext =>
          rw [hd2] at hfail
          dsimp only at hfail ⊢
          by_cases hdcn : ext.Dcn = ""
          · simp only [hdcn, if_true, Option.some.injEq] at hfail ⊢
            subst hfail
            rfl
          · by_cases hpos : ext.Pos = ""
            · simp only [hdcn, hpos, if_true, if_false, Option.some.injEq] at hfail ⊢
              subst hfail
              rfl
            · simp only [hdcn, hpos, if_false] at hfail
              cases hfail

/-- A parameter blob is invalid exactly when `paramsFailure` has a message for it. -/
theorem verizonmedia.paramsFailure_of_invalid (env : Stdlib) (ext : RawMessage)
    (hinv : verizonmedia.invalidParams env ext) :
    ∃ suffix, verizonmedia.paramsFailure env ext = some suffix := by
  unfold verizonmedia.invalidParams verizonmedia.params at hinv
  unfold verizonmedia.paramsFailure
  cases hd1 : env.unmarshalExtImpBidder ext with
  | error e1 => exact ⟨_, rfl⟩
  | ok bidderExt =>
      rw [hd1] at hinv
      dsimp only at hinv ⊢
      cases hd2 : env.unmarshalExtImpVerizonMedia bidderExt.Bidder with
      | error e2 => exact ⟨_, rfl⟩
      | ok x =>
          rw [hd2] at hinv
          dsimp only at hinv ⊢
          by_cases hdcn : x.Dcn = ""
          · simp only [hdcn, if_true]
            exact ⟨_, rfl⟩
          · have hpos : x.Pos = "" := by
              rcases hinv with hc | hc
              · exact absurd hc hdcn
              · exact hc
            simp only [hdcn, hpos, if_true, if_false]
            exact ⟨_, rfl⟩

/-- The request with banner `A`, an impression without `dcn` and banner `B`, run: two
envelopes, for `A` and for `B`, and one `BadInput` for the impression at index 1. -/
theorem verizonmedia.MakeRequests_middle_invalid :
    ∃ h2, verizonmedia.MakeRequests Example.stdlib Example.verizon Example.heap
        Example.requestAFB
      = .ok ⟨[⟨"POST", "http://verizon/bid", "dcn-A|A:111;", Example.verizonHeaders⟩,
              ⟨"POST", "http://verizon/bid", "dcn-B|B:112;", Example.verizonHeaders⟩],
            [.BadInput "imp #1: missing param dcn"], Example.requestAFB, h2⟩ :=
  ⟨_, rfl⟩

theorem Heap.impTrees_append {h : Heap} :
    ∀ {l1 l2 : List Imp} {its : List (ImpOf Banner)}, h.impTrees (l1 ++ l2) = .ok its →
      ∃ its1 its2, h.impTrees l1 = .ok its1 ∧ h.impTrees l2 = .ok its2
        ∧ its = its1 ++ its2 := by
  intro l1
  induction l1 with
  | nil => intro l2 its hi; exact ⟨[], its, rfl, hi, rfl⟩
  | cons imp rest ih =>
      intro l2 its hi
      obtain ⟨it, its0, himp, hrest, rfl⟩ := Heap.impTrees_cons_eq_ok hi
      obtain ⟨its1, its2, h1, h2, rfl⟩ := ih hrest
      exact ⟨it :: its1, its2, by simp [Heap.impTrees, himp, h1], h2, rfl⟩

/-- What `shapeImp` yields for an impression with valid parameters, on a request with a
site block. -/
theorem verizonmedia.shapeImp_of_params (env : Stdlib) (a : verizonmedia.VerizonMediaAdapter)
    (t : BidRequestTree) (headers : Header) (idx : Nat) (it : ImpOf Banner) (site : Site)
    (ext : ExtImpVerizonMedia) (hsite : t.Site = some site)
    (hparams : verizonmedia.params env it.Ext = some ext)
    (hdcn : ext.Dcn ≠ "") (hpos : ext.Pos ≠ "") :
    verizonmedia.shapeImp env a t headers idx it
      = match it.Banner with
        | none =>
            .ok (verizonmedia.marshalShaped env a headers
              (verizonmedia.shapedTree t site it ext none))
        | some b =>
            match verizonmedia.bannerForBidService b with
            | .error e => .ok (.error e)
            | .ok b1 =>
                .ok (verizonmedia.marshalShaped env a headers
                  (verizonmedia.shapedTree t site it ext (some b1))) := by
  unfold verizonmedia.params at hparams
  unfold verizonmedia.shapeImp
  rw [hsite]
  cases hd1 : env.unmarshalExtImpBidder it.Ext with
  | error e => rw [hd1] at hparams; cases hparams
  | ok bidderExt =>
      rw [hd1] at hparams
      dsimp only at hparams ⊢
      cases hd2 : env.unmarshalExtImpVerizonMedia bidderExt.Bidder with
      | error e => rw [hd2] at hparams; cases hparams
      | ok ext1 =>
          rw [hd2] at hparams
          simp only [Option.some.injEq] at hparams
          subst hparams
          simp only [hdcn, hpos, if_false]

/-- The call of `MakeRequests` on a request with a site block, seen from one of its
impressions: the impressions before it are shaped without a panic, the impression adds
what `shapeImp` says, the loop goes on with the impressions after it, and the store only
grows. -/
theorem verizonmedia.MakeRequests_focus_tree (env : Stdlib)
    (a : verizonmedia.VerizonMediaAdapter) (h : Heap) (request : BidRequest)
    (t : BidRequestTree) (site : Site) (pre : List Imp) (imp : Imp) (post : List Imp)
    (ht : h.tree request = .ok t) (hsite : t.Site = some site)
    (hImp : request.Imp = pre ++ imp :: post) :
    ∃ it h1 reqs errs res h2,
      h.impTree imp = .ok it
      ∧ verizonmedia.MakeRequests.rangeImp env a request
          (verizonmedia.MakeRequests.headers request) 0 pre (h, [], []) = .ok (h1, reqs, errs)
      ∧ h.le h1 ∧ h1.le h2
      ∧ verizonmedia.shapeImp env a t (verizonmedia.MakeRequests.headers request) pre.length it
          = .ok res
      ∧ verizonmedia.MakeRequests env a h request
          = verizonmedia.MakeRequests.returned request
              (match res with
                | .ok rd =>
                    verizonmedia.MakeRequests.rangeImp env a request
                      (verizonmedia.MakeRequests.headers request) (pre.length + 1) post
                      (h2, reqs ++ [rd], errs)
                | .error e =>
                    verizonmedia.MakeRequests.rangeImp env a request
                      (verizonmedia.MakeRequests.headers request) (pre.length + 1) post
                      (h2, reqs, errs ++ [e])) := by
  obtain ⟨himps, hID, hApp, hDev, hUser, hs⟩ := Heap.tree_eq_ok ht
  rw [hImp] at himps
  obtain ⟨its1, its2, hpre, hrest, -⟩ := Heap.impTrees_append himps
  obtain ⟨it, its3, himp, -, -⟩ := Heap.impTrees_cons_eq_ok hrest
  have hpre_run := verizonmedia.rangeImp_refines env a request
    (verizonmedia.MakeRequests.headers request) t h hID hApp hDev hUser hs pre its1 0 h [] []
    (Heap.le_refl _) hpre
  obtain ⟨out, hout⟩ := verizonmedia.shapeAll_returns env a t
    (verizonmedia.MakeRequests.headers request) site hsite its1 0 ([], [])
  rw [hout] at hpre_run
  obtain ⟨h1, hle1, hrun⟩ := hpre_run
  have hs1 : match request.Site with
      | none => t.Site = none
      | some sp => ∃ s, h1.site sp = .ok s ∧ t.Site = some s := by
    cases hrs : request.Site with
    | none => rw [hrs] at hs; exact hs
    | some sp =>
        rw [hrs] at hs
        obtain ⟨s0, hs0, hs2⟩ := hs
        exact ⟨s0, Heap.le_site hle1 hs0, hs2⟩
  have hstep := verizonmedia.rangeImp_step env a request
    (verizonmedia.MakeRequests.headers request) t pre.length imp post it h1 out.1 out.2
    hID hApp hDev hUser hs1 (Heap.le_impTree hle1 himp)
  obtain ⟨res, hres⟩ := verizonmedia.shapeImp_returns env a t
    (verizonmedia.MakeRequests.headers request) pre.length it site hsite
  rw [hres] at hstep
  have hfocus := verizonmedia.MakeRequests_focus env a h request pre imp post hImp
  rw [hrun] at hfocus
  dsimp only at hfocus
  cases res with
  | error e =>
      obtain ⟨h2, hle2, heq⟩ := hstep
      refine ⟨it, h1, out.1, out.2, .error e, h2, himp, hrun, hle1, hle2, hres, ?_⟩
      rw [hfocus, heq]
  | ok rd =>
      obtain ⟨h2, hle2, heq⟩ := hstep
      refine ⟨it, h1, out.1, out.2, .ok rd, h2, himp, hrun, hle1, hle2, hres, ?_⟩
      rw [hfocus, heq]

/-- A banner that lacks a width or a height is sized from the first entry of its format
list. -/
theorem verizonmedia.bannerForBidService_format (b : Banner) (f : Format) (fs : List Format)
    (hsize : b.W = none ∨ b.H = none) (hformat : b.Format = f :: fs) :
    verizonmedia.bannerForBidService b = .ok { b with W := some f.W, H := some f.H } := by
  unfold verizonmedia.bannerForBidService
  rcases hW : b.W with _ | w <;> rcases hH : b.H with _ | hh
  · simp only [hformat]
  · simp only [hformat]
  · simp only [hformat]
  · rcases hsize with hc | hc
    · rw [hW] at hc; cases hc
    · rw [hH] at hc; cases hc

/-- A banner with an explicit non-zero width and height is left as it is. -/
theorem verizonmedia.bannerForBidService_explicit (b : Banner) (w hh : Nat)
    (hW : b.W = some w) (hH : b.H = some hh) (hw : w ≠ 0) (hhh : hh ≠ 0) :
    verizonmedia.bannerForBidService b = .ok b := by
  unfold verizonmedia.bannerForBidService
  simp only [hW, hH, hw, hhh, or_self, if_false]

/-- A banner that lacks a width or a height and has no format list has no size. -/
theorem verizonmedia.bannerForBidService_no_size (b : Banner)
    (hsize : b.W = none ∨ b.H = none) (hformat : b.Format = []) :
    verizonmedia.bannerForBidService b
      = .error (.errorString ("No sizes provided for Banner " ++ "[]")) := by
  unfold verizonmedia.bannerForBidService
  rcases hW : b.W with _ | w <;> rcases hH : b.H with _ | hh
  · simp only [hformat]
  · simp only [hformat]
  · simp only [hformat]
  · rcases hsize with hc | hc
    · rw [hW] at hc; cases hc
    · rw [hH] at hc; cases hc

/-- The envelope of an impression with valid parameters whose banner `bannerForBidService`
sizes: the impression alone, with the sized copy of its banner. -/
theorem verizonmedia.MakeRequests_focus_sized (env : Stdlib)
    (a : verizonmedia.VerizonMediaAdapter) (h : Heap) (request : BidRequest)
    (t : BidRequestTree) (site : Site) (pre : List Imp) (imp : Imp) (post : List Imp)
    (ext : ExtImpVerizonMedia) (bp : Ptr) (b b1 : Banner)
    (ht : h.tree request = .ok t) (hsite : t.Site = some site)
    (hImp : request.Imp = pre ++ imp :: post)
    (hparams : verizonmedia.params env imp.Ext = some ext)
    (hdcn : ext.Dcn ≠ "") (hpos : ext.Pos ≠ "")
    (hbanner : imp.Banner = some bp) (hb : h.banner bp = .ok b)
    (hsized : verizonmedia.bannerForBidService b = .ok b1) :
    ∃ h1 reqs errs h2,
      verizonmedia.MakeRequests.rangeImp env a request
          (verizonmedia.MakeRequests.headers request) 0 pre (h, [], []) = .ok (h1, reqs, errs)
      ∧ h.le h1 ∧ h1.le h2
      ∧ ∀ js, env.marshalBidRequest
            ⟨t.ID, [⟨imp.ID, some b1, imp.Video, imp.Audio, imp.Native, ext.Pos, imp.BidFloor,
              imp.Ext⟩], some { site with ID := ext.Dcn }, t.App, t.Device, t.User⟩ = .ok js →
          verizonmedia.MakeRequests env a h request
            = verizonmedia.MakeRequests.returned request
                (verizonmedia.MakeRequests.rangeImp env a request
                  (verizonmedia.MakeRequests.headers request) (pre.length + 1) post
                  (h2, reqs ++ [⟨"POST", a.URI, js,
                    verizonmedia.MakeRequests.headers request⟩], errs)) := by
  obtain ⟨it, h1, reqs, errs, res, h2, himp, hrun, hle1, hle2, hres, heq⟩ :=
    verizonmedia.MakeRequests_focus_tree env a h request t site pre imp post ht hsite hImp
  have hit : it = ⟨imp.ID, some b, imp.Video, imp.Audio, imp.Native, imp.TagID, imp.BidFloor,
      imp.Ext⟩ := by
    rcases Heap.impTree_eq_ok.1 himp with ⟨hn, -⟩ | ⟨q, c, hq, hc, hitc⟩
    · rw [hbanner] at hn; cases hn
    · rw [hbanner] at hq
      cases hq
      rw [hb] at hc
      cases hc
      exact hitc
  subst hit
  rw [verizonmedia.shapeImp_of_params env a t _ pre.length _ site ext hsite hparams hdcn hpos]
    at hres
  simp only [hsized, Except.ok.injEq] at hres
  subst hres
  refine ⟨h1, reqs, errs, h2, hrun, hle1, hle2, ?_⟩
  intro js hjs
  have hm : verizonmedia.marshalShaped env a (verizonmedia.MakeRequests.headers request)
      (verizonmedia.shapedTree t site
        ⟨imp.ID, some b, imp.Video, imp.Audio, imp.Native, imp.TagID, imp.BidFloor, imp.Ext⟩
        ext (some b1))
      = .ok ⟨"POST", a.URI, js, verizonmedia.MakeRequests.headers request⟩ := by
    unfold verizonmedia.marshalShaped verizonmedia.shapedTree
    simp only [hjs]
  rw [heq, hm]

/-- An impression with valid parameters whose banner `bannerForBidService` refuses adds
that error and no envelope. -/
theorem verizonmedia.MakeRequests_focus_refused (env : Stdlib)
    (a : verizonmedia.VerizonMediaAdapter) (h : Heap) (request : BidRequest)
    (t : BidRequestTree) (site : Site) (pre : List Imp) (imp : Imp) (post : List Imp)
    (ext : ExtImpVerizonMedia) (bp : Ptr) (b : Banner) (e : GoError)
    (ht : h.tree request = .ok t) (hsite : t.Site = some site)
    (hImp : request.Imp = pre ++ imp :: post)
    (hparams : verizonmedia.params env imp.Ext = some ext)
    (hdcn : ext.Dcn ≠ "") (hpos : ext.Pos ≠ "")
    (hbanner : imp.Banner = some bp) (hb : h.banner bp = .ok b)
    (hrefused : verizonmedia.bannerForBidService b = .error e) :
    ∃ h1 reqs errs h2,
      verizonmedia.MakeRequests.rangeImp env a request
          (verizonmedia.MakeRequests.headers request) 0 pre (h, [], []) = .ok (h1, reqs, errs)
      ∧ h.le h1 ∧ h1.le h2
      ∧ verizonmedia.MakeRequests env a h request
          = verizonmedia.MakeRequests.returned request
              (verizonmedia.MakeRequests.rangeImp env a request
                (verizonmedia.MakeRequests.headers request) (pre.length + 1) post
                (h2, reqs, errs ++ [e])) := by
  obtain ⟨it, h1, reqs, errs, res, h2, himp, hrun, hle1, hle2, hres, heq⟩ :=
    verizonmedia.MakeRequests_focus_tree env a h request t site pre imp post ht hsite hImp
  have hit : it = ⟨imp.ID, some b, imp.Video, imp.Audio, imp.Native, imp.TagID, imp.BidFloor,
      imp.Ext⟩ := by
    rcases Heap.impTree_eq_ok.1 himp with ⟨hn, -⟩ | ⟨q, c, hq, hc, hitc⟩
    · rw [hbanner] at hn; cases hn
    · rw [hbanner] at hq
      cases hq
      rw [hb] at hc
      cases hc
      exact hitc
  subst hit
  rw [verizonmedia.shapeImp_of_params env a t _ pre.length _ site ext hsite hparams hdcn hpos]
    at hres
  simp only [hrefused, Except.ok.injEq] at hres
  subst hres
  exact ⟨h1, reqs, errs, h2, hrun, hle1, hle2, heq⟩

/-- C16 fails as stated: for the impression `B`, whose banner has neither sizes nor a
format list, the one failure recorded is a plain error, not a `BadInput`; the sibling `A`
still gets its envelope. -/
theorem verizonmedia.MakeRequests_no_banner_size_counterexample :
    verizonmedia.params Example.stdlib Example.impB.Ext = some ⟨"dcn-B", "112"⟩
    ∧ Example.heapNoSize.banner 1 = .ok ⟨none, none, [], "b1"⟩
    ∧ ∃ r, verizonmedia.MakeRequests Example.stdlib Example.verizon Example.heapNoSize
          Example.requestAB = .ok r
      ∧ r.reqs = [⟨"POST", "http://verizon/bid", "dcn-A|A:111;", Example.verizonHeaders⟩]
      ∧ r.errs = [.errorString "No sizes provided for Banner []"]
      ∧ r.errs.map GoError.isBadInput = [false] :=
  ⟨rfl, rfl, _, rfl, rfl, rfl, rfl⟩

/-- C18, as the code has it: sovrn `MakeRequests` on a request whose single impression
declares a native (or an audio) sub-object returns no envelope and exactly one failure,
whose message ends with the ID of that impression; the failure is the plain error of
`fmt.Errorf`, not a `BadInput`. The impression is cut out of the request and the store is
left alone. -/
theorem sovrn.MakeRequests_single_unsupported (env : Stdlib) (s : sovrn.SovrnAdapter)
    (h : Heap) (request : BidRequest) (imp : Imp)
    (hImp : request.Imp = [imp]) (hmedia : imp.Native.isSome ∨ imp.Audio.isSome) :
    sovrn.MakeRequests env s h request
      = .ok ⟨[], [.errorString
          ("Sovrn doesn\x27t support audio, video, or native Imps. Ignoring Imp ID=" ++ imp.ID)],
          { request with Imp := [] }, h⟩
    ∧ (GoError.errorString
        ("Sovrn doesn\x27t support audio, video, or native Imps. Ignoring Imp ID="
          ++ imp.ID)).Error
      = "Sovrn doesn\x27t support audio, video, or native Imps. Ignoring Imp ID=" ++ imp.ID
    ∧ (GoError.errorString
        ("Sovrn doesn\x27t support audio, video, or native Imps. Ignoring Imp ID="
          ++ imp.ID)).isBadInput = false := by
  have hpre : sovrn.preprocess env h imp
      = .ok (imp, h, "", some (.errorString
          ("Sovrn doesn\x27t support audio, video, or native Imps. Ignoring Imp ID="
            ++ imp.ID))) := by
    unfold sovrn.preprocess
    have hc : imp.Native.isSome ∨ imp.Audio.isSome ∨ imp.Video.isSome := by
      rcases hmedia with hn | ha
      · exact Or.inl hn
      · exact Or.inr (Or.inl ha)
    rw [if_pos hc]
  refine ⟨?_, rfl, rfl⟩
  unfold sovrn.MakeRequests
  rw [hImp]
  simp only [List.length_singleton]
  unfold sovrn.MakeRequests.loop
  simp only [List.getElem?_cons_zero, hpre, List.set_cons_zero, List.eraseIdx_cons_zero,
    List.nil_append]
  unfold sovrn.MakeRequests.loop
  simp

/-- C18 on the request whose single impression `N` declares a native sub-object. -/
theorem sovrn.MakeRequests_single_unsupported_witness :
    sovrn.MakeRequests Example.stdlib Example.sovrnAdapter Example.heap Example.requestNative
      = .ok ⟨[], [.errorString
          ("Sovrn doesn\x27t support audio, video, or native Imps. Ignoring Imp ID=" ++ "N")],
          { Example.requestNative with Imp := [] }, Example.heap⟩
    ∧ (GoError.errorString
        ("Sovrn doesn\x27t support audio, video, or native Imps. Ignoring Imp ID="
          ++ "N")).Error
      = "Sovrn doesn\x27t support audio, video, or native Imps. Ignoring Imp ID=" ++ "N"
    ∧ (GoError.errorString
        ("Sovrn doesn\x27t support audio, video, or native Imps. Ignoring Imp ID="
          ++ "N")).isBadInput = false :=
  sovrn.MakeRequests_single_unsupported Example.stdlib Example.sovrnAdapter Example.heap
    Example.requestNative Example.impNative rfl (Or.inl rfl)

/-- C18 fails as stated: on the request whose single impression declares a native
sub-object, the one failure sovrn records is not a `BadInput`. -/
theorem sovrn.MakeRequests_single_native_counterexample :
    Example.requestNative.Imp = [Example.impNative]
    ∧ Example.impNative.Native.isSome = true
    ∧ ∃ r, sovrn.MakeRequests Example.stdlib Example.sovrnAdapter Example.heap
          Example.requestNative = .ok r
      ∧ r.reqs = []
      ∧ r.errs = [.errorString
          "Sovrn doesn\x27t support audio, video, or native Imps. Ignoring Imp ID=N"]
      ∧ r.errs.map GoError.isBadInput = [false] :=
  ⟨rfl, rfl, _, rfl, rfl, rfl, rfl⟩

/-- C19. The sovrnXsp `MakeRequests` on a request with no app block returns, whatever the
impressions, the decoders and the store, no envelope and the single failure
`BadInput "non-app request"`; the request and the store are as before, so no impression
has been looked at. -/
theorem sovrnXsp.MakeRequests_non_app (env : Stdlib) (a : sovrnXsp.adapter) (h : Heap)
    (request : BidRequest) (happ : request.App = none) :
    sovrnXsp.MakeRequests env a h request
      = .ok ⟨[], [.BadInput "non-app request"], request, h⟩
    ∧ ([GoError.BadInput "non-app request"]).map GoError.isBadInput = [true] := by
  refine ⟨?_, rfl⟩
  unfold sovrnXsp.MakeRequests sovrnXsp.MakeRequests.appCopy
  rw [happ]

/-- C19 on the site request with impressions `A` and `B`. -/
theorem sovrnXsp.MakeRequests_non_app_witness :
    Example.requestNoApp.Imp.length = 2
    ∧ sovrnXsp.MakeRequests Example.stdlib Example.xsp Example.heap Example.requestNoApp
      = .ok ⟨[], [.BadInput "non-app request"], Example.requestNoApp, Example.heap⟩
    ∧ ([GoError.BadInput "non-app request"]).map GoError.isBadInput = [true] :=
  ⟨rfl, sovrnXsp.MakeRequests_non_app Example.stdlib Example.xsp Example.heap
    Example.requestNoApp rfl⟩

/-- The inner loop of `Call` on bids with known ad-unit codes appends one bid per bid of
the seat bid, in order. -/
theorem sovrn.Call_rangeBid_known (lib : LegacyLib) (bidder : pbs.PBSBidder) :
    ∀ (bs : List Bid) (bids : List pbs.PBSBid),
      (∀ b ∈ bs, bidder.LookupBidID b.ImpID ≠ "") →
      sovrn.Call.rangeBid lib bidder bs bids
        = .ok (bids ++ bs.map (fun bid =>
            (⟨bidder.LookupBidID bid.ImpID, bid.ImpID, bidder.BidderCode, bid.Price,
              (match lib.QueryUnescape bid.AdM with
                | .ok u => u
                | .error _ => ""),
              bid.CrID, bid.W, bid.H, bid.DealID, bid.NURL⟩ : pbs.PBSBid))) := by
  intro bs
  induction bs with
  | nil => intro bids _; simp [sovrn.Call.rangeBid]
  | cons b rest ih =>
      intro bids hknown
      have hb : bidder.LookupBidID b.ImpID ≠ "" := hknown b (List.mem_cons_self _ _)
      have hrest : ∀ b1 ∈ rest, bidder.LookupBidID b1.ImpID ≠ "" :=
        fun b1 hb1 => hknown b1 (List.mem_cons_of_mem _ hb1)
      unfold sovrn.Call.rangeBid
      simp only [hb, if_false]
      rw [ih _ hrest]
      simp [List.append_assoc]

/-- The outer loop of `Call` on a response whose bids all have known ad-unit codes. -/
theorem sovrn.Call_rangeSeatBid_known (lib : LegacyLib) (bidder : pbs.PBSBidder) :
    ∀ (sbs : List SeatBid) (bids : List pbs.PBSBid),
      (∀ b ∈ sbs.flatMap (fun sb => sb.Bid), bidder.LookupBidID b.ImpID ≠ "") →
      sovrn.Call.rangeSeatBid lib bidder sbs bids
        = .ok (bids ++ (sbs.flatMap (fun sb => sb.Bid)).map (fun bid =>
            (⟨bidder.LookupBidID bid.ImpID, bid.ImpID, bidder.BidderCode, bid.Price,
              (match lib.QueryUnescape bid.AdM with
                | .ok u => u
                | .error _ => ""),
              bid.CrID, bid.W, bid.H, bid.DealID, bid.NURL⟩ : pbs.PBSBid))) := by
  intro sbs
  induction sbs with
  | nil => intro bids _; simp [sovrn.Call.rangeSeatBid]
  | cons sb rest ih =>
      intro bids hknown
      have hsb : ∀ b ∈ sb.Bid, bidder.LookupBidID b.ImpID ≠ "" := by
        intro b hb
        apply hknown b
        simp only [List.flatMap_cons, List.mem_append]
        exact Or.inl hb
      have hrest : ∀ b ∈ rest.flatMap (fun sb => sb.Bid), bidder.LookupBidID b.ImpID ≠ "" := by
        intro b hb
        apply hknown b
        simp only [List.flatMap_cons, List.mem_append]
        exact Or.inr hb
      unfold sovrn.Call.rangeSeatBid
      rw [sovrn.Call_rangeBid_known lib bidder sb.Bid bids hsb]
      dsimp only
      rw [ih _ hrest]
      simp [List.append_assoc]

/-- C20. The response phase of the legacy sovrn `Call` on status 200, a body that decodes,
and bids whose impression identifiers are all known ad-unit codes, returns no error and
exactly one bid per bid of the response, counted across all seat bids: the returned bids
are, up to the order `sort.Sort` leaves them in, the bids of the response each turned into
a bid with the ad-unit code equal to the impression identifier, the bidder code of the
bidder, and price, creative ID, width, height, deal ID and win-notice URL copied, the
markup being the query-unescaped markup of the response bid. -/
theorem sovrn.Call_one_bid_per_response_bid (env : Stdlib) (lib : LegacyLib)
    (bidder : pbs.PBSBidder) (body : String) (bidResp : BidResponse)
    (hbody : env.unmarshalBidResponse body = .ok bidResp)
    (hknown : ∀ b ∈ allBids bidResp, bidder.LookupBidID b.ImpID ≠ "") :
    (sovrn.Call.response env lib bidder 200 body).2 = none
    ∧ (sovrn.Call.response env lib bidder 200 body).1.length = (allBids bidResp).length
    ∧ (sovrn.Call.response env lib bidder 200 body).1.Perm
        ((allBids bidResp).map (fun bid =>
          (⟨bidder.LookupBidID bid.ImpID, bid.ImpID, bidder.BidderCode, bid.Price,
            (match lib.QueryUnescape bid.AdM with
              | .ok u => u
              | .error _ => ""),
            bid.CrID, bid.W, bid.H, bid.DealID, bid.NURL⟩ : pbs.PBSBid)))
    ∧ ∀ pbid ∈ (sovrn.Call.response env lib bidder 200 body).1,
        ∃ bid ∈ allBids bidResp,
          pbid.AdUnitCode = bid.ImpID ∧ pbid.BidderCode = bidder.BidderCode
          ∧ pbid.Price = bid.Price ∧ pbid.Creative_id = bid.CrID
          ∧ pbid.Width = bid.W ∧ pbid.Height = bid.H
          ∧ pbid.DealId = bid.DealID ∧ pbid.NURL = bid.NURL
          ∧ ∀ u, lib.QueryUnescape bid.AdM = .ok u → pbid.Adm = u := by
  have hrun := sovrn.Call_rangeSeatBid_known lib bidder bidResp.SeatBid [] hknown
  have hres : sovrn.Call.response env lib bidder 200 body
      = (lib.SortSlice ((allBids bidResp).map (fun bid =>
          (⟨bidder.LookupBidID bid.ImpID, bid.ImpID, bidder.BidderCode, bid.Price,
            (match lib.QueryUnescape bid.AdM with
              | .ok u => u
              | .error _ => ""),
            bid.CrID, bid.W, bid.H, bid.DealID, bid.NURL⟩ : pbs.PBSBid))), none) := by
    unfold sovrn.Call.response
    rw [if_neg (by decide), if_neg (by decide), hbody]
    dsimp only
    rw [hrun]
    rfl
  rw [hres]
  have hperm := lib.SortSlice_perm ((allBids bidResp).map (fun bid =>
    (⟨bidder.LookupBidID bid.ImpID, bid.ImpID, bidder.BidderCode, bid.Price,
      (match lib.QueryUnescape bid.AdM with
        | .ok u => u
        | .error _ => ""),
      bid.CrID, bid.W, bid.H, bid.DealID, bid.NURL⟩ : pbs.PBSBid)))
  refine ⟨rfl, ?_, hperm, ?_⟩
  · rw [hperm.length_eq, List.length_map]
  · intro pbid hmem
    have hmem1 := hperm.mem_iff.mp hmem
    obtain ⟨bid, hbid, heq⟩ := List.mem_map.mp hmem1
    refine ⟨bid, hbid, ?_⟩
    subst heq
    refine ⟨rfl, rfl, rfl, rfl, rfl, rfl, rfl, rfl, ?_⟩
    intro u hu
    simp only [hu]

/-- C20 on a response of two seat bids with three bids, two on `A` and one on `B`, for
the bidder with ad units `A` and `B`. -/
theorem sovrn.Call_one_bid_per_response_bid_witness :
    allBids ⟨"r", [⟨[Example.bidA, Example.bidAudio], "s"⟩, ⟨[Example.bidB], "t"⟩]⟩
      = [Example.bidA, Example.bidAudio, Example.bidB]
    ∧ (sovrn.Call.response Example.stdlib Example.legacyLib Example.bidder 200
        "A,audio,B").2 = none
    ∧ (sovrn.Call.response Example.stdlib Example.legacyLib Example.bidder 200
        "A,audio,B").1.length
      = (allBids
          ⟨"r", [⟨[Example.bidA, Example.bidAudio], "s"⟩, ⟨[Example.bidB], "t"⟩]⟩).length
    ∧ (sovrn.Call.response Example.stdlib Example.legacyLib Example.bidder 200
        "A,audio,B").1.Perm
        ((allBids
            ⟨"r", [⟨[Example.bidA, Example.bidAudio], "s"⟩, ⟨[Example.bidB], "t"⟩]⟩).map
          (fun bid =>
            (⟨Example.bidder.LookupBidID bid.ImpID, bid.ImpID, Example.bidder.BidderCode,
              bid.Price,
              (match Example.legacyLib.QueryUnescape bid.AdM with
                | .ok u => u
                | .error _ => ""),
              bid.CrID, bid.W, bid.H, bid.DealID, bid.NURL⟩ : pbs.PBSBid)))
    ∧ ∀ pbid ∈ (sovrn.Call.response Example.stdlib Example.legacyLib Example.bidder 200
          "A,audio,B").1,
        ∃ bid ∈ allBids
            ⟨"r", [⟨[Example.bidA, Example.bidAudio], "s"⟩, ⟨[Example.bidB], "t"⟩]⟩,
          pbid.AdUnitCode = bid.ImpID ∧ pbid.BidderCode = Example.bidder.BidderCode
          ∧ pbid.Price = bid.Price ∧ pbid.Creative_id = bid.CrID
          ∧ pbid.Width = bid.W ∧ pbid.Height = bid.H
          ∧ pbid.DealId = bid.DealID ∧ pbid.NURL = bid.NURL
          ∧ ∀ u, Example.legacyLib.QueryUnescape bid.AdM = .ok u → pbid.Adm = u :=
  ⟨rfl, sovrn.Call_one_bid_per_response_bid Example.stdlib Example.legacyLib Example.bidder
    "A,audio,B" ⟨"r", [⟨[Example.bidA, Example.bidAudio], "s"⟩, ⟨[Example.bidB], "t"⟩]⟩ rfl
    (by decide)⟩

/-- The scenarios of the tests of `Call`: a response bidding on one of two ad units gives
one bid, a response bidding on both gives two, the markup unescaped, and a bid on an
unknown ad unit gives the failure `Unknown ad unit code` and no bid. -/
theorem sovrn.Call_scenarios :
    sovrn.Call.response Example.stdlib Example.legacyLib Example.bidder 200 "A"
      = ([⟨"Bid-1", "A", "sovrn", ⟨210⟩, "<div>ad</div>", "Cr-234", 728, 90, "", ""⟩], none)
    ∧ sovrn.Call.response Example.stdlib Example.legacyLib Example.bidder 200 "AB"
      = ([⟨"Bid-1", "A", "sovrn", ⟨210⟩, "<div>ad</div>", "Cr-234", 728, 90, "", ""⟩,
          ⟨"Bid-2", "B", "sovrn", ⟨150⟩, "<vast/>", "Cr-7", 640, 480, "deal", "http://win"⟩],
        none)
    ∧ sovrn.Call.response Example.stdlib Example.legacyLib Example.bidder 200 "AX"
      = ([], some (.errorString "Unknown ad unit code \x27X\x27"))
    ∧ sovrn.Call.response Example.stdlib Example.legacyLib Example.bidder 204 "AB"
      = ([], none) := by
  refine ⟨?_, ?_, ?_, ?_⟩ <;> rfl

/-! ## The user sync of sovrn -/

/-- What `NewSovrnAdapter` builds, for every endpoint, user-sync base URL and external
URL: type `redirect`, and the base URL followed by `redir=` and the escaped redirect URI
whose user ID stands as `$UID`. -/
theorem sovrn.NewSovrnAdapter_usersync (endpoint u e : String) :
    (sovrn.NewSovrnAdapter endpoint u e).GetUsersyncInfo.Type_ = "redirect"
    ∧ (sovrn.NewSovrnAdapter endpoint u e).GetUsersyncInfo.URL
        = u ++ "redir=" ++ url.QueryEscape (e ++ "/setuid?bidder=sovrn&uid=$UID")
    ∧ (sovrn.NewSovrnAdapter endpoint u e).URI = endpoint :=
  ⟨rfl, rfl, rfl⟩

/-- The URL `NewSovrnAdapter` builds is, for no arguments at all, the base URL followed by
`location=` and something: after the base URL it goes on with `redir=`. -/
theorem sovrn.NewSovrnAdapter_usersync_not_location (endpoint u e x : String) :
    (sovrn.NewSovrnAdapter endpoint u e).GetUsersyncInfo.URL ≠ u ++ "location=" ++ x := by
  intro h
  have h1 : u ++ "redir=" ++ url.QueryEscape (e ++ "/setuid?bidder=sovrn&uid=$UID")
      = u ++ "location=" ++ x := h
  have h2 := congrArg String.data h1
  simp only [String.data_append, List.append_assoc] at h2
  have h3 := List.append_cancel_left h2
  simp only [List.cons_append, List.cons.injEq] at h3
  exact absurd h3.1 (by decide)

/-- C21 fails on the code: with the arguments of `TestSovrnUserSyncInfo` the adapter built
by `NewSovrnAdapter` reports the type `redirect` and a URL that reads `redir=` where the
test expects `location=` and ends in the escaped `$UID` where the test expects the escaped
`[SOVRNID]`; the escaping itself is the one the test expects. -/
theorem sovrn.NewSovrnAdapter_usersync_url :
    Example.testAdapter.GetUsersyncInfo.Type_ = "redirect"
    ∧ Example.testAdapter.GetUsersyncInfo.URL
        = "http://sovrn/userSync?redir=http%3A%2F%2Flocalhost%3A8000%2Fsetuid%3Fbidder%3Dsovrn%26uid%3D%24UID"
    ∧ "http://sovrn/userSync?" ++ "location="
          ++ url.QueryEscape ("http://localhost:8000" ++ "/setuid?bidder=sovrn&uid=[SOVRNID]")
        = Example.testURL
    ∧ Example.testAdapter.GetUsersyncInfo.URL ≠ Example.testURL := by
  refine ⟨rfl, by decide, by decide, by decide⟩

/-! ## Absent blocks of a request -/

/-- The loop of verizonmedia `MakeRequests` on a request without a site block panics as
soon as an impression has valid parameters: `siteCopy := *request.Site` reads through the
nil pointer. The impressions with invalid parameters before it only add their failures. -/
theorem verizonmedia.rangeImp_no_site (env : Stdlib) (a : verizonmedia.VerizonMediaAdapter)
    (request : BidRequest) (headers : Header) (hsite : request.Site = none) :
    ∀ (imps : List Imp) (idx : Nat) (st : Heap × List RequestData × List GoError),
      (∃ imp ∈ imps, verizonmedia.paramsFailure env imp.Ext = none) →
      verizonmedia.MakeRequests.rangeImp env a request headers idx imps st
        = .error .nilDereference := by
  intro imps
  induction imps with
  | nil =>
      intro idx st hex
      obtain ⟨imp, himp, -⟩ := hex
      cases himp
  | cons imp rest ih =>
      intro idx st hex
      obtain ⟨h, reqs, errs⟩ := st
      cases hpf : verizonmedia.paramsFailure env imp.Ext with
      | some suffix =>
          rw [verizonmedia.rangeImp_invalid env a request headers idx imp rest h reqs errs
            suffix hpf]
          apply ih
          obtain ⟨x, hx, hxv⟩ := hex
          rcases List.mem_cons.1 hx with rfl | hx1
          · rw [hpf] at hxv; cases hxv
          · exact ⟨x, hx1, hxv⟩
      | none =>
          unfold verizonmedia.paramsFailure at hpf
          rw [verizonmedia.MakeRequests.rangeImp]
          cases hd1 : env.unmarshalExtImpBidder imp.Ext with
          | error e1 => rw [hd1] at hpf; cases hpf
          | ok bidderExt =>
              rw [hd1] at hpf
              dsimp only at hpf ⊢
              cases hd2 : env.unmarshalExtImpVerizonMedia bidderExt.Bidder with
              | error e2 => rw [hd2] at hpf; cases hpf
              | ok x =>
                  rw [hd2] at hpf
                  dsimp only at hpf ⊢
                  by_cases hdcn : x.Dcn = ""
                  · rw [if_pos hdcn] at hpf; cases hpf
                  · rw [if_neg hdcn] at hpf
                    by_cases hpos : x.Pos = ""
                    · rw [if_pos hpos] at hpf; cases hpf
                    · rw [if_neg hdcn, if_neg hpos, hsite]

/-- On a request without a site block and with at least one impression of valid
parameters, verizonmedia `MakeRequests` panics. -/
theorem verizonmedia.MakeRequests_no_site (env : Stdlib) (a : verizonmedia.VerizonMediaAdapter)
    (h : Heap) (request : BidRequest) (hsite : request.Site = none)
    (hvalid : ∃ imp ∈ request.Imp, verizonmedia.paramsFailure env imp.Ext = none) :
    verizonmedia.MakeRequests env a h request = .error .nilDereference := by
  have hne : ¬ request.Imp.length = 0 := by
    obtain ⟨imp, himp, -⟩ := hvalid
    intro h0
    rw [List.length_eq_zero] at h0
    rw [h0] at himp
    cases himp
  unfold verizonmedia.MakeRequests
  rw [if_neg hne,
    verizonmedia.rangeImp_no_site env a request _ hsite request.Imp 0 (h, [], []) hvalid]

/-- Once its loop has kept an impression and the request has been serialised, sovrn
`MakeRequests` reads `request.Device.UA` and `request.User.BuyerUID`: without a device or
without a user block it panics. -/
theorem sovrn.MakeRequests_no_device_or_user (env : Stdlib) (s : sovrn.SovrnAdapter)
    (h : Heap) (request : BidRequest) (imps : List Imp) (h1 : Heap) (errs : List GoError)
    (t : BidRequestTree) (js : String)
    (hloop : sovrn.MakeRequests.loop env request.Imp.length 0 request.Imp h []
      = .ok (imps, h1, errs))
    (hkept : imps ≠ [])
    (ht : h1.tree { request with Imp := imps } = .ok t)
    (hjs : env.marshalBidRequest t = .ok js)
    (habsent : request.Device = none ∨ request.User = none) :
    sovrn.MakeRequests env s h request = .error .nilDereference := by
  have hlen : ¬ imps.length = 0 := by
    intro h0
    exact hkept (List.length_eq_zero.1 h0)
  unfold sovrn.MakeRequests
  rw [hloop]
  dsimp only
  rw [if_neg hlen, ht]
  dsimp only
  rw [hjs]
  dsimp only
  rcases habsent with hd | hu
  · rw [hd]
  · rw [hu]
    cases request.Device <;> rfl

/-- C22 fails on the code: `MakeRequests` is not total. For the banner impression `A`
with valid parameters, sovrn panics on the request without a device block and on the
request without a user block, and verizonmedia panics on the request without a site block;
sovrn also panics on the request with all blocks whose impression has valid parameters and
no banner sub-object. No failure record is returned in any of the four runs. -/
theorem MakeRequests_absent_block_panics :
    (Example.requestNoDevice.Device = none
      ∧ sovrn.params Example.stdlib Example.impA.Ext = some ⟨111, ⟨5⟩⟩
      ∧ sovrn.MakeRequests Example.stdlib Example.sovrnAdapter Example.heap
          Example.requestNoDevice = .error .nilDereference)
    ∧ (Example.requestNoUser.User = none
      ∧ sovrn.MakeRequests Example.stdlib Example.sovrnAdapter Example.heap
          Example.requestNoUser = .error .nilDereference)
    ∧ (Example.requestNoSite.Site = none
      ∧ verizonmedia.params Example.stdlib Example.impA.Ext = some ⟨"dcn-A", "111"⟩
      ∧ verizonmedia.MakeRequests Example.stdlib Example.verizon Example.heap
          Example.requestNoSite = .error .nilDereference)
    ∧ (Example.impBare.Banner = none
      ∧ sovrn.params Example.stdlib Example.impBare.Ext = some ⟨111, ⟨5⟩⟩
      ∧ sovrn.MakeRequests Example.stdlib Example.sovrnAdapter Example.heap
          Example.requestBare = .error .nilDereference) := by
  refine ⟨⟨rfl, rfl, rfl⟩, ⟨rfl, rfl⟩, ⟨rfl, rfl, rfl⟩, ⟨rfl, rfl, rfl⟩⟩

/-- Where C22 holds: verizonmedia `MakeRequests` tests the device block and the banner
before reading them, and sovrn `MakeRequests` never reads the site block. On the request
whose impression has no banner sub-object verizonmedia builds the envelope, on the
request without device and user blocks it does so without the `User-Agent` header, and
sovrn shapes the request without a site block. -/
theorem MakeRequests_absent_block_handled :
    (∃ r, verizonmedia.MakeRequests Example.stdlib Example.verizon Example.heap
          Example.requestBare = .ok r
      ∧ r.reqs = [⟨"POST", "http://verizon/bid", "dcn-A|D:111;", Example.verizonHeaders⟩]
      ∧ r.errs = [])
    ∧ (∃ r, verizonmedia.MakeRequests Example.stdlib Example.verizon Example.heap
          ⟨"req", [Example.impA], some 0, none, none, none⟩ = .ok r
      ∧ r.reqs = [⟨"POST", "http://verizon/bid", "dcn-A|A:111;",
          [("Content-Type", "application/json;charset=utf-8"), ("Accept", "application/json"),
            ("x-openrtb-version", "2.5")]⟩]
      ∧ r.errs = [])
    ∧ (∃ r, sovrn.MakeRequests Example.stdlib Example.sovrnAdapter Example.heap
          Example.requestNoSite = .ok r
      ∧ r.reqs.map (fun rd => rd.Body) = ["|A:111;"]
      ∧ r.errs = []) :=
  ⟨⟨_, rfl, rfl, rfl⟩, ⟨_, rfl, rfl, rfl⟩, ⟨_, rfl, rfl, rfl⟩⟩

/-! ## The bid a typed bid points to -/

/-- The inner loop of sovrn `MakeBids`, its variable in the last cell: every typed bid it
appends holds the address of that cell, and the cell ends up holding the last bid of the
seat bid. -/
theorem sovrn.rangeBid_last_cell (imps : List Imp) :
    ∀ (bs : List Bid) (bids : List TypedBid) (cells : BidCells) (z : Bid),
      sovrn.MakeBids.rangeBid imps cells.length bs (bids, cells ++ [z])
        = (bids ++ bs.map (fun b => ⟨cells.length, sovrn.getMediaTypeForImp b.ImpID imps⟩),
            cells ++ [bs.getLast?.getD z]) := by
  intro bs
  induction bs with
  | nil => intro bids cells z; simp [sovrn.MakeBids.rangeBid]
  | cons b rest ih =>
      intro bids cells z
      rw [sovrn.MakeBids.rangeBid, List.set_last, ih, List.getLast?_cons]
      simp [List.append_assoc]

/-- The outer loop of sovrn `MakeBids`: one typed bid per bid of the response, typed by
`getMediaTypeForImp` on the impression identifier of its own bid, and pointing to the
cell of its seat bid, which holds the last bid of that seat bid. -/
theorem sovrn.rangeSeatBid_aliases (imps : List Imp) :
    ∀ (sbs : List SeatBid) (bids : List TypedBid) (cells : BidCells),
      (∀ t ∈ bids, t.Bid < cells.length) →
      (∀ t ∈ (sovrn.MakeBids.rangeSeatBid imps sbs (bids, cells)).1,
          t.Bid < (sovrn.MakeBids.rangeSeatBid imps sbs (bids, cells)).2.length)
      ∧ (sovrn.MakeBids.rangeSeatBid imps sbs (bids, cells)).1.map
            (fun t => ((sovrn.MakeBids.rangeSeatBid imps sbs (bids, cells)).2[t.Bid]?,
              t.BidType))
          = bids.map (fun t => (cells[t.Bid]?, t.BidType))
            ++ sbs.flatMap (fun sb => sb.Bid.map
                (fun b => (sb.Bid.getLast?, sovrn.getMediaTypeForImp b.ImpID imps))) := by
  intro sbs
  induction sbs with
  | nil =>
      intro bids cells hlt
      exact ⟨hlt, by simp [sovrn.MakeBids.rangeSeatBid]⟩
  | cons sb rest ih =>
      intro bids cells hlt
      have hlt1 : ∀ t ∈ bids ++ sb.Bid.map
            (fun b => (⟨cells.length, sovrn.getMediaTypeForImp b.ImpID imps⟩ : TypedBid)),
          t.Bid < (cells ++ [sb.Bid.getLast?.getD Bid.zero]).length := by
        intro t ht
        simp only [List.length_append, List.length_singleton]
        rcases List.mem_append.1 ht with h1 | h1
        · exact Nat.lt_succ_of_lt (hlt t h1)
        · obtain ⟨b, -, rfl⟩ := List.mem_map.1 h1
          exact Nat.lt_succ_self _
      obtain ⟨hlt2, hmap⟩ := ih _ _ hlt1
      rw [sovrn.MakeBids.rangeSeatBid, sovrn.rangeBid_last_cell]
      refine ⟨hlt2, ?_⟩
      rw [hmap]
      simp only [List.map_append, List.map_map, List.flatMap_cons, List.append_assoc]
      congr 1
      · apply List.map_congr_left
        intro t ht
        simp only [Prod.mk.injEq, and_true]
        exact List.getElem?_append_left (hlt t ht)
      · congr 1
        apply List.map_congr_left
        intro b hb
        simp only [Function.comp, List.getElem?_concat_length, Prod.mk.injEq, and_true]
        cases hbs : sb.Bid with
        | nil => rw [hbs] at hb; cases hb
        | cons x xs => rw [List.getLast?_cons]; rfl

/-- What sovrn `MakeBids` returns on status 200 and a decodable response, for every
request and response: no failure, one typed bid per bid of the response in seat-bid then
bid order, typed by `getMediaTypeForImp` on the impression identifier of its own bid; the
bid it points to is the last bid of its seat bid. -/
theorem sovrn.MakeBids_points_to_last (env : Stdlib) (request : BidRequest)
    (rd : RequestData) (body : String) (resp : BidResponse)
    (hdec : env.unmarshalBidResponse body = .ok resp) :
    (sovrn.MakeBids env request rd ⟨200, body⟩).errs = []
    ∧ (sovrn.MakeBids env request rd ⟨200, body⟩).bids.length = (allBids resp).length
    ∧ (sovrn.MakeBids env request rd ⟨200, body⟩).bids.map
          (fun t => (TypedBid.deref (sovrn.MakeBids env request rd ⟨200, body⟩).cells t,
            t.BidType))
        = resp.SeatBid.flatMap (fun sb => sb.Bid.map
            (fun b => (sb.Bid.getLast?, sovrn.getMediaTypeForImp b.ImpID request.Imp))) := by
  have hres : sovrn.MakeBids env request rd ⟨200, body⟩
      = ⟨(sovrn.MakeBids.rangeSeatBid request.Imp resp.SeatBid ([], [])).1, [],
          (sovrn.MakeBids.rangeSeatBid request.Imp resp.SeatBid ([], [])).2⟩ := by
    simp [sovrn.MakeBids, hdec]
  obtain ⟨-, hmap⟩ := sovrn.rangeSeatBid_aliases request.Imp resp.SeatBid [] []
    (by intro t ht; cases ht)
  have hmap1 : (sovrn.MakeBids.rangeSeatBid request.Imp resp.SeatBid ([], [])).1.map
        (fun t => (TypedBid.deref
          (sovrn.MakeBids.rangeSeatBid request.Imp resp.SeatBid ([], [])).2 t, t.BidType))
      = resp.SeatBid.flatMap (fun sb => sb.Bid.map
          (fun b => (sb.Bid.getLast?, sovrn.getMediaTypeForImp b.ImpID request.Imp))) := by
    simpa [TypedBid.deref] using hmap
  rw [hres]
  refine ⟨rfl, ?_, hmap1⟩
  have hlen := congrArg List.length hmap1
  rw [List.length_map] at hlen
  dsimp only
  rw [hlen]
  simp only [allBids, List.length_flatMap]
  congr 1
  apply List.map_congr_left
  intro sb _
  simp

/-- Where every seat bid of the response carries at most one bid, each typed bid of sovrn
`MakeBids` points to its own bid. -/
theorem sovrn.MakeBids_single_bid_seats (env : Stdlib) (request : BidRequest)
    (rd : RequestData) (body : String) (resp : BidResponse)
    (hdec : env.unmarshalBidResponse body = .ok resp)
    (hone : ∀ sb ∈ resp.SeatBid, sb.Bid.length ≤ 1) :
    (sovrn.MakeBids env request rd ⟨200, body⟩).bids.map
        (fun t => (TypedBid.deref (sovrn.MakeBids env request rd ⟨200, body⟩).cells t,
          t.BidType))
      = (allBids resp).map
          (fun b => (some b, sovrn.getMediaTypeForImp b.ImpID request.Imp)) := by
  rw [(sovrn.MakeBids_points_to_last env request rd body resp hdec).2.2]
  simp only [allBids, List.map_flatMap]
  apply List.flatMap_congr
  intro sb hsb
  have h1 := hone sb hsb
  cases hbs : sb.Bid with
  | nil => rfl
  | cons x xs =>
      rw [hbs] at h1
      have hxs : xs = [] := by
        cases xs with
        | nil => rfl
        | cons y ys => simp at h1
      subst hxs
      rfl

/-- C23 fails on the code: on a response whose one seat bid carries a bid on `A` and a
bid on `B`, sovrn `MakeBids` returns two typed bids holding the same address, that of the
loop variable, which holds the bid on `B` once the loop is over; the first typed bid does
not carry the data of the bid on `A`, and the two are not distinct bids. -/
theorem sovrn.MakeBids_same_seat_aliased :
    Example.stdlib.unmarshalBidResponse "AB"
      = .ok ⟨"r", [⟨[Example.bidA, Example.bidB], "s"⟩]⟩
    ∧ sovrn.MakeBids Example.stdlib Example.requestAB Example.envelope ⟨200, "AB"⟩
        = ⟨[⟨0, BidTypeBanner⟩, ⟨0, BidTypeBanner⟩], [], [Example.bidB]⟩
    ∧ (sovrn.MakeBids Example.stdlib Example.requestAB Example.envelope ⟨200, "AB"⟩).bids.map
          (TypedBid.deref
            (sovrn.MakeBids Example.stdlib Example.requestAB Example.envelope
              ⟨200, "AB"⟩).cells)
        = [some Example.bidB, some Example.bidB]
    ∧ (sovrn.MakeBids Example.stdlib Example.requestAB Example.envelope ⟨200, "AB"⟩).bids.map
          (TypedBid.deref
            (sovrn.MakeBids Example.stdlib Example.requestAB Example.envelope
              ⟨200, "AB"⟩).cells)
        ≠ [some Example.bidA, some Example.bidB] := by
  refine ⟨rfl, by decide, by decide, by decide⟩

/-- The inner loop of verizonmedia `MakeBids` on bids of known impressions, its variable
in the last cell: a typed bid is appended for every bid whose impression declares a
banner, each holds the address of that cell, and the cell ends up holding the last bid of
the seat bid, kept or not. -/
theorem verizonmedia.rangeBid_banner_last_cell (imps : List Imp) :
    ∀ (bs : List Bid) (bids : List TypedBid) (cells : BidCells) (z : Bid),
      (∀ b ∈ bs, (verizonmedia.getImpInfo b.ImpID imps).1 = true) →
      verizonmedia.MakeBids.rangeBid imps cells.length bs (bids, cells ++ [z])
        = .ok (bids ++ (bs.filter (fun b =>
                decide (BidTypeBanner = (verizonmedia.getImpInfo b.ImpID imps).2))).map
                  (fun _ => ⟨cells.length, BidTypeBanner⟩),
            cells ++ [bs.getLast?.getD z]) := by
  intro bs
  induction bs with
  | nil => intro bids cells z _; simp [verizonmedia.MakeBids.rangeBid]
  | cons b rest ih =>
      intro bids cells z hknown
      have hb : (verizonmedia.getImpInfo b.ImpID imps).1 = true :=
        hknown b (List.mem_cons_self _ _)
      have hrest : ∀ x ∈ rest, (verizonmedia.getImpInfo x.ImpID imps).1 = true :=
        fun x hx => hknown x (List.mem_cons_of_mem _ hx)
      rw [verizonmedia.MakeBids.rangeBid]
      simp only [hb, Bool.not_true, Bool.false_eq_true, if_false, List.set_last]
      by_cases hm : BidTypeBanner = (verizonmedia.getImpInfo b.ImpID imps).2
      · rw [if_neg (not_not.2 hm), ih _ _ _ hrest, List.getLast?_cons]
        simp [List.filter_cons, hm.symm, List.append_assoc]
      · rw [if_pos hm, ih _ _ _ hrest, List.getLast?_cons]
        simp [List.filter_cons, hm]

/-- The outer loop of verizonmedia `MakeBids` on bids of known impressions: it returns,
with one typed bid for every bid whose impression declares a banner, in seat-bid then bid
order and typed banner; each points to the cell of its seat bid, which holds the last bid
of that seat bid. -/
theorem verizonmedia.rangeSeatBid_banner_aliases (imps : List Imp) :
    ∀ (sbs : List SeatBid) (bids : List TypedBid) (cells : BidCells),
      (∀ b ∈ sbs.flatMap (fun sb => sb.Bid), (verizonmedia.getImpInfo b.ImpID imps).1 = true) →
      (∀ t ∈ bids, t.Bid < cells.length) →
      ∃ bids1 cells1,
        verizonmedia.MakeBids.rangeSeatBid imps sbs (bids, cells) = .ok (bids1, cells1)
        ∧ (∀ t ∈ bids1, t.Bid < cells1.length)
        ∧ bids1.map (fun t => (cells1[t.Bid]?, t.BidType))
            = bids.map (fun t => (cells[t.Bid]?, t.BidType))
              ++ sbs.flatMap (fun sb =>
                  (sb.Bid.filter (fun b =>
                    decide (BidTypeBanner = (verizonmedia.getImpInfo b.ImpID imps).2))).map
                      (fun _ => (sb.Bid.getLast?, BidTypeBanner))) := by
  intro sbs
  induction sbs with
  | nil =>
      intro bids cells _ hlt
      exact ⟨bids, cells, rfl, hlt, by simp⟩
  | cons sb rest ih =>
      intro bids cells hknown hlt
      have hsb : ∀ b ∈ sb.Bid, (verizonmedia.getImpInfo b.ImpID imps).1 = true := by
        intro b hb
        apply hknown b
        simp only [List.flatMap_cons, List.mem_append]
        exact Or.inl hb
      have hrest : ∀ b ∈ rest.flatMap (fun sb => sb.Bid),
          (verizonmedia.getImpInfo b.ImpID imps).1 = true := by
        intro b hb
        apply hknown b
        simp only [List.flatMap_cons, List.mem_append]
        exact Or.inr hb
      have hlt1 : ∀ t ∈ bids ++ (sb.Bid.filter (fun b =>
            decide (BidTypeBanner = (verizonmedia.getImpInfo b.ImpID imps).2))).map
              (fun _ => (⟨cells.length, BidTypeBanner⟩ : TypedBid)),
          t.Bid < (cells ++ [sb.Bid.getLast?.getD Bid.zero]).length := by
        intro t ht
        simp only [List.length_append, List.length_singleton]
        rcases List.mem_append.1 ht with h1 | h1
        · exact Nat.lt_succ_of_lt (hlt t h1)
        · obtain ⟨b, -, rfl⟩ := List.mem_map.1 h1
          exact Nat.lt_succ_self _
      obtain ⟨bids1, cells1, heq, hlt2, hmap⟩ := ih _ _ hrest hlt1
      refine ⟨bids1, cells1, ?_, hlt2, ?_⟩
      · rw [verizonmedia.MakeBids.rangeSeatBid,
          verizonmedia.rangeBid_banner_last_cell imps sb.Bid bids cells Bid.zero hsb]
        exact heq
      · rw [hmap]
        simp only [List.map_append, List.map_map, List.flatMap_cons, List.append_assoc]
        congr 1
        · apply List.map_congr_left
          intro t ht
          simp only [Prod.mk.injEq, and_true]
          exact List.getElem?_append_left (hlt t ht)
        · congr 1
          apply List.map_congr_left
          intro b hb
          have hmem : b ∈ sb.Bid := (List.mem_filter.1 hb).1
          simp only [Function.comp, List.getElem?_concat_length, Prod.mk.injEq, and_true]
          cases hbs : sb.Bid with
          | nil => rw [hbs] at hmem; cases hmem
          | cons x xs => rw [List.getLast?_cons]; rfl

/-- What verizonmedia `MakeBids` returns on status 200 and a decodable response with at
least one seat bid whose bids are all on impressions of the request: no failure, and one
typed bid, typed banner, for every bid whose impression declares a banner, in seat-bid
then bid order; the bid it points to is the last bid of its seat bid. -/
theorem verizonmedia.MakeBids_banner_points_to_last (env : Stdlib) (request : BidRequest)
    (rd : RequestData) (body : String) (resp : BidResponse)
    (hdec : env.unmarshalBidResponse body = .ok resp)
    (hseat : 1 ≤ resp.SeatBid.length)
    (hknown : ∀ b ∈ allBids resp, (verizonmedia.getImpInfo b.ImpID request.Imp).1 = true) :
    ∃ bids cells,
      verizonmedia.MakeBids env request rd ⟨200, body⟩ = ⟨some ⟨"USD", bids⟩, [], cells⟩
      ∧ bids.map (fun t => (TypedBid.deref cells t, t.BidType))
          = resp.SeatBid.flatMap (fun sb =>
              (sb.Bid.filter (fun b =>
                decide (BidTypeBanner
                  = (verizonmedia.getImpInfo b.ImpID request.Imp).2))).map
                  (fun _ => (sb.Bid.getLast?, BidTypeBanner))) := by
  obtain ⟨bids1, cells1, heq, -, hmap⟩ :=
    verizonmedia.rangeSeatBid_banner_aliases request.Imp resp.SeatBid [] [] hknown
      (by intro t ht; cases ht)
  refine ⟨bids1, cells1, ?_, ?_⟩
  · have hnot : ¬ resp.SeatBid.length < 1 := Nat.not_lt.2 hseat
    simp [verizonmedia.MakeBids, hdec, hnot, NewBidderResponseWithBidsCapacity, heq]
  · simpa [TypedBid.deref] using hmap

/-- Filtering the bids of all seat bids is filtering seat bid by seat bid. -/
theorem List.filter_flatMap_bids (p : Bid → Bool) (sbs : List SeatBid) :
    (sbs.flatMap (fun sb => sb.Bid)).filter p = sbs.flatMap (fun sb => sb.Bid.filter p) := by
  induction sbs with
  | nil => rfl
  | cons sb rest ih => simp only [List.flatMap_cons, List.filter_append, ih]

/-- Where every seat bid of the response carries at most one bid, verizonmedia `MakeBids`
returns exactly the bids whose impression declares a banner, each typed bid pointing to
its own bid. -/
theorem verizonmedia.MakeBids_banner_single_bid_seats (env : Stdlib) (request : BidRequest)
    (rd : RequestData) (body : String) (resp : BidResponse)
    (hdec : env.unmarshalBidResponse body = .ok resp)
    (hseat : 1 ≤ resp.SeatBid.length)
    (hknown : ∀ b ∈ allBids resp, (verizonmedia.getImpInfo b.ImpID request.Imp).1 = true)
    (hone : ∀ sb ∈ resp.SeatBid, sb.Bid.length ≤ 1) :
    ∃ bids cells,
      verizonmedia.MakeBids env request rd ⟨200, body⟩ = ⟨some ⟨"USD", bids⟩, [], cells⟩
      ∧ bids.map (fun t => (TypedBid.deref cells t, t.BidType))
          = ((allBids resp).filter (fun b =>
              decide (BidTypeBanner
                = (verizonmedia.getImpInfo b.ImpID request.Imp).2))).map
                (fun b => (some b, BidTypeBanner)) := by
  obtain ⟨bids, cells, heq, hmap⟩ :=
    verizonmedia.MakeBids_banner_points_to_last env request rd body resp hdec hseat hknown
  refine ⟨bids, cells, heq, ?_⟩
  rw [hmap, allBids, List.filter_flatMap_bids, List.map_flatMap]
  apply List.flatMap_congr
  intro sb hsb
  have h1 := hone sb hsb
  cases hbs : sb.Bid with
  | nil => rfl
  | cons x xs =>
      rw [hbs] at h1
      have hxs : xs = [] := by
        cases xs with
        | nil => rfl
        | cons y ys => simp at h1
      subst hxs
      by_cases hx : BidTypeBanner = (verizonmedia.getImpInfo x.ImpID request.Imp).2
      · simp [List.filter_cons, hx.symm]
      · simp [List.filter_cons, hx]

/-- The scenario of the spec: for impressions `A` and `B`, a response bidding on `A` only
gives one bid, the bid on `A`, typed banner, and no error. -/
theorem verizonmedia.MakeBids_bid_for_A_only :
    Example.stdlib.unmarshalBidResponse "A" = .ok ⟨"r", [⟨[Example.bidA], "s"⟩]⟩
    ∧ verizonmedia.MakeBids Example.stdlib Example.requestAB Example.envelope ⟨200, "A"⟩
        = ⟨some ⟨"USD", [⟨0, BidTypeBanner⟩]⟩, [], [Example.bidA]⟩
    ∧ TypedBid.deref [Example.bidA] ⟨0, BidTypeBanner⟩ = some Example.bidA := by
  refine ⟨rfl, by decide, by decide⟩

/-- C24 fails on the code: on a response whose one seat bid carries a bid on `A` and a
bid on `B`, both impressions of the request, verizonmedia `MakeBids` records no failure
and (1) where `A` and `B` both declare a banner, returns two typed bids that both point
to the bid on `B`, not the bids on `A` and on `B`; (2) where only `A` declares a banner,
returns one typed bid, and it points to the bid on `B`, the bid that was to be omitted. -/
theorem verizonmedia.MakeBids_banner_bids_aliased :
    Example.stdlib.unmarshalBidResponse "AB"
      = .ok ⟨"r", [⟨[Example.bidA, Example.bidB], "s"⟩]⟩
    ∧ (verizonmedia.getImpInfo "A" Example.requestAB.Imp = (true, BidTypeBanner)
      ∧ verizonmedia.getImpInfo "B" Example.requestAB.Imp = (true, BidTypeBanner)
      ∧ verizonmedia.MakeBids Example.stdlib Example.requestAB Example.envelope ⟨200, "AB"⟩
          = ⟨some ⟨"USD", [⟨0, BidTypeBanner⟩, ⟨0, BidTypeBanner⟩]⟩, [], [Example.bidB]⟩
      ∧ [(⟨0, BidTypeBanner⟩ : TypedBid), ⟨0, BidTypeBanner⟩].map
            (TypedBid.deref [Example.bidB])
          = [some Example.bidB, some Example.bidB]
      ∧ [(⟨0, BidTypeBanner⟩ : TypedBid), ⟨0, BidTypeBanner⟩].map
            (TypedBid.deref [Example.bidB])
          ≠ [some Example.bidA, some Example.bidB])
    ∧ (verizonmedia.getImpInfo "A" Example.requestAVideoB.Imp = (true, BidTypeBanner)
      ∧ verizonmedia.getImpInfo "B" Example.requestAVideoB.Imp = (true, "")
      ∧ verizonmedia.MakeBids Example.stdlib Example.requestAVideoB Example.envelope
            ⟨200, "AB"⟩
          = ⟨some ⟨"USD", [⟨0, BidTypeBanner⟩]⟩, [], [Example.bidB]⟩
      ∧ TypedBid.deref [Example.bidB] ⟨0, BidTypeBanner⟩ = some Example.bidB
      ∧ TypedBid.deref [Example.bidB] ⟨0, BidTypeBanner⟩ ≠ some Example.bidA) := by
  refine ⟨rfl, ⟨by decide, by decide, by decide, by decide, by decide⟩,
    ⟨by decide, by decide, by decide, by decide, by decide⟩⟩

/-! ## What `MakeRequests` of verizonmedia returns, around one impression -/

/-- The envelopes and failures `shapeAll` adds do not depend on those already there. -/
theorem verizonmedia.shapeAll_acc (env : Stdlib) (a : verizonmedia.VerizonMediaAdapter)
    (t : BidRequestTree) (headers : Header) :
    ∀ (its : List (ImpOf Banner)) (idx : Nat) (reqs : List RequestData) (errs : List GoError),
      verizonmedia.shapeAll env a t headers idx its (reqs, errs)
        = match verizonmedia.shapeAll env a t headers idx its ([], []) with
          | .error f => .error f
          | .ok out => .ok (reqs ++ out.1, errs ++ out.2) := by
  intro its
  induction its with
  | nil => intro idx reqs errs; simp [verizonmedia.shapeAll]
  | cons it rest ih =>
      intro idx reqs errs
      simp only [verizonmedia.shapeAll]
      cases hsh : verizonmedia.shapeImp env a t headers idx it with
      | error f => rfl
      | ok res =>
          cases res with
          | error e =>
              simp only [List.nil_append]
              rw [ih (idx + 1) reqs (errs ++ [e]), ih (idx + 1) [] [e]]
              cases verizonmedia.shapeAll env a t headers (idx + 1) rest ([], []) with
              | error f => rfl
              | ok out => simp [List.append_assoc]
          | ok rd =>
              simp only [List.nil_append]
              rw [ih (idx + 1) (reqs ++ [rd]) errs, ih (idx + 1) [rd] []]
              cases verizonmedia.shapeAll env a t headers (idx + 1) rest ([], []) with
              | error f => rfl
              | ok out => simp [List.append_assoc]

/-- Shaping `l1 ++ l2` is shaping `l1` and then `l2`, the index carried on. -/
theorem verizonmedia.shapeAll_append (env : Stdlib) (a : verizonmedia.VerizonMediaAdapter)
    (t : BidRequestTree) (headers : Header) (l2 : List (ImpOf Banner)) :
    ∀ (l1 : List (ImpOf Banner)) (idx : Nat) (st : List RequestData × List GoError),
      verizonmedia.shapeAll env a t headers idx (l1 ++ l2) st
        = match verizonmedia.shapeAll env a t headers idx l1 st with
          | .error f => .error f
          | .ok st1 => verizonmedia.shapeAll env a t headers (idx + l1.length) l2 st1 := by
  intro l1
  induction l1 with
  | nil => intro idx st; simp [verizonmedia.shapeAll]
  | cons it rest ih =>
      intro idx st
      obtain ⟨reqs, errs⟩ := st
      have hidx : idx + (it :: rest).length = idx + 1 + rest.length := by
        simp only [List.length_cons]; omega
      rw [hidx]
      simp only [List.cons_append, verizonmedia.shapeAll]
      cases hsh : verizonmedia.shapeImp env a t headers idx it with
      | error f => rfl
      | ok res =>
          cases res with
          | error e => exact ih (idx + 1) (reqs, errs ++ [e])
          | ok rd => exact ih (idx + 1) (reqs ++ [rd], errs)

/-- Every impression adds exactly one envelope or one failure. -/
theorem verizonmedia.shapeAll_count (env : Stdlib) (a : verizonmedia.VerizonMediaAdapter)
    (t : BidRequestTree) (headers : Header) :
    ∀ (its : List (ImpOf Banner)) (idx : Nat) (reqs : List RequestData) (errs : List GoError)
      (out : List RequestData × List GoError),
      verizonmedia.shapeAll env a t headers idx its (reqs, errs) = .ok out →
      out.1.length + out.2.length = reqs.length + errs.length + its.length := by
  intro its
  induction its with
  | nil =>
      intro idx reqs errs out hout
      simp only [verizonmedia.shapeAll, Except.ok.injEq] at hout
      subst hout
      simp
  | cons it rest ih =>
      intro idx reqs errs out hout
      simp only [verizonmedia.shapeAll] at hout
      cases hsh : verizonmedia.shapeImp env a t headers idx it with
      | error f => rw [hsh] at hout; cases hout
      | ok res =>
          rw [hsh] at hout
          cases res with
          | error e =>
              have := ih (idx + 1) reqs (errs ++ [e]) out hout
              simp only [List.length_append, List.length_cons, List.length_nil] at this ⊢
              omega
          | ok rd =>
              have := ih (idx + 1) (reqs ++ [rd]) errs out hout
              simp only [List.length_append, List.length_cons, List.length_nil] at this ⊢
              omega

/-- The index of an impression only shows in the message of its failure: at another index
a panic is the same panic, an envelope the same envelope, a failure a failure. -/
theorem verizonmedia.shapeImp_reindex (env : Stdlib) (a : verizonmedia.VerizonMediaAdapter)
    (t : BidRequestTree) (headers : Header) (idx idx1 : Nat) (it : ImpOf Banner) :
    match verizonmedia.shapeImp env a t headers idx it with
    | .error f => verizonmedia.shapeImp env a t headers idx1 it = .error f
    | .ok (.ok rd) => verizonmedia.shapeImp env a t headers idx1 it = .ok (.ok rd)
    | .ok (.error _) => ∃ e1, verizonmedia.shapeImp env a t headers idx1 it = .ok (.error e1) := by
  unfold verizonmedia.shapeImp
  cases env.unmarshalExtImpBidder it.Ext with
  | error e => exact ⟨_, rfl⟩
  | ok bidderExt =>
      dsimp only
      cases env.unmarshalExtImpVerizonMedia bidderExt.Bidder with
      | error e => exact ⟨_, rfl⟩
      | ok ext =>
          dsimp only
          by_cases hdcn : ext.Dcn = ""
          · simp only [hdcn, if_true]
            exact ⟨_, rfl⟩
          · by_cases hpos : ext.Pos = ""
            · simp only [hdcn, hpos, if_true, if_false]
              exact ⟨_, rfl⟩
            · simp only [hdcn, hpos, if_false]
              cases t.Site with
              | none => rfl
              | some site =>
                  dsimp only
                  cases it.Banner with
                  | none =>
                      dsimp only
                      cases verizonmedia.marshalShaped env a headers
                          (verizonmedia.shapedTree t site it ext none) with
                      | error e => exact ⟨_, rfl⟩
                      | ok rd => rfl
                  | some b =>
                      dsimp only
                      cases verizonmedia.bannerForBidService b with
                      | error e => exact ⟨_, rfl⟩
                      | ok b1 =>
                          dsimp only
                          cases verizonmedia.marshalShaped env a headers
                              (verizonmedia.shapedTree t site it ext (some b1)) with
                          | error e => exact ⟨_, rfl⟩
                          | ok rd => rfl

/-- Shaping the same impressions from another index gives the same envelopes and as many
failures. -/
theorem verizonmedia.shapeAll_reindex (env : Stdlib) (a : verizonmedia.VerizonMediaAdapter)
    (t : BidRequestTree) (headers : Header) :
    ∀ (its : List (ImpOf Banner)) (idx idx1 : Nat) (reqs : List RequestData)
      (errs errs1 : List GoError) (out : List RequestData × List GoError),
      errs1.length = errs.length →
      verizonmedia.shapeAll env a t headers idx its (reqs, errs) = .ok out →
      ∃ es1, verizonmedia.shapeAll env a t headers idx1 its (reqs, errs1) = .ok (out.1, es1)
        ∧ es1.length = out.2.length := by
  intro its
  induction its with
  | nil =>
      intro idx idx1 reqs errs errs1 out hlen hout
      simp only [verizonmedia.shapeAll, Except.ok.injEq] at hout
      subst hout
      exact ⟨errs1, rfl, hlen⟩
  | cons it rest ih =>
      intro idx idx1 reqs errs errs1 out hlen hout
      have hr := verizonmedia.shapeImp_reindex env a t headers idx idx1 it
      simp only [verizonmedia.shapeAll] at hout ⊢
      cases hsh : verizonmedia.shapeImp env a t headers idx it with
      | error f => rw [hsh] at hout; cases hout
      | ok res =>
          rw [hsh] at hout hr
          cases res with
          | error e =>
              obtain ⟨e1, he1⟩ := hr
              rw [he1]
              exact ih (idx + 1) (idx1 + 1) reqs (errs ++ [e]) (errs1 ++ [e1]) out
                (by simp [hlen]) hout
          | ok rd =>
              dsimp only at hr
              rw [hr]
              exact ih (idx + 1) (idx1 + 1) (reqs ++ [rd]) errs errs1 out hlen hout

/-- The shaping of an impression does not read the impression list of the tree. -/
theorem verizonmedia.shapeImp_imps (env : Stdlib) (a : verizonmedia.VerizonMediaAdapter)
    (t : BidRequestTree) (headers : Header) (x : List (ImpOf Banner)) (idx : Nat)
    (it : ImpOf Banner) :
    verizonmedia.shapeImp env a { t with Imp := x } headers idx it
      = verizonmedia.shapeImp env a t headers idx it := rfl

/-- The shaping of impressions does not read the impression list of the tree. -/
theorem verizonmedia.shapeAll_imps (env : Stdlib) (a : verizonmedia.VerizonMediaAdapter)
    (t : BidRequestTree) (headers : Header) (x : List (ImpOf Banner)) :
    ∀ (its : List (ImpOf Banner)) (idx : Nat) (st : List RequestData × List GoError),
      verizonmedia.shapeAll env a { t with Imp := x } headers idx its st
        = verizonmedia.shapeAll env a t headers idx its st := by
  intro its
  induction its with
  | nil => intro idx st; rfl
  | cons it rest ih =>
      intro idx st
      obtain ⟨reqs, errs⟩ := st
      simp only [verizonmedia.shapeAll, verizonmedia.shapeImp_imps, ih]

/-- The tree of a request whose impression list is replaced by impressions of the store. -/
theorem Heap.tree_with_imps {h : Heap} {request : BidRequest} {t : BidRequestTree}
    (ht : h.tree request = .ok t) {l : List Imp} {its : List (ImpOf Banner)}
    (hl : h.impTrees l = .ok its) :
    h.tree { request with Imp := l } = .ok { t with Imp := its } := by
  obtain ⟨-, hID, hApp, hDev, hUser, hs⟩ := Heap.tree_eq_ok ht
  unfold Heap.tree
  simp only [hl]
  cases hrs : request.Site with
  | none =>
      rw [hrs] at hs
      simp only [← hID, ← hApp, ← hDev, ← hUser, ← hs]
  | some sp =>
      rw [hrs] at hs
      obtain ⟨s, hsp, hts⟩ := hs
      simp only [hsp, ← hID, ← hApp, ← hDev, ← hUser, ← hts]

/-- What `shapeImp` yields for an impression with invalid parameters: one `BadInput`,
whose message is `imp #` and the index followed by what `paramsFailure` says. -/
theorem verizonmedia.shapeImp_invalid (env : Stdlib) (a : verizonmedia.VerizonMediaAdapter)
    (t : BidRequestTree) (headers : Header) (idx : Nat) (it : ImpOf Banner) (suffix : String)
    (hfail : verizonmedia.paramsFailure env it.Ext = some suffix) :
    verizonmedia.shapeImp env a t headers idx it
      = .ok (.error (.BadInput ("imp #" ++ fmtD idx ++ suffix))) := by
  unfold verizonmedia.paramsFailure at hfail
  unfold verizonmedia.shapeImp
  cases hd1 : env.unmarshalExtImpBidder it.Ext with
  | error e1 =>
      rw [hd1] at hfail
      simp only [Option.some.injEq] at hfail
      subst hfail
      rfl
  | ok bidderExt =>
      rw [hd1] at hfail
      dsimp only at hfail ⊢
      cases hd2 : env.unmarshalExtImpVerizonMedia bidderExt.Bidder with
      | error e2 =>
          rw [hd2] at hfail
          simp only [Option.some.injEq] at hfail
          subst hfail
          dsimp only
          rw [String.append_assoc ("imp #" ++ fmtD idx)]
      | ok ext =>
          rw [hd2] at hfail
          dsimp only at hfail ⊢
          by_cases hdcn : ext.Dcn = ""
          · simp only [hdcn, if_true, Option.some.injEq] at hfail ⊢
            subst hfail
            rfl
          · by_cases hpos : ext.Pos = ""
            · simp only [hdcn, hpos, if_true, if_false, Option.some.injEq] at hfail ⊢
              subst hfail
              rfl
            · simp only [hdcn, hpos, if_false] at hfail
              cases hfail

/-- The result of verizonmedia `MakeRequests` on a request with a site block, seen from
one of its impressions. The call returns; its envelopes are those of the impressions
before, what the impression itself yields, and those of the impressions after, and so are
its failures; every sibling gives exactly one envelope or one failure; the envelopes and
failures of the impressions before are those of the call on these impressions alone, and
the envelopes of the impressions after are those of the call on these impressions alone
(their failures differ by the index in the message only). -/
theorem verizonmedia.MakeRequests_at (env : Stdlib) (a : verizonmedia.VerizonMediaAdapter)
    (h : Heap) (request : BidRequest) (t : BidRequestTree) (site : Site)
    (pre : List Imp) (imp : Imp) (post : List Imp) (it : ImpOf Banner)
    (mid : Except GoError RequestData)
    (ht : h.tree request = .ok t) (hsite : t.Site = some site)
    (hImp : request.Imp = pre ++ imp :: post)
    (hit : h.impTree imp = .ok it)
    (hmid : verizonmedia.shapeImp env a t (verizonmedia.MakeRequests.headers request)
      pre.length it = .ok mid) :
    ∃ r reqsPre errsPre reqsPost errsPost,
      verizonmedia.MakeRequests env a h request = .ok r
      ∧ r.reqs = reqsPre ++ verizonmedia.appendedEnvelope mid ++ reqsPost
      ∧ r.errs = errsPre ++ verizonmedia.appendedFailure mid ++ errsPost
      ∧ reqsPre.length + errsPre.length = pre.length
      ∧ reqsPost.length + errsPost.length = post.length
      ∧ (pre ≠ [] →
          ∃ rp, verizonmedia.MakeRequests env a h { request with Imp := pre } = .ok rp
            ∧ rp.reqs = reqsPre ∧ rp.errs = errsPre)
      ∧ (post ≠ [] →
          ∃ rp, verizonmedia.MakeRequests env a h { request with Imp := post } = .ok rp
            ∧ rp.reqs = reqsPost ∧ rp.errs.length = errsPost.length) := by
  obtain ⟨himps, -, -, -, -, -⟩ := Heap.tree_eq_ok ht
  rw [hImp] at himps
  obtain ⟨tpre, trest, hpre, hrest, htimp⟩ := Heap.impTrees_append himps
  obtain ⟨it1, tpost, hit1, hpost, hrest_eq⟩ := Heap.impTrees_cons_eq_ok hrest
  have hitEq : it1 = it := by
    rw [hit] at hit1
    cases hit1
    rfl
  subst hitEq
  subst hrest_eq
  have hlpre := Heap.impTrees_length hpre
  have hlpost := Heap.impTrees_length hpost
  obtain ⟨⟨r1, e1⟩, ho1⟩ := verizonmedia.shapeAll_returns env a t
    (verizonmedia.MakeRequests.headers request) site hsite tpre 0 ([], [])
  obtain ⟨⟨r2, e2⟩, ho2⟩ := verizonmedia.shapeAll_returns env a t
    (verizonmedia.MakeRequests.headers request) site hsite tpost (pre.length + 1) ([], [])
  have hall : verizonmedia.shapeAll env a t (verizonmedia.MakeRequests.headers request) 0
      t.Imp ([], [])
      = .ok (r1 ++ verizonmedia.appendedEnvelope mid ++ r2,
          e1 ++ verizonmedia.appendedFailure mid ++ e2) := by
    rw [htimp, verizonmedia.shapeAll_append, ho1]
    dsimp only
    rw [Nat.zero_add, hlpre]
    simp only [verizonmedia.shapeAll]
    rw [hmid]
    cases mid with
    | error e =>
        dsimp only
        rw [verizonmedia.shapeAll_acc, ho2]
        simp [verizonmedia.appendedEnvelope, verizonmedia.appendedFailure]
    | ok rd =>
        dsimp only
        rw [verizonmedia.shapeAll_acc, ho2]
        simp [verizonmedia.appendedEnvelope, verizonmedia.appendedFailure]
  have hne : request.Imp ≠ [] := by
    rw [hImp]
    simp
  have href := verizonmedia.MakeRequests_refines env a h request t ht hne
  rw [hall] at href
  obtain ⟨h2, -, heq⟩ := href
  have hc1 := verizonmedia.shapeAll_count env a t _ tpre 0 [] [] _ ho1
  have hc2 := verizonmedia.shapeAll_count env a t _ tpost (pre.length + 1) [] [] _ ho2
  simp only [List.length_nil, Nat.zero_add] at hc1 hc2
  refine ⟨_, r1, e1, r2, e2, heq, rfl, rfl, ?_, ?_, ?_, ?_⟩
  · rw [hc1, hlpre]
  · rw [hc2, hlpost]
  · intro hpne
    have hrefp : match verizonmedia.shapeAll env a { t with Imp := tpre }
          (verizonmedia.MakeRequests.headers { request with Imp := pre }) 0 tpre ([], []) with
        | .error f =>
            verizonmedia.MakeRequests env a h { request with Imp := pre } = .error f
        | .ok out =>
            ∃ h3, h.le h3 ∧
              verizonmedia.MakeRequests env a h { request with Imp := pre }
                = .ok ⟨out.1, out.2, { request with Imp := pre }, h3⟩ :=
      verizonmedia.MakeRequests_refines env a h { request with Imp := pre }
        { t with Imp := tpre } (Heap.tree_with_imps ht hpre) hpne
    have hsub : verizonmedia.shapeAll env a { t with Imp := tpre }
          (verizonmedia.MakeRequests.headers { request with Imp := pre }) 0 tpre ([], [])
        = .ok (r1, e1) :=
      (verizonmedia.shapeAll_imps env a t _ tpre tpre 0 ([], [])).trans ho1
    rw [hsub] at hrefp
    obtain ⟨h3, -, heq3⟩ := hrefp
    exact ⟨_, heq3, rfl, rfl⟩
  · intro hpne
    obtain ⟨es1, hre, hlen⟩ := verizonmedia.shapeAll_reindex env a t
      (verizonmedia.MakeRequests.headers request) tpost (pre.length + 1) 0 [] [] [] (r2, e2)
      rfl ho2
    have hrefp : match verizonmedia.shapeAll env a { t with Imp := tpost }
          (verizonmedia.MakeRequests.headers { request with Imp := post }) 0 tpost ([], []) with
        | .error f =>
            verizonmedia.MakeRequests env a h { request with Imp := post } = .error f
        | .ok out =>
            ∃ h3, h.le h3 ∧
              verizonmedia.MakeRequests env a h { request with Imp := post }
                = .ok ⟨out.1, out.2, { request with Imp := post }, h3⟩ :=
      verizonmedia.MakeRequests_refines env a h { request with Imp := post }
        { t with Imp := tpost } (Heap.tree_with_imps ht hpost) hpne
    have hsub : verizonmedia.shapeAll env a { t with Imp := tpost }
          (verizonmedia.MakeRequests.headers { request with Imp := post }) 0 tpost ([], [])
        = .ok (r2, es1) :=
      (verizonmedia.shapeAll_imps env a t _ tpost tpost 0 ([], [])).trans hre
    rw [hsub] at hrefp
    obtain ⟨h3, -, heq3⟩ := hrefp
    exact ⟨_, heq3, rfl, hlen⟩

/-- The tree of an impression among those of a request. -/
theorem Heap.impTree_of_tree {h : Heap} {request : BidRequest} {t : BidRequestTree}
    (ht : h.tree request = .ok t) {pre post : List Imp} {imp : Imp}
    (hImp : request.Imp = pre ++ imp :: post) :
    ∃ it, h.impTree imp = .ok it ∧ it.Ext = imp.Ext := by
  obtain ⟨himps, -, -, -, -, -⟩ := Heap.tree_eq_ok ht
  rw [hImp] at himps
  obtain ⟨tpre, trest, -, hrest, -⟩ := Heap.impTrees_append himps
  obtain ⟨it, tpost, hit, -, -⟩ := Heap.impTrees_cons_eq_ok hrest
  refine ⟨it, hit, ?_⟩
  rcases Heap.impTree_eq_ok.1 hit with ⟨-, hi⟩ | ⟨q, c, -, -, hi⟩ <;> (subst hi; rfl)

/-- C17. In verizonmedia `MakeRequests` on a request with a site block, an impression at
position i whose parameter blob fails to decode, or decodes with an empty `dcn`, or with
a non-empty `dcn` and an empty `pos`, yields no envelope and exactly one `BadInput` whose
message starts with `imp #i`: the call returns, its failures are those of the impressions
before, this `BadInput`, and those of the impressions after, and its envelopes are those
of the impressions before and after. The siblings are shaped all the same: each gives one
envelope or one failure, those of the impressions before are what the call returns on
these impressions alone, and the envelopes of the impressions after are the envelopes the
call returns on these impressions alone. `dcn` is checked before `pos`. -/
theorem verizonmedia.MakeRequests_invalid_params (env : Stdlib)
    (a : verizonmedia.VerizonMediaAdapter) (h : Heap) (request : BidRequest)
    (t : BidRequestTree) (site : Site) (pre : List Imp) (imp : Imp) (post : List Imp)
    (ht : h.tree request = .ok t) (hsite : t.Site = some site)
    (hImp : request.Imp = pre ++ imp :: post)
    (hinv : verizonmedia.invalidParams env imp.Ext) :
    ∃ suffix r reqsPre errsPre reqsPost errsPost,
      verizonmedia.MakeRequests env a h request = .ok r
      ∧ r.reqs = reqsPre ++ reqsPost
      ∧ r.errs = errsPre ++ [.BadInput ("imp #" ++ fmtD pre.length ++ suffix)] ++ errsPost
      ∧ reqsPre.length + errsPre.length = pre.length
      ∧ reqsPost.length + errsPost.length = post.length
      ∧ (pre ≠ [] →
          ∃ rp, verizonmedia.MakeRequests env a h { request with Imp := pre } = .ok rp
            ∧ rp.reqs = reqsPre ∧ rp.errs = errsPre)
      ∧ (post ≠ [] →
          ∃ rp, verizonmedia.MakeRequests env a h { request with Imp := post } = .ok rp
            ∧ rp.reqs = reqsPost ∧ rp.errs.length = errsPost.length)
      ∧ ((∃ e, env.unmarshalExtImpBidder imp.Ext = .error e) →
          suffix = ": ext.bidder not provided")
      ∧ (∀ bidderExt e, env.unmarshalExtImpBidder imp.Ext = .ok bidderExt →
          env.unmarshalExtImpVerizonMedia bidderExt.Bidder = .error e → suffix = ": " ++ e)
      ∧ (∀ x, verizonmedia.params env imp.Ext = some x → x.Dcn = "" →
          suffix = ": missing param dcn")
      ∧ (∀ x, verizonmedia.params env imp.Ext = some x → x.Dcn ≠ "" → x.Pos = "" →
          suffix = ": missing param pos") := by
  obtain ⟨suffix, hfail⟩ := verizonmedia.paramsFailure_of_invalid env imp.Ext hinv
  obtain ⟨it, hit, hext⟩ := Heap.impTree_of_tree ht hImp
  have hmid := verizonmedia.shapeImp_invalid env a t (verizonmedia.MakeRequests.headers request)
    pre.length it suffix (hext ▸ hfail)
  obtain ⟨r, reqsPre, errsPre, reqsPost, errsPost, hret, hreqs, herrs, hc1, hc2, hp1, hp2⟩ :=
    verizonmedia.MakeRequests_at env a h request t site pre imp post it _ ht hsite hImp hit hmid
  refine ⟨suffix, r, reqsPre, errsPre, reqsPost, errsPost, hret, ?_, herrs, hc1, hc2, hp1, hp2,
    ?_, ?_, ?_, ?_⟩
  · simpa [verizonmedia.appendedEnvelope] using hreqs
  · rintro ⟨e, he⟩
    simp only [verizonmedia.paramsFailure, he, Option.some.injEq] at hfail
    exact hfail.symm
  · intro bidderExt e h1 h2
    simp only [verizonmedia.paramsFailure, h1, h2, Option.some.injEq] at hfail
    exact hfail.symm
  · intro x hx hdcn
    unfold verizonmedia.params at hx
    unfold verizonmedia.paramsFailure at hfail
    cases hd1 : env.unmarshalExtImpBidder imp.Ext with
    | error e1 => rw [hd1] at hx; cases hx
    | ok bidderExt =>
        rw [hd1] at hx hfail
        dsimp only at hx hfail
        cases hd2 : env.unmarshalExtImpVerizonMedia bidderExt.Bidder with
        | error e2 => rw [hd2] at hx; cases hx
        | ok y =>
            rw [hd2] at hx hfail
            simp only [Option.some.injEq] at hx
            subst hx
            simp only [hdcn, if_true, Option.some.injEq] at hfail
            exact hfail.symm
  · intro x hx hdcn hpos
    unfold verizonmedia.params at hx
    unfold verizonmedia.paramsFailure at hfail
    cases hd1 : env.unmarshalExtImpBidder imp.Ext with
    | error e1 => rw [hd1] at hx; cases hx
    | ok bidderExt =>
        rw [hd1] at hx hfail
        dsimp only at hx hfail
        cases hd2 : env.unmarshalExtImpVerizonMedia bidderExt.Bidder with
        | error e2 => rw [hd2] at hx; cases hx
        | ok y =>
            rw [hd2] at hx hfail
            simp only [Option.some.injEq] at hx
            subst hx
            simp only [hdcn, hpos, if_true, if_false, Option.some.injEq] at hfail
            exact hfail.symm

/-- C17 on the impression without `dcn` at position 1, between banner `A` and banner
`B`. -/
theorem verizonmedia.MakeRequests_invalid_params_witness :
    Example.heap.tree Example.requestAFB = .ok Example.treeAFB
    ∧ Example.treeAFB.Site = some ⟨"site-1", "example.com", "/"⟩
    ∧ Example.requestAFB.Imp = [Example.impA] ++ Example.impNoDcn :: [Example.impB]
    ∧ verizonmedia.invalidParams Example.stdlib Example.impNoDcn.Ext
    ∧ ∃ suffix r reqsPre errsPre reqsPost errsPost,
      verizonmedia.MakeRequests Example.stdlib Example.verizon Example.heap Example.requestAFB
        = .ok r
      ∧ r.reqs = reqsPre ++ reqsPost
      ∧ r.errs = errsPre
          ++ [.BadInput ("imp #" ++ fmtD [Example.impA].length ++ suffix)] ++ errsPost
      ∧ reqsPre.length + errsPre.length = [Example.impA].length
      ∧ reqsPost.length + errsPost.length = [Example.impB].length
      ∧ ([Example.impA] ≠ [] →
          ∃ rp, verizonmedia.MakeRequests Example.stdlib Example.verizon Example.heap
              { Example.requestAFB with Imp := [Example.impA] } = .ok rp
            ∧ rp.reqs = reqsPre ∧ rp.errs = errsPre)
      ∧ ([Example.impB] ≠ [] →
          ∃ rp, verizonmedia.MakeRequests Example.stdlib Example.verizon Example.heap
              { Example.requestAFB with Imp := [Example.impB] } = .ok rp
            ∧ rp.reqs = reqsPost ∧ rp.errs.length = errsPost.length)
      ∧ ((∃ e, Example.stdlib.unmarshalExtImpBidder Example.impNoDcn.Ext = .error e) →
          suffix = ": ext.bidder not provided")
      ∧ (∀ bidderExt e,
          Example.stdlib.unmarshalExtImpBidder Example.impNoDcn.Ext = .ok bidderExt →
          Example.stdlib.unmarshalExtImpVerizonMedia bidderExt.Bidder = .error e →
          suffix = ": " ++ e)
      ∧ (∀ x, verizonmedia.params Example.stdlib Example.impNoDcn.Ext = some x →
          x.Dcn = "" → suffix = ": missing param dcn")
      ∧ (∀ x, verizonmedia.params Example.stdlib Example.impNoDcn.Ext = some x →
          x.Dcn ≠ "" → x.Pos = "" → suffix = ": missing param pos") :=
  ⟨rfl, rfl, rfl, Or.inl rfl,
    verizonmedia.MakeRequests_invalid_params Example.stdlib Example.verizon Example.heap
      Example.requestAFB Example.treeAFB ⟨"site-1", "example.com", "/"⟩ [Example.impA]
      Example.impNoDcn [Example.impB] rfl rfl rfl (Or.inl rfl)⟩

/-- What an iteration of the loop yields for an impression with valid parameters and a
banner, on a request with a site block: the envelope of the impression alone with the
banner as `changeRequestForBidService` leaves its copy, or the error it returns. -/
theorem verizonmedia.shapeImp_banner (env : Stdlib) (a : verizonmedia.VerizonMediaAdapter)
    (h : Heap) (t : BidRequestTree) (headers : Header) (idx : Nat) (site : Site) (imp : Imp)
    (ext : ExtImpVerizonMedia) (bp : Ptr) (b : Banner)
    (hsite : t.Site = some site)
    (hparams : verizonmedia.params env imp.Ext = some ext)
    (hdcn : ext.Dcn ≠ "") (hpos : ext.Pos ≠ "")
    (hbanner : imp.Banner = some bp) (hb : h.banner bp = .ok b) :
    h.impTree imp
        = .ok ⟨imp.ID, some b, imp.Video, imp.Audio, imp.Native, imp.TagID, imp.BidFloor,
            imp.Ext⟩
    ∧ verizonmedia.shapeImp env a t headers idx
          ⟨imp.ID, some b, imp.Video, imp.Audio, imp.Native, imp.TagID, imp.BidFloor, imp.Ext⟩
        = match verizonmedia.bannerForBidService b with
          | .error e => .ok (.error e)
          | .ok b1 =>
              .ok (verizonmedia.marshalShaped env a headers
                ⟨t.ID, [⟨imp.ID, some b1, imp.Video, imp.Audio, imp.Native, ext.Pos,
                  imp.BidFloor, imp.Ext⟩], some { site with ID := ext.Dcn }, t.App, t.Device,
                  t.User⟩) := by
  constructor
  · simp only [Heap.impTree, hbanner, hb]
  · rw [verizonmedia.shapeImp_of_params env a t headers idx _ site ext hsite hparams hdcn hpos]
    rfl

/-- C15. In verizonmedia `MakeRequests` on a request with a site block, for an impression
with valid `dcn` and `pos` and a banner: the call returns, and among its envelopes, after
those of the impressions before and before those of the impressions after, is the
envelope of this impression, whose body is the serialisation of the request copy holding
the impression alone with the banner `b1`; `b1` is the banner with the width and height
of the first entry of its format list when the banner lacks a width or a height and has a
non-empty format list, and the banner itself, whatever its format list, when width and
height are both explicit and non-zero. The impression adds no failure, and the siblings
are shaped as they are without it. -/
theorem verizonmedia.MakeRequests_banner_size (env : Stdlib)
    (a : verizonmedia.VerizonMediaAdapter) (h : Heap) (request : BidRequest)
    (t : BidRequestTree) (site : Site) (pre : List Imp) (imp : Imp) (post : List Imp)
    (ext : ExtImpVerizonMedia) (bp : Ptr) (b b1 : Banner) (js : String)
    (ht : h.tree request = .ok t) (hsite : t.Site = some site)
    (hImp : request.Imp = pre ++ imp :: post)
    (hparams : verizonmedia.params env imp.Ext = some ext)
    (hdcn : ext.Dcn ≠ "") (hpos : ext.Pos ≠ "")
    (hbanner : imp.Banner = some bp) (hb : h.banner bp = .ok b)
    (hsize : (∃ f fs, (b.W = none ∨ b.H = none) ∧ b.Format = f :: fs
          ∧ b1 = { b with W := some f.W, H := some f.H })
        ∨ (∃ w hh, b.W = some w ∧ b.H = some hh ∧ w ≠ 0 ∧ hh ≠ 0 ∧ b1 = b))
    (hjs : env.marshalBidRequest
        ⟨t.ID, [⟨imp.ID, some b1, imp.Video, imp.Audio, imp.Native, ext.Pos, imp.BidFloor,
          imp.Ext⟩], some { site with ID := ext.Dcn }, t.App, t.Device, t.User⟩ = .ok js) :
    ∃ r reqsPre errsPre reqsPost errsPost,
      verizonmedia.MakeRequests env a h request = .ok r
      ∧ r.reqs = reqsPre
          ++ [⟨"POST", a.URI, js, verizonmedia.MakeRequests.headers request⟩] ++ reqsPost
      ∧ r.errs = errsPre ++ errsPost
      ∧ reqsPre.length + errsPre.length = pre.length
      ∧ reqsPost.length + errsPost.length = post.length
      ∧ (pre ≠ [] →
          ∃ rp, verizonmedia.MakeRequests env a h { request with Imp := pre } = .ok rp
            ∧ rp.reqs = reqsPre ∧ rp.errs = errsPre)
      ∧ (post ≠ [] →
          ∃ rp, verizonmedia.MakeRequests env a h { request with Imp := post } = .ok rp
            ∧ rp.reqs = reqsPost ∧ rp.errs.length = errsPost.length) := by
  have hsized : verizonmedia.bannerForBidService b = .ok b1 := by
    rcases hsize with ⟨f, fs, hs, hf, h1⟩ | ⟨w, hh, hW, hH, hw, hhh, h1⟩
    · rw [h1]
      exact verizonmedia.bannerForBidService_format b f fs hs hf
    · rw [h1]
      exact verizonmedia.bannerForBidService_explicit b w hh hW hH hw hhh
  obtain ⟨hit, hsh⟩ := verizonmedia.shapeImp_banner env a h t
    (verizonmedia.MakeRequests.headers request) pre.length site imp ext bp b hsite hparams
    hdcn hpos hbanner hb
  have hmid : verizonmedia.shapeImp env a t (verizonmedia.MakeRequests.headers request)
      pre.length
      ⟨imp.ID, some b, imp.Video, imp.Audio, imp.Native, imp.TagID, imp.BidFloor, imp.Ext⟩
      = .ok (.ok ⟨"POST", a.URI, js, verizonmedia.MakeRequests.headers request⟩) := by
    rw [hsh, hsized]
    simp only [verizonmedia.marshalShaped, hjs]
  obtain ⟨r, reqsPre, errsPre, reqsPost, errsPost, hret, hreqs, herrs, hc1, hc2, hp1, hp2⟩ :=
    verizonmedia.MakeRequests_at env a h request t site pre imp post _ _ ht hsite hImp hit hmid
  refine ⟨r, reqsPre, errsPre, reqsPost, errsPost, hret, hreqs, ?_, hc1, hc2, hp1, hp2⟩
  simpa [verizonmedia.appendedFailure] using herrs

/-- C15 on the request with impressions `A` and `B`, serialised with the banner sizes:
the banner of `B` has a format list only and is sent as 728x90, from its first entry; the
banner of `A` is 300x250 and is sent as it is. -/
theorem verizonmedia.MakeRequests_banner_size_witness :
    (Example.heap.tree Example.requestAB = .ok Example.treeAB
      ∧ Example.heap.banner 1 = .ok ⟨none, none, [⟨728, 90⟩, ⟨300, 250⟩], "b1"⟩
      ∧ ∃ r reqsPre errsPre reqsPost errsPost,
        verizonmedia.MakeRequests Example.stdlibSizes Example.verizon Example.heap
            Example.requestAB = .ok r
        ∧ r.reqs = reqsPre
            ++ [⟨"POST", Example.verizon.URI, "dcn-B|B:112:728x90;",
                verizonmedia.MakeRequests.headers Example.requestAB⟩] ++ reqsPost
        ∧ r.errs = errsPre ++ errsPost
        ∧ reqsPre.length + errsPre.length = [Example.impA].length
        ∧ reqsPost.length + errsPost.length = ([] : List Imp).length
        ∧ ([Example.impA] ≠ [] →
            ∃ rp, verizonmedia.MakeRequests Example.stdlibSizes Example.verizon Example.heap
                { Example.requestAB with Imp := [Example.impA] } = .ok rp
              ∧ rp.reqs = reqsPre ∧ rp.errs = errsPre)
        ∧ (([] : List Imp) ≠ [] →
            ∃ rp, verizonmedia.MakeRequests Example.stdlibSizes Example.verizon Example.heap
                { Example.requestAB with Imp := [] } = .ok rp
              ∧ rp.reqs = reqsPost ∧ rp.errs.length = errsPost.length))
    ∧ (Example.heap.banner 0 = .ok ⟨some 300, some 250, [], "b0"⟩
      ∧ ∃ r reqsPre errsPre reqsPost errsPost,
        verizonmedia.MakeRequests Example.stdlibSizes Example.verizon Example.heap
            Example.requestAB = .ok r
        ∧ r.reqs = reqsPre
            ++ [⟨"POST", Example.verizon.URI, "dcn-A|A:111:300x250;",
                verizonmedia.MakeRequests.headers Example.requestAB⟩] ++ reqsPost
        ∧ r.errs = errsPre ++ errsPost
        ∧ reqsPre.length + errsPre.length = ([] : List Imp).length
        ∧ reqsPost.length + errsPost.length = [Example.impB].length
        ∧ (([] : List Imp) ≠ [] →
            ∃ rp, verizonmedia.MakeRequests Example.stdlibSizes Example.verizon Example.heap
                { Example.requestAB with Imp := [] } = .ok rp
              ∧ rp.reqs = reqsPre ∧ rp.errs = errsPre)
        ∧ ([Example.impB] ≠ [] →
            ∃ rp, verizonmedia.MakeRequests Example.stdlibSizes Example.verizon Example.heap
                { Example.requestAB with Imp := [Example.impB] } = .ok rp
              ∧ rp.reqs = reqsPost ∧ rp.errs.length = errsPost.length)) :=
  ⟨⟨rfl, rfl,
      verizonmedia.MakeRequests_banner_size Example.stdlibSizes Example.verizon Example.heap
        Example.requestAB Example.treeAB ⟨"site-1", "example.com", "/"⟩ [Example.impA]
        Example.impB [] ⟨"dcn-B", "112"⟩ 1 ⟨none, none, [⟨728, 90⟩, ⟨300, 250⟩], "b1"⟩
        ⟨some 728, some 90, [⟨728, 90⟩, ⟨300, 250⟩], "b1"⟩ "dcn-B|B:112:728x90;"
        rfl rfl rfl rfl (by decide) (by decide) rfl rfl
        (Or.inl ⟨⟨728, 90⟩, [⟨300, 250⟩], Or.inl rfl, rfl, rfl⟩) rfl⟩,
    ⟨rfl,
      verizonmedia.MakeRequests_banner_size Example.stdlibSizes Example.verizon Example.heap
        Example.requestAB Example.treeAB ⟨"site-1", "example.com", "/"⟩ [] Example.impA
        [Example.impB] ⟨"dcn-A", "111"⟩ 0 ⟨some 300, some 250, [], "b0"⟩
        ⟨some 300, some 250, [], "b0"⟩ "dcn-A|A:111:300x250;"
        rfl rfl rfl rfl (by decide) (by decide) rfl rfl
        (Or.inr ⟨300, 250, rfl, rfl, by decide, by decide, rfl⟩) rfl⟩⟩

/-- The two envelopes of the request with impressions `A` and `B`, serialised with the
banner sizes: 300x250 as the banner of `A` has it, 728x90 from the first entry of the
format list of the banner of `B`. -/
theorem verizonmedia.MakeRequests_sizes_run :
    ∃ h2, verizonmedia.MakeRequests Example.stdlibSizes Example.verizon Example.heap
        Example.requestAB
      = .ok ⟨[⟨"POST", "http://verizon/bid", "dcn-A|A:111:300x250;", Example.verizonHeaders⟩,
              ⟨"POST", "http://verizon/bid", "dcn-B|B:112:728x90;", Example.verizonHeaders⟩],
            [], Example.requestAB, h2⟩ :=
  ⟨_, rfl⟩

/-- C16, as the code has it: in verizonmedia `MakeRequests` on a request with a site
block, an impression with valid `dcn` and `pos` whose banner lacks a width or a height
and has an empty format list gets no envelope and exactly one failure, the plain error
`No sizes provided for Banner []` of `changeRequestForBidService`, which is not a
`BadInput`: the call returns, its failures are those of the impressions before, this
error, and those of the impressions after, and its envelopes are those of the impressions
before and after. The siblings are shaped all the same: each gives one envelope or one
failure, those of the impressions before are what the call returns on these impressions
alone, and the envelopes of the impressions after are the envelopes the call returns on
these impressions alone. -/
theorem verizonmedia.MakeRequests_no_banner_size (env : Stdlib)
    (a : verizonmedia.VerizonMediaAdapter) (h : Heap) (request : BidRequest)
    (t : BidRequestTree) (site : Site) (pre : List Imp) (imp : Imp) (post : List Imp)
    (ext : ExtImpVerizonMedia) (bp : Ptr) (b : Banner)
    (ht : h.tree request = .ok t) (hsite : t.Site = some site)
    (hImp : request.Imp = pre ++ imp :: post)
    (hparams : verizonmedia.params env imp.Ext = some ext)
    (hdcn : ext.Dcn ≠ "") (hpos : ext.Pos ≠ "")
    (hbanner : imp.Banner = some bp) (hb : h.banner bp = .ok b)
    (hsize : b.W = none ∨ b.H = none) (hformat : b.Format = []) :
    ∃ r reqsPre errsPre reqsPost errsPost,
      verizonmedia.MakeRequests env a h request = .ok r
      ∧ r.reqs = reqsPre ++ reqsPost
      ∧ r.errs = errsPre ++ [.errorString ("No sizes provided for Banner " ++ "[]")]
          ++ errsPost
      ∧ (GoError.errorString ("No sizes provided for Banner " ++ "[]")).isBadInput = false
      ∧ reqsPre.length + errsPre.length = pre.length
      ∧ reqsPost.length + errsPost.length = post.length
      ∧ (pre ≠ [] →
          ∃ rp, verizonmedia.MakeRequests env a h { request with Imp := pre } = .ok rp
            ∧ rp.reqs = reqsPre ∧ rp.errs = errsPre)
      ∧ (post ≠ [] →
          ∃ rp, verizonmedia.MakeRequests env a h { request with Imp := post } = .ok rp
            ∧ rp.reqs = reqsPost ∧ rp.errs.length = errsPost.length) := by
  obtain ⟨hit, hsh⟩ := verizonmedia.shapeImp_banner env a h t
    (verizonmedia.MakeRequests.headers request) pre.length site imp ext bp b hsite hparams
    hdcn hpos hbanner hb
  have hmid : verizonmedia.shapeImp env a t (verizonmedia.MakeRequests.headers request)
      pre.length
      ⟨imp.ID, some b, imp.Video, imp.Audio, imp.Native, imp.TagID, imp.BidFloor, imp.Ext⟩
      = .ok (.error (.errorString ("No sizes provided for Banner " ++ "[]"))) := by
    rw [hsh, verizonmedia.bannerForBidService_no_size b hsize hformat]
  obtain ⟨r, reqsPre, errsPre, reqsPost, errsPost, hret, hreqs, herrs, hc1, hc2, hp1, hp2⟩ :=
    verizonmedia.MakeRequests_at env a h request t site pre imp post _ _ ht hsite hImp hit hmid
  refine ⟨r, reqsPre, errsPre, reqsPost, errsPost, hret, ?_, herrs, rfl, hc1, hc2, hp1, hp2⟩
  simpa [verizonmedia.appendedEnvelope] using hreqs

/-- C16 on the request with impressions `A` and `B` in a store where the banner of `B` has
neither sizes nor a format list. -/
theorem verizonmedia.MakeRequests_no_banner_size_witness :
    Example.heapNoSize.tree Example.requestAB = .ok Example.treeABNoSize
    ∧ Example.heapNoSize.banner 1 = .ok ⟨none, none, [], "b1"⟩
    ∧ ∃ r reqsPre errsPre reqsPost errsPost,
      verizonmedia.MakeRequests Example.stdlib Example.verizon Example.heapNoSize
          Example.requestAB = .ok r
      ∧ r.reqs = reqsPre ++ reqsPost
      ∧ r.errs = errsPre ++ [.errorString ("No sizes provided for Banner " ++ "[]")]
          ++ errsPost
      ∧ (GoError.errorString ("No sizes provided for Banner " ++ "[]")).isBadInput = false
      ∧ reqsPre.length + errsPre.length = [Example.impA].length
      ∧ reqsPost.length + errsPost.length = ([] : List Imp).length
      ∧ ([Example.impA] ≠ [] →
          ∃ rp, verizonmedia.MakeRequests Example.stdlib Example.verizon Example.heapNoSize
              { Example.requestAB with Imp := [Example.impA] } = .ok rp
            ∧ rp.reqs = reqsPre ∧ rp.errs = errsPre)
      ∧ (([] : List Imp) ≠ [] →
          ∃ rp, verizonmedia.MakeRequests Example.stdlib Example.verizon Example.heapNoSize
              { Example.requestAB with Imp := [] } = .ok rp
            ∧ rp.reqs = reqsPost ∧ rp.errs.length = errsPost.length) :=
  ⟨rfl, rfl,
    verizonmedia.MakeRequests_no_banner_size Example.stdlib Example.verizon Example.heapNoSize
      Example.requestAB Example.treeABNoSize ⟨"site-1", "example.com", "/"⟩ [Example.impA]
      Example.impB [] ⟨"dcn-B", "112"⟩ 1 ⟨none, none, [], "b1"⟩ rfl rfl rfl rfl (by decide)
      (by decide) rfl rfl (Or.inl rfl) rfl⟩

end PrebidServer
